import Mathlib

/-!
# ECW / JPEG2000 create-copy pipeline (`frmts/ecw/ecwcreatecopy.cpp`)

A shallow embedding of the write path of the ECW driver: the projection/datum
resolver `ECWTranslateFromWKT`, the compressor adapter `GDALECWCompressor`,
the copy-mode entry points `ECWCreateCopyECW` and `ECWCreateCopyJPEG2000`, and
the write-only dataset `ECWWriteDataset` with its raster bands.

Conventions of the embedding.

* C strings are `String`; a pointer that may be `NULL` is an `Option`.  The
  arrays `char szProjection[128]` and `char szDatum[128]` of `Initialize` have
  their size: `Initialize` is `none` where a text of 128 or more characters is
  copied into one of them.  The output buffers of `ECWTranslateFromWKT` belong
  to its caller, which answers for their size.
* `float` and `double` values are exact rationals (`ℚ`).  The conversion of a
  decimal text to `double` and the cast to `float` round to the nearest number
  of the format, ties to even (`toDouble`, `toFloat`); the exponent range of
  the formats is not limited, and infinities and NaN have no counterpart.
  Comparisons are exact on the values they compare.
* `int` values are `Int`.  A value is reduced to the range of its type where
  the source stores it: the result of `atoi` and of `%d` (`storeInt`), the
  16-bit members of the file description, the casts `(UINT32)` and `(UINT16)`.
* Calls that leave this file (the codec base class `CNCSFile`, the VSI file
  layer, the C library, the spatial-reference library) take their answers from
  an environment `Env`; the calls into the codec and the file layer, and the
  error reports, are recorded, in order, in the `log` of the compressor.
* An output buffer of a C function is an argument (its content before the
  call) and a component of the result (its content after the call).
* A function returns `none` where the source dereferences a `NULL` pointer
  or writes past the end of an array.
-/

namespace ECW

/-! ## Basic types -/

/-- One byte of raster data (`GByte`). -/
abbrev GByte := Nat

/-- Result code of the raster framework (`CPLErr`). -/
inductive CPLErr
  | CE_None
  | CE_Failure
  | CE_Warning
  deriving DecidableEq, Repr

/-- Error numbers passed to `CPLError`. -/
inductive CPLErrorNum
  | CPLE_AppDefined
  | CPLE_OpenFailed
  | CPLE_NotSupported
  deriving DecidableEq, Repr

/-- Raster sample types (`GDALDataType`). -/
inductive GDALDataType
  | GDT_Unknown
  | GDT_Byte
  | GDT_UInt16
  | GDT_Int16
  | GDT_UInt32
  | GDT_Int32
  | GDT_Float32
  | GDT_Float64
  | GDT_CInt16
  | GDT_CInt32
  | GDT_CFloat32
  | GDT_CFloat64
  deriving DecidableEq, Repr

/-- Modelled from the spec: `GDALGetDataTypeSize` is declared in `gdal.h` and
defined outside this file; it gives the size of a sample type in bits
(Byte 8, Int16/UInt16 16, Int32/UInt32/Float32 32, Float64 64, CInt16 32,
CInt32 64, CFloat32 64, CFloat64 128, and 0 for the unknown type). -/
def GDALGetDataTypeSize : GDALDataType → Nat
  | .GDT_Unknown => 0
  | .GDT_Byte => 8
  | .GDT_UInt16 => 16
  | .GDT_Int16 => 16
  | .GDT_UInt32 => 32
  | .GDT_Int32 => 32
  | .GDT_Float32 => 32
  | .GDT_Float64 => 64
  | .GDT_CInt16 => 32
  | .GDT_CInt32 => 64
  | .GDT_CFloat32 => 64
  | .GDT_CFloat64 => 128

/-- Cell types of the codec (`NCSEcwCellType`). -/
inductive NCSEcwCellType
  | NCSCT_UINT8
  | NCSCT_UINT16
  | NCSCT_UINT32
  | NCSCT_INT16
  | NCSCT_INT32
  | NCSCT_IEEE4
  | NCSCT_IEEE8
  deriving DecidableEq, Repr

/-- Colour spaces of the codec (`NCSFileColorSpace`). -/
inductive NCSFileColorSpace
  | NCSCS_NONE
  | NCSCS_GREYSCALE
  | NCSCS_sRGB
  | NCSCS_MULTIBAND
  deriving DecidableEq, Repr

/-- Cell size units of the codec (`CellSizeUnits`). -/
inductive CellSizeUnits
  | ECW_CELL_UNITS_INVALID
  | ECW_CELL_UNITS_METERS
  deriving DecidableEq, Repr

/-- One band descriptor handed to the codec (`NCSFileBandInfo`). -/
structure NCSFileBandInfo where
  nBits : Nat
  bSigned : Bool
  szDesc : String
  deriving DecidableEq, Repr

/-- File description handed to the codec (`NCSFileViewFileInfoEx`).  The
members `nBands` and `nCompressionRate` are `UINT16` in the codec's header:
they hold the value assigned to them modulo 65536.  `nCompressionRate` is
`none` where the source converts an infinite `float` to `int`, which has no
defined value. -/
structure NCSFileViewFileInfoEx where
  nBands : Int
  nSizeX : Int
  nSizeY : Int
  nCompressionRate : Option Int
  eCellSizeUnits : CellSizeUnits
  eColorSpace : NCSFileColorSpace
  eCellType : NCSEcwCellType
  pBands : List NCSFileBandInfo
  fOriginX : ℚ
  fOriginY : ℚ
  fCellIncrementX : ℚ
  fCellIncrementY : ℚ
  fCWRotationDegrees : ℚ
  szDatum : String
  szProjection : String
  deriving DecidableEq

/-- Parameters of `CNCSFile::SetParameter`, with the value passed along. -/
inductive JP2Parameter
  | JP2_COMPRESS_PROFILE_BASELINE_0
  | JP2_COMPRESS_PROFILE_BASELINE_1
  | JP2_COMPRESS_PROFILE_BASELINE_2
  | JP2_COMPRESS_PROFILE_NITF_BIIF_NPJE
  | JP2_COMPRESS_PROFILE_NITF_BIIF_EPJE
  | JP2_COMPRESS_CODESTREAM_ONLY (b : Bool)
  | JP2_COMPRESS_LEVELS (n : Nat)
  | JP2_COMPRESS_LAYERS (n : Nat)
  | JP2_COMPRESS_PRECINCT_WIDTH (n : Nat)
  | JP2_COMPRESS_PRECINCT_HEIGHT (n : Nat)
  | JP2_COMPRESS_TILE_WIDTH (n : Nat)
  | JP2_COMPRESS_TILE_HEIGHT (n : Nat)
  | JP2_COMPRESS_INCLUDE_SOP (b : Bool)
  | JP2_COMPRESS_INCLUDE_EPH (b : Bool)
  | JP2_COMPRESS_PROGRESSION_LRCP
  | JP2_COMPRESS_PROGRESSION_RLCP
  | JP2_COMPRESS_PROGRESSION_RPCL
  | JP2_DECOMPRESS_LAYERS (n : Nat)
  | JPC_DECOMPRESS_RECONSTRUCTION_PARAMETER (x : ℚ)
  deriving DecidableEq

/-- One call that leaves this file, as recorded in the compressor log.  The
Boolean of a codec or file call is the success the environment answered. -/
inductive Event
  | CPLError (eErrClass : CPLErr) (err_no : CPLErrorNum) (fmt : String)
  | SetParameter (p : JP2Parameter)
  | VSIFOpenL (pszFilename : String) (ok : Bool)
  | Access (pszFilename : String) (offset size : Int)
  | SetFileInfo (info : NCSFileViewFileInfoEx) (ok : Bool)
  | Open (pszFilename : String) (ok : Bool)
  | OpenStream (pszFilename : String) (ok : Bool)
  | WriteLineBIL (eType : NCSEcwCellType) (nBands : Nat)
      (papOutputLine : List (List GByte)) (ok : Bool)
  | Close
  | VSIFCloseL (pszFilename : String)
  | pfnProgress (dfComplete : Option ℚ) (ok : Bool)
  | RasterIO (iBand nYOff : Nat) (eBufType : GDALDataType) (ok : Bool)
  | GDALOpen (pszFilename : String) (ok : Bool)
  deriving DecidableEq

/-- Result of the spatial-reference library on one coordinate system: the
answers of the `OGRSpatialReference` queries the resolver makes. -/
structure OGRSpatialReference where
  IsLocal : Bool
  IsProjected : Bool
  IsGeographic : Bool
  GetAuthorityCode : String → Option String
  GetAuthorityName : String → Option String
  GetAttrValue : String → Option String
  GetUTMZone : Int × Bool

/-- Answers of the collaborators outside this file for the duration of one
call: the C library (the `double` that `atof` returns for a text that is not
a decimal number: a hexadecimal, `INF` or `NAN` spelling), the option helpers,
the file layer, the spatial-reference library, the codec and its registry,
and the content of freshly allocated memory. -/
structure Env where
  atof : String → ℚ
  CSLTestBoolean : String → Bool
  VSIFOpenL : String → Bool
  importFromWkt : String → OGRSpatialReference
  GetProjectionAndDatum : Int → Bool × Option String × Option String
  ECWGetCSList : List String
  SetFileInfo : NCSFileViewFileInfoEx → Bool
  Open : String → Bool
  OpenStream : String → Bool
  WriteLineBIL : NCSEcwCellType → Nat → List (List GByte) → Bool
  garbage : Nat → GByte
  pfnProgress : Option ℚ → Bool
  RasterIO : Nat → Nat → GDALDataType → Bool
  GDALOpen : String → Bool

/-! ## C library and option-list helpers -/

/-- Case-insensitive comparison of two strings (`EQUAL`, that is
`strcasecmp(a,b)==0`). -/
def EQUAL (a b : String) : Bool :=
  a.data.map Char.toLower == b.data.map Char.toLower

/-- Case-insensitive comparison of the first `n` characters (`EQUALN`, that is
`strncasecmp(a,b,n)==0`). -/
def EQUALN (a b : String) (n : Nat) : Bool :=
  (a.data.take n).map Char.toLower == (b.data.take n).map Char.toLower

/-- Position-free `strstr` on character lists: the suffix of `hay` that starts
at the first occurrence of `needle`, or `none`. -/
def strstrChars (needle : List Char) : List Char → Option (List Char)
  | [] => if needle.isEmpty then some [] else none
  | c :: cs =>
    if needle.isPrefixOf (c :: cs) then some (c :: cs) else strstrChars needle cs

/-- Whether `strstr(hay, needle)` is non-`NULL`. -/
def strstr (hay needle : String) : Bool :=
  (strstrChars needle.data hay.data).isSome

/-- The C predicate `isspace` in the "C" locale. -/
def isspace (c : Char) : Bool :=
  c == ' ' || c == '\t' || c == '\n' || c == '\r' || c.toNat == 11 || c.toNat == 12

/-- Value of a run of decimal digits, most significant first, continuing
from `acc`; also returns what follows the run. -/
def scanDigits : Nat → List Char → Nat × List Char
  | acc, c :: cs =>
    if c.isDigit then scanDigits (acc * 10 + (c.toNat - '0'.toNat)) cs else (acc, c :: cs)
  | acc, [] => (acc, [])

/-- The optional sign of a decimal integer: whether it is a minus, and the
text after it. -/
def scanSign : List Char → Bool × List Char
  | '-' :: r => (true, r)
  | '+' :: r => (false, r)
  | r => (false, r)

/-- The conversion `%d` of `sscanf` (and the body of `atoi`): skip white
space, read an optional sign and at least one decimal digit.  Gives the value
and the rest of the input, or `none` when no digit is found. -/
def scanInt (s : List Char) : Option (Int × List Char) :=
  let s1 := s.dropWhile isspace
  let sign := scanSign s1
  match sign.2 with
  | c :: _ =>
    if c.isDigit then
      let r := scanDigits 0 sign.2
      some (if sign.1 then -(r.1 : Int) else (r.1 : Int), r.2)
    else none
  | [] => none

/-- The `int` that `atoi` returns, and that `%d` of `sscanf` stores, for the
decimal number `v`: `v` itself when it fits an `int`.  Beyond that range the
C library converts as `strtol` does, which stops at the ends of the range of
`long`, and the conversion to `int` keeps the low 32 bits. -/
def storeInt (v : Int) : Int :=
  (max (-9223372036854775808) (min v 9223372036854775807) + 2147483648) % 4294967296
    - 2147483648

/-- The C function `atoi`: the leading decimal integer of the text, 0 when
there is none. -/
def atoi (s : String) : Int :=
  match scanInt s.data with
  | some (v, _) => storeInt v
  | none => 0

/-- The cast `(UINT32)` of an `int`. -/
def toUINT32 (v : Int) : Nat := (v % 4294967296).toNat

/-! ## Floating-point conversions -/

/-- The position of the leading binary digit of `n`: the largest `k` with
`2 ^ k ≤ n` for a positive `n`, and 0 for 0.  `fuel` bounds the number of
halvings; `n` itself is enough. -/
def log2Floor : Nat → Nat → Nat
  | 0, _ => 0
  | fuel + 1, n => if n < 2 then 0 else log2Floor fuel (n / 2) + 1

/-- The number `n * 2 ^ k` for `k ≥ 0`, and `n` itself for a negative `k`. -/
def scale2 (k : Int) (n : Nat) : Nat := n * 2 ^ k.toNat

/-- A first value for the binary exponent of `n / d`: the true one or the true
one plus 1. -/
def exponentGuess (n d : Nat) : Int := (log2Floor n n : Int) - (log2Floor d d : Int)

/-- The binary exponent of the positive fraction `n / d`: the `e` with
`2 ^ e ≤ n / d < 2 ^ (e + 1)`. -/
def binaryExponent (n d : Nat) : Int :=
  if scale2 (exponentGuess n d) d ≤ scale2 (-exponentGuess n d) n then exponentGuess n d
  else exponentGuess n d - 1

/-- The whole number nearest to `ns / ds`; of two nearest ones, the even
one. -/
def roundQuotient (ns ds : Nat) : Nat :=
  if 2 * (ns % ds) < ds then ns / ds
  else if ds < 2 * (ns % ds) then ns / ds + 1
  else if (ns / ds) % 2 = 0 then ns / ds
  else ns / ds + 1

/-- Rounding to a binary floating-point number with `p` significant bits, to
nearest and ties to even (the rounding of IEEE 754 formats).  The exponent
range is not limited: neither overflow to an infinity nor gradual underflow
is modelled. -/
def roundBinary (p : Nat) (x : ℚ) : ℚ :=
  if x.num = 0 then 0
  else
    let q : Int := binaryExponent x.num.natAbs x.den - ((p : Int) - 1)
    mkRat (Int.sign x.num
        * (scale2 q (roundQuotient (scale2 (-q) x.num.natAbs) (scale2 q x.den)) : Int))
      (scale2 (-q) 1)

/-- The `double` nearest to a number (53 significant bits). -/
def toDouble (x : ℚ) : ℚ := roundBinary 53 x

/-- The cast `(float)` of a `double` (24 significant bits). -/
def toFloat (x : ℚ) : ℚ := roundBinary 24 x

/-- Whether the text after the sign begins one of the spellings that `strtod`
reads but that are no decimal number: `0x` (hexadecimal), `inf` and `nan`,
in either case. -/
def specialSpelling (s : List Char) : Bool :=
  "0x".data.isPrefixOf (s.map Char.toLower)
    || "inf".data.isPrefixOf (s.map Char.toLower)
    || "nan".data.isPrefixOf (s.map Char.toLower)

/-- The fraction part of a decimal number, read after the digits that gave
`acc`: the value of all digits read so far, the number of fraction digits and
the rest of the text. -/
def scanFraction (acc : Nat) (s : List Char) : Nat × Nat × List Char :=
  match s with
  | '.' :: r => ((scanDigits acc r).1, r.length - (scanDigits acc r).2.length, (scanDigits acc r).2)
  | _ => (acc, 0, s)

/-- The exponent part of a decimal number: the value after `e` or `E`, an
optional sign and at least one digit; 0 when the text does not begin so. -/
def scanExponent (s : List Char) : Int :=
  match s with
  | c :: r =>
    if c = 'e' ∨ c = 'E' then
      match (scanSign r).2 with
      | d :: _ =>
        if d.isDigit then
          (if (scanSign r).1 then -((scanDigits 0 (scanSign r).2).1 : Int)
           else ((scanDigits 0 (scanSign r).2).1 : Int))
        else 0
      | [] => 0
    else 0
  | [] => 0

/-- The decimal number at the start of a text, as `strtod` reads it in the
"C" locale: white space, an optional sign, digits with an optional point, an
optional exponent.  The result is the sign (whether it is a minus), the value
`m` of the digits and the power `e` of ten, for the number `m * 10 ^ e`; it is
zero when no digit is found, and `none` for the spellings that are no decimal
number. -/
def strtodDecimal (s : List Char) : Option (Bool × Nat × Int) :=
  let sign := scanSign (s.dropWhile isspace)
  if specialSpelling sign.2 then none
  else
    let ip := scanDigits 0 sign.2
    let fp := scanFraction ip.1 ip.2
    if (sign.2.length - ip.2.length) + fp.2.1 = 0 then some (false, 0, 0)
    else some (sign.1, fp.1, scanExponent fp.2.2 - (fp.2.1 : Int))

/-- The number `m * 10 ^ e`, with a minus sign when `neg` is set. -/
def decimalValue (neg : Bool) (m : Nat) (e : Int) : ℚ :=
  mkRat ((if neg then -1 else 1) * ((m * 10 ^ e.toNat : Nat) : Int)) (10 ^ (-e).toNat)

/-- The C function `atof`: the `double` nearest to the decimal number at the
start of the text; for a spelling that is no decimal number, the answer of
the environment. -/
def atof (env : Env) (s : String) : ℚ :=
  match strtodDecimal s.data with
  | some (neg, m, e) => toDouble (decimalValue neg m e)
  | none => env.atof s

/-- Decimal digits of a number, least significant first, at most `fuel + 1`
of them. -/
def revDigits : Nat → Nat → List Char
  | 0, n => [Char.ofNat (48 + n % 10)]
  | fuel + 1, n =>
    if n < 10 then [Char.ofNat (48 + n)]
    else Char.ofNat (48 + n % 10) :: revDigits fuel (n / 10)

/-- The conversion `%d` of `sprintf` on a non-negative number. -/
def fmtD (n : Nat) : String := ⟨(revDigits n n).reverse⟩

/-- The conversion `%02d` of `sprintf` on a non-negative number: at least two
digits, padded with a zero on the left. -/
def fmt02D (n : Nat) : String :=
  if n < 10 then ⟨'0' :: (fmtD n).data⟩ else fmtD n

/-- Modelled from the spec: the option list is "a mapping of recognized option
keys to values"; `CSLFetchNameValue`, defined outside this file, looks a key
up in a list of `KEY=VALUE` (or `KEY:VALUE`) strings, comparing the key
without regard to case, and returns the value of the first match. -/
def CSLFetchNameValue : List String → String → Option String
  | [], _ => none
  | entry :: rest, name =>
    if EQUALN entry name name.length
        && ((entry.data.drop name.length).head? == some '='
            || (entry.data.drop name.length).head? == some ':') then
      some ⟨entry.data.drop (name.length + 1)⟩
    else CSLFetchNameValue rest name

/-! ## Projection / datum resolver -/

/-- The test `strstr(s,a) && strstr(s,b)`; `none` when `s` is `NULL`, which
`strstr` dereferences. -/
def strstrBoth (s : Option String) (a b : String) : Option Bool :=
  match s with
  | none => none
  | some s => some (strstr s a && strstr s b)

/-- One test of the "well known" chain of `ECWTranslateFromWKT`,
`nEPSGCode == code || (strstr(pszGEOGCS,a) && strstr(pszGEOGCS,b))
 || (strstr(pszWKTDatum,a) && strstr(pszWKTDatum,b))`,
evaluated left to right with short circuit. -/
def wellKnownTest (nEPSGCode code : Nat) (pszGEOGCS pszWKTDatum : Option String)
    (a b : String) : Option Bool :=
  if nEPSGCode = code then some true
  else
    match strstrBoth pszGEOGCS a b with
    | none => none
    | some true => some true
    | some false => strstrBoth pszWKTDatum a b

/-- The exact authority-code mappings that end the "well known" chain; the
datum is left as it is when no code matches. -/
def codeDatum (nEPSGCode : Nat) (pszDatum : String) : String :=
  if nEPSGCode = 4277 then "OSGB36"
  else if nEPSGCode = 4278 then "OSGB78"
  else if nEPSGCode = 4201 then "ADINDAN"
  else if nEPSGCode = 4202 then "AGD66"
  else if nEPSGCode = 4203 then "AGD84"
  else if nEPSGCode = 4209 then "ARC1950"
  else if nEPSGCode = 4210 then "ARC1960"
  else if nEPSGCode = 4275 then "NTF"
  else if nEPSGCode = 4284 then "PULKOVO"
  else pszDatum

/-- The block "Is this a well known geographic coordinate system?" of
`ECWTranslateFromWKT`, entered when the datum is still `RAW`: the new datum. -/
def wellKnownDatum (nEPSGCode : Nat) (pszGEOGCS pszWKTDatum : Option String)
    (pszDatum : String) : Option String :=
  match wellKnownTest nEPSGCode 4326 pszGEOGCS pszWKTDatum "WGS" "84" with
  | none => none
  | some true => some "WGS84"
  | some false =>
  match wellKnownTest nEPSGCode 4322 pszGEOGCS pszWKTDatum "WGS" "72" with
  | none => none
  | some true => some "WGS72DOD"
  | some false =>
  match wellKnownTest nEPSGCode 4267 pszGEOGCS pszWKTDatum "NAD" "27" with
  | none => none
  | some true => some "NAD27"
  | some false =>
  match wellKnownTest nEPSGCode 4269 pszGEOGCS pszWKTDatum "NAD" "83" with
  | none => none
  | some true => some "NAD83"
  | some false => some (codeDatum nEPSGCode pszDatum)

/-- The authority code and name of the top-level system, as fetched at the
start of `ECWTranslateFromWKT`. -/
def topAuthority (oSRS : OGRSpatialReference) : Option String × Option String :=
  if oSRS.IsProjected then
    (oSRS.GetAuthorityCode "PROJCS", oSRS.GetAuthorityName "PROJCS")
  else if oSRS.IsGeographic then
    (oSRS.GetAuthorityCode "GEOGCS", oSRS.GetAuthorityName "GEOGCS")
  else (none, none)

/-- The value of `nEPSGCode` after the authority test. -/
def epsgCode (pszAuthorityCode pszAuthorityName : Option String) : Nat :=
  match pszAuthorityName, pszAuthorityCode with
  | some name, some code =>
    if EQUAL name "EPSG" && decide (atoi code > 0) then toUINT32 (atoi code) else 0
  | _, _ => 0

/-- The registry step: the pair of `GetProjectionAndDatum` when the code is
non-zero, the call succeeds and both strings are non-`NULL`. -/
def registryLookup (env : Env) (nEPSGCode : Nat) (pszAuthorityCode : Option String) :
    Option (String × String) :=
  if nEPSGCode ≠ 0 then
    match pszAuthorityCode with
    | some code =>
      match env.GetProjectionAndDatum (atoi code) with
      | (true, some pszEPSGProj, some pszEPSGDatum) => some (pszEPSGProj, pszEPSGDatum)
      | _ => none
    | none => none
  else none

/-- The C function `strcpy(dst, src)` on a destination that has room for
`src`: the content of `dst` after the call.  `ECWTranslateFromWKT` copies into
the buffers its caller hands it; the room they have is the caller's matter,
see `strcpyArray`. -/
def strcpy (_dst src : String) : String := src

/-- The C function `strcpy` into an array of `size` characters: the content of
the array after the call, or `none` where `src` and its terminator do not
fit and the copy runs past the end of the array. -/
def strcpyArray (size : Nat) (src : String) : Option String :=
  if src.length < size then some src else none

/-- The block "Is our GEOGCS name already defined in ecw_cs.dat?" of
`ECWTranslateFromWKT`: the datum after it.  The name of the geographic system
is looked up in the static table when it is not `NULL`, and becomes the datum
when the entry found begins with `GEOGCS`. -/
def tableDatum (env : Env) (pszGEOGCS : Option String) (pszDatum : String) : String :=
  let pszMatch :=
    match pszGEOGCS with
    | some g => CSLFetchNameValue env.ECWGetCSList g
    | none => none
  match pszMatch, pszGEOGCS with
  | some m, some g => if EQUALN m "GEOGCS" 6 then strcpy pszDatum g else pszDatum
  | _, _ => pszDatum

/-- The two datum blocks of `ECWTranslateFromWKT`, the static table and then,
when the datum is still `RAW`, the "well known" chain: the datum after them,
or `none` where the chain hands a `NULL` name to `strstr`. -/
def datumBlocks (env : Env) (nEPSGCode : Nat) (pszGEOGCS pszWKTDatum : Option String)
    (pszDatum : String) : Option String :=
  let pszDatum := tableDatum env pszGEOGCS pszDatum
  if EQUAL pszDatum "RAW" then wellKnownDatum nEPSGCode pszGEOGCS pszWKTDatum pszDatum
  else some pszDatum

/-- `ECWTranslateFromWKT( pszWKT, pszProjection, pszDatum )`: the return value
and the content of the two output buffers after the call; the last two
arguments are what the buffers hold before it.  `none` where the source hands
a `NULL` name to `strstr`. -/
def ECWTranslateFromWKT (env : Env) (pszWKT : Option String)
    (pszProjection pszDatum : String) : Option (Bool × String × String) :=
  let pszProjection := strcpy pszProjection "RAW"
  let pszDatum := strcpy pszDatum "RAW"
  match pszWKT with
  | none => some (false, pszProjection, pszDatum)
  | some wkt =>
  if wkt.length = 0 then some (false, pszProjection, pszDatum)
  else
  let oSRS := env.importFromWkt wkt
  if oSRS.IsLocal then some (true, pszProjection, pszDatum)
  else
  let pszAuthorityCode := (topAuthority oSRS).1
  let pszAuthorityName := (topAuthority oSRS).2
  let nEPSGCode := epsgCode pszAuthorityCode pszAuthorityName
  match registryLookup env nEPSGCode pszAuthorityCode with
  | some (pszEPSGProj, pszEPSGDatum) => some (true, pszEPSGProj, pszEPSGDatum)
  | none =>
  let pszGEOGCS := oSRS.GetAttrValue "GEOGCS"
  let pszWKTDatum := oSRS.GetAttrValue "DATUM"
  match datumBlocks env nEPSGCode pszGEOGCS pszWKTDatum pszDatum with
  | none => none
  | some pszDatum =>
  if oSRS.IsGeographic then some (true, strcpy pszProjection "GEODETIC", pszDatum)
  else
  if oSRS.GetUTMZone.1 > 0 then
    if oSRS.GetUTMZone.2 then
      some (true, "NUTM" ++ fmt02D oSRS.GetUTMZone.1.toNat, pszDatum)
    else
      some (true, "SUTM" ++ fmt02D oSRS.GetUTMZone.1.toNat, pszDatum)
  else
  let pszPROJCS := oSRS.GetAttrValue "PROJCS"
  let pszMatch2 :=
    match pszPROJCS, pszGEOGCS with
    | some _, some g => CSLFetchNameValue env.ECWGetCSList g
    | _, _ => none
  match pszMatch2, pszPROJCS with
  | some m, some p =>
    if EQUALN m "PROJCS" 6 then some (true, strcpy pszProjection p, pszDatum)
    else some (false, pszProjection, pszDatum)
  | _, _ => some (false, pszProjection, pszDatum)

/-! ## Compressor adapter -/

/-- The six coefficients of a geotransform, `padfGeoTransform[0..5]`. -/
structure GeoTransform where
  g0 : ℚ
  g1 : ℚ
  g2 : ℚ
  g3 : ℚ
  g4 : ℚ
  g5 : ℚ
  deriving DecidableEq

/-- The source dataset of a copy (`GDALDataset *poSrcDS`), as far as this file
looks at it: its size, the sample types of its bands `1 .. GetRasterCount()`,
its projection text and its geotransform.  The pixels are read through
`RasterIO`, which answers from the environment. -/
structure GDALDataset where
  nRasterXSize : Int
  nRasterYSize : Int
  papoBands : List GDALDataType
  GetProjectionRef : Option String
  adfGeoTransform : GeoTransform
  deriving DecidableEq

/-- The progress callback a compressor holds in `pfnProgress`: the
`GDALDummyProgress` the constructor installs, which returns `TRUE`, or the
callback of the caller, which answers from the environment. -/
inductive GDALProgressFunc
  | GDALDummyProgress
  | caller
  deriving DecidableEq, Repr

/-- The error codes of the codec that this file returns or tests
(`CNCSError`), and the one its `Write` gives after a cancellation. -/
inductive CNCSError
  | NCS_SUCCESS
  | NCS_FILE_IO_ERROR
  | NCS_USER_CANCELLED_COMPRESSION
  deriving DecidableEq, Repr

/-- State of the compressor adapter (`class GDALECWCompressor`).  `fpVSIL`
names the host file of an open subfile window; `m_OStream` is the window the
output stream was given; `log` records the calls made so far. -/
structure GDALECWCompressor where
  m_poSrcDS : Option GDALDataset
  pfnProgress : GDALProgressFunc
  fpVSIL : Option String
  m_OStream : Option (String × Int × Int)
  m_nPercentComplete : Int
  m_bCancelled : Bool
  sFileInfo : NCSFileViewFileInfoEx
  eWorkDT : GDALDataType
  log : List Event
  deriving DecidableEq

/-- The value of the members a constructor leaves unset. -/
def NCSFileViewFileInfoEx.unset : NCSFileViewFileInfoEx where
  nBands := 0
  nSizeX := 0
  nSizeY := 0
  nCompressionRate := some 0
  eCellSizeUnits := .ECW_CELL_UNITS_INVALID
  eColorSpace := .NCSCS_NONE
  eCellType := .NCSCT_UINT8
  pBands := []
  fOriginX := 0
  fOriginY := 0
  fCellIncrementX := 0
  fCellIncrementY := 0
  fCWRotationDegrees := 0
  szDatum := ""
  szProjection := ""

/-- The constructor `GDALECWCompressor::GDALECWCompressor`. -/
def GDALECWCompressor.new : GDALECWCompressor where
  m_poSrcDS := none
  pfnProgress := .GDALDummyProgress
  fpVSIL := none
  m_OStream := none
  m_nPercentComplete := -1
  m_bCancelled := false
  sFileInfo := NCSFileViewFileInfoEx.unset
  eWorkDT := .GDT_Unknown
  log := []

/-- Record one call in the log. -/
def GDALECWCompressor.emit (self : GDALECWCompressor) (e : Event) : GDALECWCompressor :=
  { self with log := self.log ++ [e] }

/-- `GDALECWCompressor::CloseDown`: close the codec session, then close the
host file when `fpVSIL` is not `NULL`. -/
def GDALECWCompressor.CloseDown (self : GDALECWCompressor) : CPLErr × GDALECWCompressor :=
  let c1 := self.emit Event.Close
  match c1.fpVSIL with
  | some fp => (.CE_None, c1.emit (Event.VSIFCloseL fp))
  | none => (.CE_None, c1)

/-- The expression `(int) MAX(1,100 / (100-fTargetCompression))` of
`Initialize`, with `MAX(a,b)` being `(a>b) ? a : b` and the cast truncating
toward zero.  When the divisor is zero the `float` quotient is infinite and
its conversion to `int` has no defined value: `none`.  The difference and the
quotient are taken exactly, as an evaluation in a wider format gives them;
for a whole target between 1 and 99 the difference is a `float` and the
quotient rounded to `float` truncates to the same integer. -/
def compressionRate (fTargetCompression : ℚ) : Option Int :=
  if 100 - fTargetCompression = 0 then none
  else
    let q : ℚ := 100 / (100 - fTargetCompression)
    let m : ℚ := if (1 : ℚ) > q then 1 else q
    some (Int.tdiv m.num (m.den : Int))

/-- The colour space chosen from the band count. -/
def colorSpaceOf (nBands : Int) : NCSFileColorSpace :=
  if nBands = 1 then .NCSCS_GREYSCALE
  else if nBands = 3 then .NCSCS_sRGB
  else .NCSCS_MULTIBAND

/-- The `switch( eWorkDT )` of `Initialize`: codec cell type, `nBits`,
`bSigned` and the working sample type `eWorkDT`. -/
def cellTypeOf (eType : GDALDataType) : NCSEcwCellType × Nat × Bool × GDALDataType :=
  match eType with
  | .GDT_Byte => (.NCSCT_UINT8, 8, false, eType)
  | .GDT_UInt16 => (.NCSCT_UINT16, 16, false, eType)
  | .GDT_UInt32 => (.NCSCT_UINT32, 32, false, eType)
  | .GDT_Int16 => (.NCSCT_INT16, 16, true, eType)
  | .GDT_Int32 => (.NCSCT_INT32, 32, true, eType)
  | .GDT_Float32 => (.NCSCT_IEEE4, 32, true, eType)
  | .GDT_Float64 => (.NCSCT_IEEE8, 64, true, eType)
  | _ => (.NCSCT_IEEE4, 32, true, .GDT_Float32)

/-- The band descriptors `asBandInfos[0 .. nBands-1]` filled by `Initialize`.
The array of the source is static and has room for 200 descriptors; the list
stands for it as long as `nBands ≤ 200`. -/
def bandInfos (nBands : Int) (nBits : Nat) (bSigned : Bool) : List NCSFileBandInfo :=
  (List.range nBands.toNat).map fun iBand =>
    { nBits := nBits, bSigned := bSigned, szDesc := "Band" ++ fmtD (iBand + 1) }

/-- The `PROFILE` option of the JPEG2000 branch. -/
def profileParameter (papszOptions : List String) : List JP2Parameter :=
  match CSLFetchNameValue papszOptions "PROFILE" with
  | none => []
  | some pszOption =>
    if EQUAL pszOption "BASELINE_0" then [.JP2_COMPRESS_PROFILE_BASELINE_0]
    else if EQUAL pszOption "BASELINE_1" then [.JP2_COMPRESS_PROFILE_BASELINE_1]
    else if EQUAL pszOption "BASELINE_2" then [.JP2_COMPRESS_PROFILE_BASELINE_2]
    else if EQUAL pszOption "NPJE" then [.JP2_COMPRESS_PROFILE_NITF_BIIF_NPJE]
    else if EQUAL pszOption "EPJE" then [.JP2_COMPRESS_PROFILE_NITF_BIIF_EPJE]
    else []

/-- The `PROGRESSION` option of the JPEG2000 branch. -/
def progressionParameter (papszOptions : List String) : List JP2Parameter :=
  match CSLFetchNameValue papszOptions "PROGRESSION" with
  | none => []
  | some pszOption =>
    if EQUAL pszOption "LRCP" then [.JP2_COMPRESS_PROGRESSION_LRCP]
    else if EQUAL pszOption "RLCP" then [.JP2_COMPRESS_PROGRESSION_RLCP]
    else if EQUAL pszOption "RPCL" then [.JP2_COMPRESS_PROGRESSION_RPCL]
    else []

/-- An option that sets one parameter from its value when it is present. -/
def optionParameter (papszOptions : List String) (key : String)
    (mk : String → JP2Parameter) : List JP2Parameter :=
  match CSLFetchNameValue papszOptions key with
  | none => []
  | some pszOption => [mk pszOption]

/-- The `SetParameter` calls of the JPEG2000 branch of `Initialize`, in the
order of the source. -/
def jp2Parameters (env : Env) (papszOptions : List String) : List JP2Parameter :=
  profileParameter papszOptions
  ++ optionParameter papszOptions "CODESTREAM_ONLY"
      (fun v => .JP2_COMPRESS_CODESTREAM_ONLY (env.CSLTestBoolean v))
  ++ optionParameter papszOptions "LEVELS" (fun v => .JP2_COMPRESS_LEVELS (toUINT32 (atoi v)))
  ++ optionParameter papszOptions "LAYERS" (fun v => .JP2_COMPRESS_LAYERS (toUINT32 (atoi v)))
  ++ optionParameter papszOptions "PRECINCT_WIDTH"
      (fun v => .JP2_COMPRESS_PRECINCT_WIDTH (toUINT32 (atoi v)))
  ++ optionParameter papszOptions "PRECINCT_HEIGHT"
      (fun v => .JP2_COMPRESS_PRECINCT_HEIGHT (toUINT32 (atoi v)))
  ++ optionParameter papszOptions "TILE_WIDTH"
      (fun v => .JP2_COMPRESS_TILE_WIDTH (toUINT32 (atoi v)))
  ++ optionParameter papszOptions "TILE_HEIGHT"
      (fun v => .JP2_COMPRESS_TILE_HEIGHT (toUINT32 (atoi v)))
  ++ optionParameter papszOptions "INCLUDE_SOP"
      (fun v => .JP2_COMPRESS_INCLUDE_SOP (env.CSLTestBoolean v))
  ++ optionParameter papszOptions "INCLUDE_EPH"
      (fun v => .JP2_COMPRESS_INCLUDE_EPH (env.CSLTestBoolean v))
  ++ progressionParameter papszOptions
  ++ optionParameter papszOptions "DECOMPRESS_LAYERS"
      (fun v => .JP2_DECOMPRESS_LAYERS (toUINT32 (atoi v)))
  ++ optionParameter papszOptions "DECOMPRESS_RECONSTRUCTION_PARAMETER"
      (fun v => .JPC_DECOMPRESS_RECONSTRUCTION_PARAMETER (toFloat (atof env v)))

/-- The georeferencing block of `Initialize`: `(fOriginX, fOriginY,
fCellIncrementX, fCellIncrementY, fCWRotationDegrees)` and whether the
rotation warning is raised. -/
def georeference (nSizeY : Int) (padfGeoTransform : GeoTransform) :
    (ℚ × ℚ × ℚ × ℚ × ℚ) × Bool :=
  if padfGeoTransform.g2 ≠ 0 ∨ padfGeoTransform.g4 ≠ 0 then
    ((0, (nSizeY : ℚ), 1, -1, 0), true)
  else
    ((padfGeoTransform.g0, padfGeoTransform.g3, padfGeoTransform.g1, padfGeoTransform.g5, 0),
      false)

/-- The copies of the `PROJ` and `DATUM` options into the arrays
`char szProjection[128]` and `char szDatum[128]` of `Initialize`:
`(szProjection, szDatum)` before the resolver is considered, or `none` where
an option value does not fit its array. -/
def optionProjectionAndDatum (papszOptions : List String) : Option (String × String) :=
  let szProjection0 : Option String :=
    match CSLFetchNameValue papszOptions "PROJ" with
    | some v => strcpyArray 128 v
    | none => strcpyArray 128 "RAW"
  match szProjection0 with
  | none => none
  | some szProjection0 =>
    match CSLFetchNameValue papszOptions "DATUM" with
    | some v =>
      match strcpyArray 128 v with
      | none => none
      | some szDatum =>
        some (if EQUAL szProjection0 "RAW" then "GEODETIC" else szProjection0, szDatum)
    | none => some (szProjection0, "RAW")

/-- The projection block of `Initialize`: `(szProjection, szDatum)` from the
`PROJ` and `DATUM` options and, when the projection is still `RAW` and a
coordinate system text is given, from the resolver, which writes its two
results into the same arrays of 128 characters. -/
def projectionAndDatum (env : Env) (papszOptions : List String) (pszWKT : Option String) :
    Option (String × String) :=
  match optionProjectionAndDatum papszOptions with
  | none => none
  | some pd =>
    if EQUAL pd.1 "RAW" && pszWKT.isSome then
      match ECWTranslateFromWKT env pszWKT pd.1 pd.2 with
      | some r =>
        match strcpyArray 128 r.2.1, strcpyArray 128 r.2.2 with
        | some szProjection, some szDatum => some (szProjection, szDatum)
        | _, _ => none
      | none => none
    else some pd

/-- The call `sscanf( pszFilename, "J2K_SUBFILE:%d,%d", ... )`: the two
integers as the `int` variables `subfile_offset` and `subfile_size` hold them
when it returns 2, `none` otherwise. -/
def sscanfSubfile (pszFilename : String) : Option (Int × Int) :=
  if "J2K_SUBFILE:".data.isPrefixOf pszFilename.data then
    match scanInt (pszFilename.data.drop 12) with
    | some (subfile_offset, ',' :: rest) =>
      match scanInt rest with
      | some (subfile_size, _) => some (storeInt subfile_offset, storeInt subfile_size)
      | none => none
    | _ => none
  else none

/-- The text after the second comma of the name, found with two `strstr`
calls; `none` when there are fewer than two commas. -/
def realFilename (pszFilename : String) : Option String :=
  match strstrChars [','] pszFilename.data with
  | some (_ :: r1) =>
    match strstrChars [','] r1 with
    | some (_ :: r2) => some ⟨r2⟩
    | _ => none
  | _ => none

/-- The tail of `Initialize` from "Set the file info": `SetFileInfo`, then,
only when it succeeded, the `Open` of the destination; the result of neither
call reaches the return value, which is `CE_None`. -/
def GDALECWCompressor.setFileInfoAndOpen (env : Env) (self : GDALECWCompressor)
    (pszFilename : String) : CPLErr × GDALECWCompressor :=
  let c1 := self.emit (Event.SetFileInfo self.sFileInfo (env.SetFileInfo self.sFileInfo))
  if env.SetFileInfo self.sFileInfo then
    match c1.fpVSIL with
    | none => (.CE_None, c1.emit (Event.Open pszFilename (env.Open pszFilename)))
    | some fp => (.CE_None, c1.emit (Event.OpenStream fp (env.OpenStream fp)))
  else (.CE_None, c1)

/-- The subfile block of `Initialize` followed by its tail. -/
def GDALECWCompressor.openDestination (env : Env) (self : GDALECWCompressor)
    (pszFilename : String) : CPLErr × GDALECWCompressor :=
  let c0 := { self with fpVSIL := none }
  if EQUALN pszFilename "J2K_SUBFILE:" 12 then
    match sscanfSubfile pszFilename with
    | none =>
      (.CE_Failure, c0.emit (Event.CPLError .CE_Failure .CPLE_OpenFailed
        "Failed to parse J2K_SUBFILE specification."))
    | some (subfile_offset, subfile_size) =>
      match realFilename pszFilename with
      | none =>
        (.CE_Failure, c0.emit (Event.CPLError .CE_Failure .CPLE_OpenFailed
          "Failed to parse J2K_SUBFILE specification."))
      | some real_filename =>
        let c1 := c0.emit (Event.VSIFOpenL real_filename (env.VSIFOpenL real_filename))
        if env.VSIFOpenL real_filename then
          let c2 := { c1 with fpVSIL := some real_filename,
                               m_OStream := some (real_filename, subfile_offset, subfile_size) }
          (c2.emit (Event.Access real_filename subfile_offset subfile_size)).setFileInfoAndOpen
            env pszFilename
        else
          (.CE_Failure, c1.emit (Event.CPLError .CE_Failure .CPLE_OpenFailed "Failed to open %s."))
  else c0.setFileInfoAndOpen env pszFilename

/-- The value of the `float` variable `fTargetCompression` after the `TARGET`
option is read: `(float) atof(value)`, or 75 when the option is absent. -/
def targetCompression (env : Env) (papszOptions : List String) : ℚ :=
  match CSLFetchNameValue papszOptions "TARGET" with
  | some v => toFloat (atof env v)
  | none => 75

/-- The file description `sFileInfo` that `Initialize` fills in. -/
def fileInfo (fTargetCompression : ℚ) (nXSize nYSize nBands : Int) (eType : GDALDataType)
    (padfGeoTransform : GeoTransform) (szProjection szDatum : String) :
    NCSFileViewFileInfoEx where
  nBands := nBands % 65536
  nSizeX := nXSize
  nSizeY := nYSize
  nCompressionRate := (compressionRate fTargetCompression).map (· % 65536)
  eCellSizeUnits := .ECW_CELL_UNITS_METERS
  eColorSpace := colorSpaceOf nBands
  eCellType := (cellTypeOf eType).1
  pBands := bandInfos nBands (cellTypeOf eType).2.1 (cellTypeOf eType).2.2.1
  fOriginX := (georeference nYSize padfGeoTransform).1.1
  fOriginY := (georeference nYSize padfGeoTransform).1.2.1
  fCellIncrementX := (georeference nYSize padfGeoTransform).1.2.2.1
  fCellIncrementY := (georeference nYSize padfGeoTransform).1.2.2.2.1
  fCWRotationDegrees := (georeference nYSize padfGeoTransform).1.2.2.2.2
  szDatum := szDatum
  szProjection := szProjection

/-- The calls `Initialize` makes between the option checks and the subfile
block: the `SetParameter` calls of the JPEG2000 branch, then the rotation
warning. -/
def configureEvents (env : Env) (papszOptions : List String) (nYSize : Int)
    (padfGeoTransform : GeoTransform) (bIsJPEG2000 : Bool) : List Event :=
  (if bIsJPEG2000 then (jp2Parameters env papszOptions).map Event.SetParameter else [])
  ++ (if (georeference nYSize padfGeoTransform).2 then
        [Event.CPLError .CE_Warning .CPLE_NotSupported
          "Rotational coefficients ignored, georeferencing of"]
      else [])

/-- The compressor when `Initialize` reaches the subfile block, with the
projection and datum strings the projection block produced. -/
def GDALECWCompressor.configure (env : Env) (self : GDALECWCompressor)
    (papszOptions : List String) (nXSize nYSize nBands : Int) (eType : GDALDataType)
    (padfGeoTransform : GeoTransform) (bIsJPEG2000 : Bool) (szProjection szDatum : String) :
    GDALECWCompressor :=
  { self with
    sFileInfo := fileInfo (targetCompression env papszOptions) nXSize nYSize nBands eType
      padfGeoTransform szProjection szDatum
    eWorkDT := (cellTypeOf eType).2.2.2
    log := self.log ++ configureEvents env papszOptions nYSize padfGeoTransform bIsJPEG2000 }

/-- `GDALECWCompressor::Initialize`.  The result is `none` where the resolver
dereferences a `NULL` name and where a text does not fit one of the two
arrays of 128 characters. -/
def GDALECWCompressor.Initialize (env : Env) (self : GDALECWCompressor)
    (pszFilename : String) (papszOptions : List String)
    (nXSize nYSize nBands : Int) (eType : GDALDataType)
    (pszWKT : Option String) (padfGeoTransform : GeoTransform)
    (bIsJPEG2000 : Bool) : Option (CPLErr × GDALECWCompressor) :=
  if nBands = 0 then
    some (.CE_Failure, self.emit (Event.CPLError .CE_Failure .CPLE_NotSupported
      "ECW driver requires at least one band."))
  else if (CSLFetchNameValue papszOptions "TARGET").isSome
      ∧ (targetCompression env papszOptions < 1 ∨ targetCompression env papszOptions > 100) then
    some (.CE_Failure, self.emit (Event.CPLError .CE_Failure .CPLE_NotSupported
      "TARGET compression of %.3f invalid, should be a"))
  else
    match projectionAndDatum env papszOptions pszWKT with
    | none => none
    | some pd =>
      some (GDALECWCompressor.openDestination env
        (self.configure env papszOptions nXSize nYSize nBands eType padfGeoTransform
          bIsJPEG2000 pd.1 pd.2)
        pszFilename)

/-! ## Write-only dataset and its bands -/

/-- `CPLMalloc(n)`: a block of `n` bytes whose content is whatever the
environment left in memory.  (The allocator of the source returns `NULL` for
`n = 0`; every access to such a block has length 0, so an empty block stands
for it.) -/
def CPLMalloc (env : Env) (n : Nat) : Option (List GByte) :=
  some ((List.range n).map env.garbage)

/-- `memset(dst, c, n)` on a block that holds at least `n` bytes. -/
def memset (dst : List GByte) (c : GByte) (n : Nat) : List GByte :=
  List.replicate n c ++ dst.drop n

/-- `memcpy(dst + off, src, n)` on blocks that are large enough. -/
def memcpy (dst : List GByte) (off : Nat) (src : List GByte) (n : Nat) : List GByte :=
  dst.take off ++ src.take n ++ dst.drop (off + n)

/-- State of the write-only dataset (`class ECWWriteDataset`) with the
members it inherits from `GDALDataset` that the code below reads:
`nRasterXSize`, `nRasterYSize` and `nBands`, none of them negative.
`pabyBILBuffer` is `none` for `NULL`. -/
structure ECWWriteDataset where
  pszFilename : String
  bIsJPEG2000 : Bool
  eDataType : GDALDataType
  papszOptions : List String
  pszProjection : Option String
  adfGeoTransform : GeoTransform
  oCompressor : GDALECWCompressor
  bCrystalized : Bool
  nLoadedLine : Int
  pabyBILBuffer : Option (List GByte)
  nRasterXSize : Nat
  nRasterYSize : Nat
  nBands : Nat
  deriving DecidableEq

/-- The constructor `ECWWriteDataset::ECWWriteDataset`; it creates the bands
`1 .. nBandCount`. -/
def ECWWriteDataset.new (pszFilename : String) (nXSize nYSize nBandCount : Nat)
    (eType : GDALDataType) (papszOptions : List String) (bIsJPEG2000 : Bool) :
    ECWWriteDataset where
  pszFilename := pszFilename
  bIsJPEG2000 := bIsJPEG2000
  eDataType := eType
  papszOptions := papszOptions
  pszProjection := none
  adfGeoTransform := { g0 := 0, g1 := 1, g2 := 0, g3 := 0, g4 := 0, g5 := 1 }
  oCompressor := GDALECWCompressor.new
  bCrystalized := false
  nLoadedLine := -1
  pabyBILBuffer := none
  nRasterXSize := nXSize
  nRasterYSize := nYSize
  nBands := nBandCount

/-- Record one call in the log of the dataset's compressor. -/
def ECWWriteDataset.emit (self : ECWWriteDataset) (e : Event) : ECWWriteDataset :=
  { self with oCompressor := self.oCompressor.emit e }

/-- `ECWWriteDataset::SetGeoTransform`. -/
def ECWWriteDataset.SetGeoTransform (self : ECWWriteDataset) (padfGeoTransform : GeoTransform) :
    CPLErr × ECWWriteDataset :=
  (.CE_None, { self with adfGeoTransform := padfGeoTransform })

/-- `ECWWriteDataset::SetProjection`. -/
def ECWWriteDataset.SetProjection (self : ECWWriteDataset) (pszWKT : String) :
    CPLErr × ECWWriteDataset :=
  (.CE_None, { self with pszProjection := some pszWKT })

/-- The call `oCompressor.Initialize( ... )` that `Crystalize` makes on the
members of the dataset. -/
def ECWWriteDataset.compressorInitialize (env : Env) (s : ECWWriteDataset) :
    Option (CPLErr × GDALECWCompressor) :=
  s.oCompressor.Initialize env s.pszFilename s.papszOptions s.nRasterXSize s.nRasterYSize
    s.nBands s.eDataType s.pszProjection s.adfGeoTransform s.bIsJPEG2000

/-- `ECWWriteDataset::Crystalize`. -/
def ECWWriteDataset.Crystalize (env : Env) (self : ECWWriteDataset) :
    Option (CPLErr × ECWWriteDataset) :=
  let nWordSize := GDALGetDataTypeSize self.eDataType / 8
  if self.bCrystalized then some (.CE_None, self)
  else
    match self.compressorInitialize env with
    | none => none
    | some (eErr, c) =>
      some (eErr,
        { self with
          oCompressor := c
          bCrystalized := if eErr = .CE_None then true else self.bCrystalized
          nLoadedLine := -1
          pabyBILBuffer := CPLMalloc env (nWordSize * self.nBands * self.nRasterXSize) })

/-- The array `papOutputLine` built by `FlushLine`: entry `i` points at
`pabyBILBuffer + i * nWordSize * nRasterXSize`; it is recorded as the
`nWordSize * nRasterXSize` bytes found there. -/
def outputLine (buf : List GByte) (nBands nWordSize nRasterXSize : Nat) : List (List GByte) :=
  (List.range nBands).map fun i =>
    (buf.drop (i * nWordSize * nRasterXSize)).take (nWordSize * nRasterXSize)

/-- The end of `FlushLine`, "Clear the buffer and increment the current line
indicator". -/
def ECWWriteDataset.clearAndAdvance (self : ECWWriteDataset) (buf : List GByte) :
    ECWWriteDataset :=
  let nWordSize := GDALGetDataTypeSize self.eDataType / 8
  { self with
    pabyBILBuffer := some (memset buf 0 (nWordSize * self.nRasterXSize * self.nBands))
    nLoadedLine := self.nLoadedLine + 1 }

/-- `ECWWriteDataset::FlushLine`. -/
def ECWWriteDataset.FlushLine (env : Env) (self : ECWWriteDataset) :
    Option (CPLErr × ECWWriteDataset) :=
  let nWordSize := GDALGetDataTypeSize self.eDataType / 8
  match (if self.bCrystalized then some (CPLErr.CE_None, self) else self.Crystalize env) with
  | none => none
  | some (eErr, s1) =>
    if eErr ≠ .CE_None then some (eErr, s1)
    else
      match s1.pabyBILBuffer with
      | none => none
      | some buf =>
        if s1.nLoadedLine ≠ -1 then
          let papOutputLine := outputLine buf s1.nBands nWordSize s1.nRasterXSize
          let eCellType := s1.oCompressor.sFileInfo.eCellType
          let ok := env.WriteLineBIL eCellType (s1.nBands % 65536) papOutputLine
          let written := s1.emit
            (Event.WriteLineBIL eCellType (s1.nBands % 65536) papOutputLine ok)
          if ok then some (.CE_None, written.clearAndAdvance buf)
          else
            some (.CE_Failure, written.emit
              (Event.CPLError .CE_Failure .CPLE_AppDefined "Scanline write write failed."))
        else some (.CE_None, s1.clearAndAdvance buf)

/-- `ECWWriteRasterBand::IReadBlock` of band `nBand`: the result code, the
caller's buffer after the call, and the dataset. -/
def ECWWriteDataset.IReadBlock (self : ECWWriteDataset) (_nBand : Nat) (_nBlockX _nBlockY : Int)
    (pBuffer : List GByte) : CPLErr × List GByte × ECWWriteDataset :=
  let nWordSize := GDALGetDataTypeSize self.eDataType / 8
  (.CE_None, memset pBuffer 0 (self.nRasterXSize * nWordSize), self)

/-- `ECWWriteRasterBand::IWriteBlock` of band `nBand` (bands are numbered
from 1).  The band's `nRasterXSize` and `eDataType` are those of the dataset
it was created for. -/
def ECWWriteDataset.IWriteBlock (env : Env) (self : ECWWriteDataset) (nBand : Nat)
    (_nBlockX nBlockY : Int) (pBuffer : List GByte) : Option (CPLErr × ECWWriteDataset) :=
  let nWordSize := GDALGetDataTypeSize self.eDataType / 8
  match (if nBlockY = self.nLoadedLine + 1 then self.FlushLine env
         else some (CPLErr.CE_None, self)) with
  | none => none
  | some (eErr, s1) =>
    if eErr ≠ .CE_None then some (eErr, s1)
    else if nBlockY ≠ s1.nLoadedLine then
      some (.CE_Failure, s1.emit
        (Event.CPLError .CE_Failure .CPLE_AppDefined
          "Apparent attempt to write to ECW non-sequentially."))
    else
      match s1.pabyBILBuffer with
      | none => none
      | some buf =>
        let copied := memcpy buf ((nBand - 1) * nWordSize * s1.nRasterXSize) pBuffer
          (nWordSize * s1.nRasterXSize)
        some (.CE_None, { s1 with pabyBILBuffer := some copied })

/-- The call `oCompressor.CloseDown()` on the compressor of the dataset. -/
def ECWWriteDataset.closeDown (self : ECWWriteDataset) : ECWWriteDataset :=
  { self with oCompressor := self.oCompressor.CloseDown.2 }

/-- The destructor `ECWWriteDataset::~ECWWriteDataset`.  Its first statement,
`FlushCache()`, hands blocks still held by the block cache of the raster
framework to `IWriteBlock`; that cache is outside this file, and the writes
are taken as already delivered. -/
def ECWWriteDataset.destructor (env : Env) (self : ECWWriteDataset) : Option ECWWriteDataset :=
  if self.bCrystalized then
    match (if self.nLoadedLine = (self.nRasterYSize : Int) - 1 then
             (self.FlushLine env).map Prod.snd
           else some self) with
    | none => none
    | some s1 => some s1.closeDown
  else some self

/-! ## Observations on the log -/

/-- The scanlines handed to the codec, in order: the `papOutputLine` of every
`WriteLineBIL` call in the log. -/
def pushedLines : List Event → List (List (List GByte))
  | [] => []
  | Event.WriteLineBIL _ _ papOutputLine _ :: rest => papOutputLine :: pushedLines rest
  | _ :: rest => pushedLines rest

/-- The scanlines the codec accepted, in order: the `papOutputLine` of every
`WriteLineBIL` call that reported success. -/
def acceptedLines : List Event → List (List (List GByte))
  | [] => []
  | Event.WriteLineBIL _ _ papOutputLine true :: rest => papOutputLine :: acceptedLines rest
  | _ :: rest => acceptedLines rest

/-- An environment in which every collaborator succeeds: files open, the
codec accepts every call, no coordinate system is known and fresh memory
holds `0xCD`; `atof` gives 0 for a text that is no decimal number. -/
def Env.accepting : Env where
  atof := fun _ => 0
  CSLTestBoolean := fun s => !(EQUAL s "NO" || EQUAL s "FALSE" || EQUAL s "OFF" || EQUAL s "0")
  VSIFOpenL := fun _ => true
  importFromWkt := fun _ =>
    { IsLocal := true, IsProjected := false, IsGeographic := false
      GetAuthorityCode := fun _ => none, GetAuthorityName := fun _ => none
      GetAttrValue := fun _ => none, GetUTMZone := (0, false) }
  GetProjectionAndDatum := fun _ => (false, none, none)
  ECWGetCSList := []
  SetFileInfo := fun _ => true
  Open := fun _ => true
  OpenStream := fun _ => true
  WriteLineBIL := fun _ _ _ => true
  garbage := fun _ => 205
  pfnProgress := fun _ => true
  RasterIO := fun _ _ _ => true
  GDALOpen := fun _ => true

/-- The environment `Env.accepting` with a codec that refuses every scanline. -/
def Env.refusing : Env :=
  { Env.accepting with WriteLineBIL := fun _ _ _ => false }

/-! ## Sessions of block writes -/

/-- One call of `IWriteBlock`, with the answers the collaborators give while
it runs. -/
structure WriteCall where
  env : Env
  nBand : Nat
  nBlockX : Int
  nBlockY : Int
  pBuffer : List GByte

/-- A call the raster framework can make on the dataset: the band is one of
`1 .. nBands` and the block holds one line of that band,
`nWordSize * nRasterXSize` bytes. -/
def WriteCall.WellFormed (s : ECWWriteDataset) (c : WriteCall) : Prop :=
  1 ≤ c.nBand ∧ c.nBand ≤ s.nBands
    ∧ c.pBuffer.length = GDALGetDataTypeSize s.eDataType / 8 * s.nRasterXSize

/-- Run one call. -/
def ECWWriteDataset.write (s : ECWWriteDataset) (c : WriteCall) :
    Option (CPLErr × ECWWriteDataset) :=
  s.IWriteBlock c.env c.nBand c.nBlockX c.nBlockY c.pBuffer

/-- Run the calls one after the other, whatever result code each returns;
`none` as soon as one of them dereferences `NULL`. -/
def ECWWriteDataset.writeAll : ECWWriteDataset → List WriteCall → Option ECWWriteDataset
  | s, [] => some s
  | s, c :: cs =>
    match s.write c with
    | none => none
    | some r => r.2.writeAll cs

/-- The states of a dataset and the block writes that led to them:
`Trace h s` when `s` is reached from a newly constructed dataset by the
well-formed `IWriteBlock` calls `h`, in that order, with calls of
`SetGeoTransform`, `SetProjection` and `IReadBlock` anywhere in between. -/
inductive Trace : List WriteCall → ECWWriteDataset → Prop
  | create (pszFilename : String) (nXSize nYSize nBandCount : Nat) (eType : GDALDataType)
      (papszOptions : List String) (bIsJPEG2000 : Bool) :
      Trace List.nil (ECWWriteDataset.new pszFilename nXSize nYSize nBandCount eType papszOptions
        bIsJPEG2000)
  | setGeoTransform {h : List WriteCall} {s : ECWWriteDataset} (g : GeoTransform) :
      Trace h s → Trace h (s.SetGeoTransform g).2
  | setProjection {h : List WriteCall} {s : ECWWriteDataset} (pszWKT : String) :
      Trace h s → Trace h (s.SetProjection pszWKT).2
  | read {h : List WriteCall} {s : ECWWriteDataset} (nBand : Nat) (nBlockX nBlockY : Int)
      (pBuffer : List GByte) :
      Trace h s → Trace h (s.IReadBlock nBand nBlockX nBlockY pBuffer).2.2
  | write {h : List WriteCall} {s s1 : ECWWriteDataset} (c : WriteCall) (r : CPLErr) :
      Trace h s → c.WellFormed s → s.write c = some (r, s1) → Trace (h ++ [c]) s1

/-- Where the bytes of a scanline come from: every band segment of `scanline` is
either all zero or the block of a call in `h` that wrote that band with line
index `k`. -/
def LineFrom (h : List WriteCall) (nBlockBytes : Nat) (k : Int)
    (scanline : List (List GByte)) : Prop :=
  ∀ (i : Nat) (seg : List GByte), scanline[i]? = some seg →
    seg = List.replicate nBlockBytes 0
      ∨ ∃ c ∈ h, c.nBlockY = k ∧ c.nBand = i + 1 ∧ c.pBuffer = seg

/-- The calls that write line `k` of a session: one block per band, in the
order `order`. -/
def lineCalls (envs : Nat → Nat → Env) (blocks : Nat → Nat → List GByte) (k : Nat)
    (order : List Nat) : List WriteCall :=
  order.map fun b =>
    { env := envs k b, nBand := b, nBlockX := 0, nBlockY := (k : Int), pBuffer := blocks k b }

/-- The calls of a whole session: lines `0 .. nLines-1` in order, the bands of
line `k` in the order `order k`. -/
def sessionCalls (envs : Nat → Nat → Env) (blocks : Nat → Nat → List GByte)
    (order : Nat → List Nat) (nLines : Nat) : List WriteCall :=
  (List.range nLines).flatMap fun k => lineCalls envs blocks k (order k)

/-- Whether an event is a scanline handed to the codec. -/
def Event.isWriteLineBIL : Event → Bool
  | Event.WriteLineBIL _ _ _ _ => true
  | _ => false

/-- Whether an event is a call into the codec or the file layer (anything
but an error report). -/
def Event.isCall : Event → Bool
  | Event.CPLError _ _ _ => false
  | _ => true

/-- The number of bytes of one band segment of the scanline buffer,
`nWordSize * nRasterXSize`. -/
def ECWWriteDataset.segmentSize (s : ECWWriteDataset) : Nat :=
  GDALGetDataTypeSize s.eDataType / 8 * s.nRasterXSize

/-- The `WriteLineBIL` call `FlushLine` makes on the buffer `buf`. -/
def ECWWriteDataset.pushEvent (env : Env) (s : ECWWriteDataset) (buf : List GByte) : Event :=
  Event.WriteLineBIL s.oCompressor.sFileInfo.eCellType (s.nBands % 65536)
    (outputLine buf s.nBands (GDALGetDataTypeSize s.eDataType / 8) s.nRasterXSize)
    (env.WriteLineBIL s.oCompressor.sFileInfo.eCellType (s.nBands % 65536)
      (outputLine buf s.nBands (GDALGetDataTypeSize s.eDataType / 8) s.nRasterXSize))

/-- Whether the codec accepts the scanline `FlushLine` hands it from `buf`. -/
def ECWWriteDataset.pushOk (env : Env) (s : ECWWriteDataset) (buf : List GByte) : Bool :=
  env.WriteLineBIL s.oCompressor.sFileInfo.eCellType (s.nBands % 65536)
    (outputLine buf s.nBands (GDALGetDataTypeSize s.eDataType / 8) s.nRasterXSize)

/-- The facts about the state that every reachable dataset satisfies. -/
structure Inv (s : ECWWriteDataset) : Prop where
  lower : -1 ≤ s.nLoadedLine
  cryst : s.bCrystalized = true ↔ 0 ≤ s.nLoadedLine
  buflen : ∀ buf, s.pabyBILBuffer = some buf →
    buf.length = GDALGetDataTypeSize s.eDataType / 8 * s.nBands * s.nRasterXSize
  bufsome : s.bCrystalized = true → s.pabyBILBuffer ≠ none
  accepted : (acceptedLines s.oCompressor.log).length = s.nLoadedLine.toNat

/-- The members fixed at construction that size the scanline buffer are the
same in both states. -/
def Frame (s s1 : ECWWriteDataset) : Prop :=
  s1.eDataType = s.eDataType ∧ s1.nBands = s.nBands ∧ s1.nRasterXSize = s.nRasterXSize
    ∧ s1.nRasterYSize = s.nRasterYSize

/-- Where the data of a dataset comes from, given the calls `h` made so far:
the `k`-th scanline the codec accepted holds only blocks written with line
index `k`, and the buffer holds only blocks written with the current line
index. -/
structure Prov (h : List WriteCall) (s : ECWWriteDataset) : Prop where
  past : ∀ (k : Nat) (ln : List (List GByte)),
    (acceptedLines s.oCompressor.log)[k]? = some ln → LineFrom h s.segmentSize (k : Int) ln
  current : 0 ≤ s.nLoadedLine → ∀ buf, s.pabyBILBuffer = some buf →
    LineFrom h s.segmentSize s.nLoadedLine
      (outputLine buf s.nBands (GDALGetDataTypeSize s.eDataType / 8) s.nRasterXSize)

/-- The band segments of a scanline after the blocks of the calls `cs` have
been stored in it, each in the segment of its band, in the order of the
calls. -/
def storeBlocks (scanline : List (List GByte)) (cs : List WriteCall) : List (List GByte) :=
  cs.foldl (fun l c => l.set (c.nBand - 1) c.pBuffer) scanline

/-- Line `k` of a session as the codec should receive it: the blocks of
bands `1 .. nBands`, in band order. -/
def sessionLine (blocks : Nat → Nat → List GByte) (nBands k : Nat) : List (List GByte) :=
  (List.range nBands).map fun i => blocks k (i + 1)

/-! ## A small session used for the concrete checks -/

/-- Every call of the example session runs in `Env.accepting`. -/
def exampleEnvs : Nat → Nat → Env := fun _ _ => Env.accepting

/-- The block of band `b` of line `k` in the example session: two bytes. -/
def exampleBlocks : Nat → Nat → List GByte := fun k b => [10 * k + b, 100 + 10 * k + b]

/-- The example session writes band 2 before band 1 on every line. -/
def exampleOrder : Nat → List Nat := fun _ => [2, 1]

/-- A new JPEG2000 dataset of 2 x 2 pixels with 2 bands of type Byte. -/
def exampleDataset : ECWWriteDataset :=
  ECWWriteDataset.new "out.jp2" 2 2 2 .GDT_Byte [] true

/-- One block write: band 1 of line 0. -/
def exampleHistory : List WriteCall := lineCalls exampleEnvs exampleBlocks 0 [1]

/-- The example dataset after band 1 of line 0 has been written, and nothing
else. -/
def exampleState : ECWWriteDataset :=
  (exampleDataset.writeAll exampleHistory).getD exampleDataset

/-- A block write of band 1 of line 1. -/
def exampleNextWrite : WriteCall :=
  { env := Env.accepting, nBand := 1, nBlockX := 0, nBlockY := 1, pBuffer := [11, 111] }

/-- The whole example session: both lines, bands 2 and 1 of each. -/
def exampleSession : List WriteCall := sessionCalls exampleEnvs exampleBlocks exampleOrder 2

/-- The example dataset after the whole example session, before teardown. -/
def exampleFinal : ECWWriteDataset :=
  (exampleDataset.writeAll exampleSession).getD exampleDataset

/-- The name of the function an event records a call of. -/
def Event.name : Event → String
  | Event.CPLError _ _ _ => "CPLError"
  | Event.SetParameter _ => "SetParameter"
  | Event.VSIFOpenL _ _ => "VSIFOpenL"
  | Event.Access _ _ _ => "Access"
  | Event.SetFileInfo _ _ => "SetFileInfo"
  | Event.Open _ _ => "Open"
  | Event.OpenStream _ _ => "OpenStream"
  | Event.WriteLineBIL _ _ _ _ => "WriteLineBIL"
  | Event.Close => "Close"
  | Event.VSIFCloseL _ => "VSIFCloseL"
  | Event.pfnProgress _ _ => "pfnProgress"
  | Event.RasterIO _ _ _ _ => "RasterIO"
  | Event.GDALOpen _ _ => "GDALOpen"

/-- A new ECW dataset of 1 x 1 pixel with 1 band, created with the option
`TARGET=0`. -/
def invalidTargetDataset : ECWWriteDataset :=
  ECWWriteDataset.new "out.ecw" 1 1 1 .GDT_Byte ["TARGET=0"] false

/-- The identity geotransform. -/
def identityGeoTransform : GeoTransform :=
  { g0 := 0, g1 := 1, g2 := 0, g3 := 0, g4 := 0, g5 := 1 }

/-- Whether an event is an `Open` of the codec, on a file name or on a
stream. -/
def Event.isOpen : Event → Bool
  | Event.Open _ _ => true
  | Event.OpenStream _ _ => true
  | _ => false

/-- The environment `Env.accepting` with a codec whose `Open` reports an
error, on a file name and on a stream. -/
def Env.unopenable : Env :=
  { Env.accepting with Open := fun _ => false, OpenStream := fun _ => false }

/-- The environment `Env.accepting` with a codec whose `SetFileInfo` reports
an error. -/
def Env.rejecting : Env :=
  { Env.accepting with SetFileInfo := fun _ => false }

/-- A geotransform with a rotation term: origin (10, 20), pixel size (2, -2),
`padfGeoTransform[2] = 1`. -/
def rotatedGeoTransform : GeoTransform :=
  { g0 := 10, g1 := 2, g2 := 1, g3 := 20, g4 := 0, g5 := -2 }

/-- The geotransform `rotatedGeoTransform` with its rotation terms set to
zero. -/
def unrotatedGeoTransform : GeoTransform :=
  { g0 := 10, g1 := 2, g2 := 0, g3 := 20, g4 := 0, g5 := -2 }

/-- The success flag the environment answered to the call an event records;
`true` for the events that carry none. -/
def Event.ok : Event → Bool
  | Event.VSIFOpenL _ ok => ok
  | Event.SetFileInfo _ ok => ok
  | Event.Open _ ok => ok
  | Event.OpenStream _ ok => ok
  | Event.WriteLineBIL _ _ _ ok => ok
  | Event.pfnProgress _ ok => ok
  | Event.RasterIO _ _ _ ok => ok
  | Event.GDALOpen _ ok => ok
  | _ => true

/-- The file descriptions handed to `SetFileInfo` in a log, oldest first. -/
def fileInfos : List Event → List NCSFileViewFileInfoEx
  | [] => []
  | Event.SetFileInfo info _ :: l => info :: fileInfos l
  | _ :: l => fileInfos l

/-- The environment `Env.accepting` with a file layer that cannot open the
host file of a subfile window. -/
def Env.missingHost : Env :=
  { Env.accepting with VSIFOpenL := fun _ => false }

/-- The environment `Env.accepting` with a spatial-reference library that
answers `srs` on every text, the static table `csList` and the registry
`registry`. -/
def Env.withSRS (srs : OGRSpatialReference) (csList : List String)
    (registry : Int → Bool × Option String × Option String) : Env :=
  { Env.accepting with
    importFromWkt := fun _ => srs
    ECWGetCSList := csList
    GetProjectionAndDatum := registry }

/-- A registry that knows no code. -/
def emptyRegistry : Int → Bool × Option String × Option String :=
  fun _ => (false, none, none)

/-- A registry that knows the code 28355 only, as `MGA55` on `GDA94`. -/
def mgaRegistry : Int → Bool × Option String × Option String :=
  fun code => if code = 28355 then (true, some "MGA55", some "GDA94") else (false, none, none)

/-- The answers of the library on a geographic system named `WGS 84` with the
datum `WGS_1984` and no authority node. -/
def wgs84Geographic : OGRSpatialReference where
  IsLocal := false
  IsProjected := false
  IsGeographic := true
  GetAuthorityCode := fun _ => none
  GetAuthorityName := fun _ => none
  GetAttrValue := fun k =>
    if k = "GEOGCS" then some "WGS 84" else if k = "DATUM" then some "WGS_1984" else none
  GetUTMZone := (0, false)

/-- The answers of the library on a projected system without authority node:
UTM zone 33 north on the geographic system `WGS 84`. -/
def utm33North : OGRSpatialReference where
  IsLocal := false
  IsProjected := true
  IsGeographic := false
  GetAuthorityCode := fun _ => none
  GetAuthorityName := fun _ => none
  GetAttrValue := fun k =>
    if k = "PROJCS" then some "UTM Zone 33, Northern Hemisphere"
    else if k = "GEOGCS" then some "WGS 84"
    else if k = "DATUM" then some "WGS_1984" else none
  GetUTMZone := (33, true)

/-- The answers of the library on the projected system EPSG:28355, `GDA94 /
MGA zone 55` (UTM zone 55 south). -/
def mga55 : OGRSpatialReference where
  IsLocal := false
  IsProjected := true
  IsGeographic := false
  GetAuthorityCode := fun k =>
    if k = "PROJCS" then some "28355" else if k = "GEOGCS" then some "4283" else none
  GetAuthorityName := fun k =>
    if k = "PROJCS" then some "EPSG" else if k = "GEOGCS" then some "EPSG" else none
  GetAttrValue := fun k =>
    if k = "PROJCS" then some "GDA94 / MGA zone 55"
    else if k = "GEOGCS" then some "GDA94"
    else if k = "DATUM" then some "Geocentric_Datum_of_Australia_1994" else none
  GetUTMZone := (55, false)

/-- The answers of the library on a projected system named `NZMG`, not UTM,
on the geographic system `NZGD49`, without authority node. -/
def nzmg : OGRSpatialReference where
  IsLocal := false
  IsProjected := true
  IsGeographic := false
  GetAuthorityCode := fun _ => none
  GetAuthorityName := fun _ => none
  GetAttrValue := fun k =>
    if k = "PROJCS" then some "NZMG"
    else if k = "GEOGCS" then some "NZGD49"
    else if k = "DATUM" then some "New_Zealand_Geodetic_Datum_1949" else none
  GetUTMZone := (0, false)

/-- The answers of the library on a projected system in UTM zone 33 north
that names no geographic system. -/
def utm33Bare : OGRSpatialReference where
  IsLocal := false
  IsProjected := true
  IsGeographic := false
  GetAuthorityCode := fun _ => none
  GetAuthorityName := fun _ => none
  GetAttrValue := fun k => if k = "PROJCS" then some "UTM 33" else none
  GetUTMZone := (33, true)

/-! ## Copy-mode driver -/

/-- The band loop of `WriteReadLine` on the bands `iBand` of the list: one
`RasterIO` per band, stopping at the first that fails.  `none` where the
source dereferences a `NULL` dataset or a `NULL` band. -/
def readLineBands (env : Env) (m_poSrcDS : Option GDALDataset) (eWorkDT : GDALDataType)
    (nNextLine : Nat) : List Nat → Option (CNCSError × List Event)
  | [] => some (.NCS_SUCCESS, [])
  | iBand :: rest =>
    match m_poSrcDS with
    | none => none
    | some poSrcDS =>
      if iBand < poSrcDS.papoBands.length then
        if env.RasterIO (iBand + 1) nNextLine eWorkDT then
          (readLineBands env m_poSrcDS eWorkDT nNextLine rest).map fun r =>
            (r.1, Event.RasterIO (iBand + 1) nNextLine eWorkDT true :: r.2)
        else some (.NCS_FILE_IO_ERROR, [Event.RasterIO (iBand + 1) nNextLine eWorkDT false])
      else none

/-- `GDALECWCompressor::WriteReadLine`: read line `nNextLine` of the bands
`1 .. (int) sFileInfo.nBands` of the source in the working type. -/
def GDALECWCompressor.WriteReadLine (env : Env) (self : GDALECWCompressor) (nNextLine : Nat) :
    Option (CNCSError × GDALECWCompressor) :=
  (readLineBands env self.m_poSrcDS self.eWorkDT nNextLine
      (List.range self.sFileInfo.nBands.toNat)).map fun r =>
    (r.1, { self with log := self.log ++ r.2 })

/-- The argument `nCurrentLine / (float) sFileInfo.nSizeY` of the progress
callback; `none` when the divisor is zero and the quotient is not a number
of the rationals. -/
def GDALECWCompressor.dfComplete (self : GDALECWCompressor) (nCurrentLine : Nat) : Option ℚ :=
  if self.sFileInfo.nSizeY = 0 then none
  else some ((nCurrentLine : ℚ) / (self.sFileInfo.nSizeY : ℚ))

/-- The answer of the callback held in `pfnProgress`. -/
def GDALECWCompressor.callProgress (env : Env) (self : GDALECWCompressor)
    (dfComplete : Option ℚ) : Bool :=
  match self.pfnProgress with
  | .GDALDummyProgress => true
  | .caller => env.pfnProgress dfComplete

/-- `GDALECWCompressor::WriteStatus`. -/
def GDALECWCompressor.WriteStatus (env : Env) (self : GDALECWCompressor) (nCurrentLine : Nat) :
    GDALECWCompressor :=
  let ok := self.callProgress env (self.dfComplete nCurrentLine)
  { self with
    m_bCancelled := !ok
    log := self.log ++ [Event.pfnProgress (self.dfComplete nCurrentLine) ok] }

/-- `GDALECWCompressor::WriteCancel`: the value returned and the compressor
after the call. -/
def GDALECWCompressor.WriteCancel (self : GDALECWCompressor) : Bool × GDALECWCompressor :=
  (self.m_bCancelled, self)

/-- Modelled from the spec: `CNCSFile::Write`, the pull loop of the codec, is
defined outside this file.  It "repeatedly invokes SupplyLine/ReportProgress
until all lines are consumed or cancellation occurs", and "the progress
callback's return value is latched and consulted by the codec before starting
the next line".  Here: for each line in turn, stop with the cancellation
error when `WriteCancel` answers true, call `WriteReadLine` and stop with its
error when it fails, then call `WriteStatus`. -/
def pullLoop (env : Env) : List Nat → GDALECWCompressor → Option (CNCSError × GDALECWCompressor)
  | [], c => some (.NCS_SUCCESS, c)
  | nLine :: rest, c =>
    if c.WriteCancel.1 then some (.NCS_USER_CANCELLED_COMPRESSION, c)
    else
      match c.WriteReadLine env nLine with
      | none => none
      | some (.NCS_SUCCESS, c1) => pullLoop env rest (c1.WriteStatus env nLine)
      | some (e, c1) => some (e, c1)

/-- Modelled from the spec: the call `Write()` of the codec on the lines
`0 .. sFileInfo.nSizeY - 1`, see `pullLoop`. -/
def GDALECWCompressor.Write (env : Env) (self : GDALECWCompressor) :
    Option (CNCSError × GDALECWCompressor) :=
  pullLoop env (List.range self.sFileInfo.nSizeY.toNat) self

/-- Modelled from the spec: the "file extension" of the "destination naming
convention".  `CPLGetExtension`, defined outside this file, gives the text
after the last dot of the last path component of a file name (what follows
the last `/` or backslash), and the empty text when that component has no
dot. -/
def CPLGetExtension (pszFullFilename : String) : String :=
  let component := pszFullFilename.data.reverse.takeWhile
    fun c => c != '/' && c != Char.ofNat 92
  if component.contains '.' then ⟨(component.takeWhile fun c => c != '.').reverse⟩ else ""

/-- The end of `ECWCreateCopy`, from "Start the compression": `Write`, whose
result is dropped, `CloseDown`, the last progress call, and the dataset
`GDALOpen` gives on the destination (its name stands for it).  Returns
that dataset, `none` for `NULL`, and the calls made since the compressor was
created. -/
def ECWCreateCopy.compress (env : Env) (pszFilename : String) (oCompressor : GDALECWCompressor) :
    Option (Option String × List Event) :=
  match oCompressor.Write env with
  | none => none
  | some (_, c1) =>
    let c2 := c1.CloseDown.2
    let c3 := c2.emit (Event.pfnProgress (some 1.001) (env.pfnProgress (some 1.001)))
    let c4 := c3.emit (Event.GDALOpen pszFilename (env.GDALOpen pszFilename))
    some (if env.GDALOpen pszFilename then some pszFilename else none, c4.log)

/-- The compressor `ECWCreateCopy` sets up, after the first progress call. -/
def ECWCreateCopy.setup (env : Env) (poSrcDS : GDALDataset) : GDALECWCompressor :=
  GDALECWCompressor.emit
    { GDALECWCompressor.new with pfnProgress := .caller, m_poSrcDS := some poSrcDS }
    (Event.pfnProgress (some 0) (env.pfnProgress (some 0)))

/-- `ECWCreateCopy`: the dataset returned, `none` for `NULL`, and the calls
made.  The result is `none` where the source dereferences the `NULL` that
`GetRasterBand(1)` gives on a source without bands, and where `Initialize`
or `Write` do.  The source does not use `bStrict` either. -/
def ECWCreateCopy (env : Env) (pszFilename : String) (poSrcDS : GDALDataset) (bStrict : Bool)
    (papszOptions : List String) (bIsJPEG2000 : Bool) : Option (Option String × List Event) :=
  let _ := bStrict
  let nBands : Int := poSrcDS.papoBands.length
  match poSrcDS.papoBands.head? with
  | none => none
  | some eType =>
    let oCompressor := ECWCreateCopy.setup env poSrcDS
    if !env.pfnProgress (some 0) then some (none, oCompressor.log)
    else
      match oCompressor.Initialize env pszFilename papszOptions poSrcDS.nRasterXSize
          poSrcDS.nRasterYSize nBands eType poSrcDS.GetProjectionRef poSrcDS.adfGeoTransform
          bIsJPEG2000 with
      | none => none
      | some (eErr, c2) =>
        if eErr ≠ .CE_None then some (none, c2.log)
        else ECWCreateCopy.compress env pszFilename c2

/-- `ECWCreateCopyECW`. -/
def ECWCreateCopyECW (env : Env) (pszFilename : String) (poSrcDS : GDALDataset) (bStrict : Bool)
    (papszOptions : List String) : Option (Option String × List Event) :=
  if !EQUAL (CPLGetExtension pszFilename) "ecw" then
    some (none, [Event.CPLError .CE_Failure .CPLE_AppDefined
      "ECW driver does not support creating ECW files"])
  else
    match poSrcDS.papoBands.head? with
    | none => none
    | some eType =>
      if eType ≠ .GDT_Byte ∧ bStrict then
        some (none, [Event.CPLError .CE_Failure .CPLE_NotSupported
          "ECW driver doesn't support data type %s. "])
      else if poSrcDS.nRasterXSize < 128 ∨ poSrcDS.nRasterYSize < 128 then
        some (none, [Event.CPLError .CE_Failure .CPLE_NotSupported
          "ECW driver requires image to be at least 128x128,"])
      else ECWCreateCopy env pszFilename poSrcDS bStrict papszOptions false

/-- `ECWCreateCopyJPEG2000`. -/
def ECWCreateCopyJPEG2000 (env : Env) (pszFilename : String) (poSrcDS : GDALDataset)
    (bStrict : Bool) (papszOptions : List String) : Option (Option String × List Event) :=
  if EQUAL (CPLGetExtension pszFilename) "ecw" then
    some (none, [Event.CPLError .CE_Failure .CPLE_AppDefined
      "JP2ECW driver does not support creating JPEG2000 files"])
  else
    match poSrcDS.papoBands.head? with
    | none => none
    | some eType =>
      if eType ≠ .GDT_Byte ∧ eType ≠ .GDT_Byte ∧ eType ≠ .GDT_Int16 ∧ eType ≠ .GDT_UInt16
          ∧ eType ≠ .GDT_Int32 ∧ eType ≠ .GDT_UInt32 ∧ eType ≠ .GDT_Float32
          ∧ eType ≠ .GDT_Float64 ∧ bStrict then
        some (none, [Event.CPLError .CE_Failure .CPLE_NotSupported
          "JP2ECW driver doesn't support data type %s. "])
      else ECWCreateCopy env pszFilename poSrcDS bStrict papszOptions true

/-- A source of 2 x 2 pixels with one band of type Byte, no projection and
the identity geotransform. -/
def smallSource : GDALDataset where
  nRasterXSize := 2
  nRasterYSize := 2
  papoBands := [.GDT_Byte]
  GetProjectionRef := none
  adfGeoTransform := identityGeoTransform

/-- A source of 256 x 256 pixels with three bands of type UInt16. -/
def largeSource : GDALDataset where
  nRasterXSize := 256
  nRasterYSize := 256
  papoBands := [.GDT_UInt16, .GDT_UInt16, .GDT_UInt16]
  GetProjectionRef := none
  adfGeoTransform := identityGeoTransform

/-- The environment `Env.accepting` with a source whose `RasterIO` fails. -/
def Env.unreadable : Env :=
  { Env.accepting with RasterIO := fun _ _ _ => false }

/-- The answers of the library on the geographic system EPSG:4283, named
`GDA94`, with the datum `Geocentric_Datum_of_Australia_1994`. -/
def gda94Geographic : OGRSpatialReference where
  IsLocal := false
  IsProjected := false
  IsGeographic := true
  GetAuthorityCode := fun k => if k = "GEOGCS" then some "4283" else none
  GetAuthorityName := fun k => if k = "GEOGCS" then some "EPSG" else none
  GetAttrValue := fun k =>
    if k = "GEOGCS" then some "GDA94"
    else if k = "DATUM" then some "Geocentric_Datum_of_Australia_1994" else none
  GetUTMZone := (0, false)

/-! ## The datum heuristics in the words of the specification -/

/-- Following the words of the specification: whether the text `sub` occurs in
the text `s`, character for character ("case-sensitive containment"). -/
def containsText (s sub : String) : Bool :=
  decide (sub.data <:+: s.data)

/-- Following the words of the specification: the datum heuristics, in the
order in which they are tried.  A rule is an authority code, the pair of
words looked for in a name when the rule has one, and the datum it assigns:
"two specific world datums and two regional datums, plus a small table of
fixed authority-code-to-datum mappings". -/
def heuristicRules : List (Nat × Option (String × String) × String) :=
  [(4326, some ("WGS", "84"), "WGS84"),
   (4322, some ("WGS", "72"), "WGS72DOD"),
   (4267, some ("NAD", "27"), "NAD27"),
   (4269, some ("NAD", "83"), "NAD83"),
   (4277, none, "OSGB36"),
   (4278, none, "OSGB78"),
   (4201, none, "ADINDAN"),
   (4202, none, "AGD66"),
   (4203, none, "AGD84"),
   (4209, none, "ARC1950"),
   (4210, none, "ARC1960"),
   (4275, none, "NTF"),
   (4284, none, "PULKOVO")]

/-- Following the words of the specification: a rule matches when the
authority code is its code, or the name of the geographic system contains
both of its words, or the name of the datum contains both. -/
def ruleMatches (nEPSGCode : Nat) (geogcs datum : String)
    (rule : Nat × Option (String × String) × String) : Bool :=
  decide (nEPSGCode = rule.1)
    || match rule.2.1 with
       | some (a, b) =>
         (containsText geogcs a && containsText geogcs b)
           || (containsText datum a && containsText datum b)
       | none => false

/-- Following the words of the specification: the datum the heuristics give,
"the first match wins"; the datum is left as it is when no rule matches. -/
def firstMatch (nEPSGCode : Nat) (geogcs datum pszDatum : String) : String :=
  match heuristicRules.find? (ruleMatches nEPSGCode geogcs datum) with
  | some rule => rule.2.2
  | none => pszDatum

/-- The cell type and the number of bytes of each band segment of every
scanline handed to the codec, in order. -/
def pushedCells : List Event → List (NCSEcwCellType × List Nat)
  | [] => []
  | Event.WriteLineBIL eType _ papOutputLine _ :: rest =>
    (eType, papOutputLine.map List.length) :: pushedCells rest
  | _ :: rest => pushedCells rest

/-- A new JPEG2000 dataset of 2 x 2 pixels with 1 band of the complex type
CFloat32. -/
def complexDataset : ECWWriteDataset :=
  ECWWriteDataset.new "out.jp2" 2 2 1 .GDT_CFloat32 [] true

/-- The answers of the library on the geographic system EPSG:4326 under the
name `World`, with a datum named `unnamed`: neither name contains `WGS` or
`84`. -/
def worldGeographic : OGRSpatialReference where
  IsLocal := false
  IsProjected := false
  IsGeographic := true
  GetAuthorityCode := fun k => if k = "GEOGCS" then some "4326" else none
  GetAuthorityName := fun k => if k = "GEOGCS" then some "EPSG" else none
  GetAttrValue := fun k =>
    if k = "GEOGCS" then some "World" else if k = "DATUM" then some "unnamed" else none
  GetUTMZone := (0, false)

/-- The answers of the library on the geographic system EPSG:4277, named
`OSGB 1936`, with the datum `OSGB_1936`. -/
def osgb36Geographic : OGRSpatialReference where
  IsLocal := false
  IsProjected := false
  IsGeographic := true
  GetAuthorityCode := fun k => if k = "GEOGCS" then some "4277" else none
  GetAuthorityName := fun k => if k = "GEOGCS" then some "EPSG" else none
  GetAttrValue := fun k =>
    if k = "GEOGCS" then some "OSGB 1936" else if k = "DATUM" then some "OSGB_1936" else none
  GetUTMZone := (0, false)

/-! ## Lists of bytes -/

theorem memcpy_length (buf data : List GByte) (off L : Nat)
    (hd : data.length = L) (hb : off + L ≤ buf.length) :
    (memcpy buf off data L).length = buf.length := by
  simp [memcpy, hd]
  omega

theorem memcpy_getElem? (buf data : List GByte) (off L p : Nat)
    (hd : data.length = L) (hb : off + L ≤ buf.length) :
    (memcpy buf off data L)[p]? =
      if p < off then buf[p]? else if p < off + L then data[p - off]? else buf[p]? := by
  unfold memcpy
  have h1 : (List.take off buf).length = off := by simp; omega
  have h2 : (List.take L data).length = L := by simp [hd]
  split
  · rename_i h
    rw [List.append_assoc, List.getElem?_append_left (by omega)]
    simp [List.getElem?_take, h]
  · rename_i h
    rw [List.append_assoc, List.getElem?_append_right (by omega), h1]
    split
    · rename_i h2
      rw [List.getElem?_append_left (by omega)]
      simp [List.getElem?_take]
      omega
    · rename_i h3
      rw [List.getElem?_append_right (by omega), h2]
      simp
      congr 1
      omega

theorem seg_getElem? (X : List GByte) (a L m : Nat) :
    ((X.drop a).take L)[m]? = if m < L then X[a + m]? else none := by
  simp [List.getElem?_take]

theorem seg_memcpy (buf data : List GByte) (L n j i : Nat)
    (hlen : buf.length = n * L) (hd : data.length = L) (hj : j < n) :
    ((memcpy buf (j * L) data L).drop (i * L)).take L =
      if i = j then data else (buf.drop (i * L)).take L := by
  have hjL : j * L + L ≤ n * L := by
    have : (j + 1) * L ≤ n * L := Nat.mul_le_mul_right L hj
    rw [Nat.succ_mul] at this
    exact this
  apply List.ext_getElem?
  intro m
  rw [seg_getElem?, memcpy_getElem? buf data (j * L) L _ hd (by omega)]
  by_cases hm : m < L
  · simp only [hm, if_true]
    by_cases hij : i = j
    · subst hij
      have : ¬ (i * L + m < i * L) := by omega
      simp [this, hm]
    · simp only [hij, if_false, seg_getElem?, hm, if_true]
      rcases Nat.lt_or_gt_of_ne hij with h | h
      · have : (i + 1) * L ≤ j * L := Nat.mul_le_mul_right L h
        rw [Nat.succ_mul] at this
        have h4 : i * L + m < j * L := by omega
        simp [h4]
      · have : (j + 1) * L ≤ i * L := Nat.mul_le_mul_right L h
        rw [Nat.succ_mul] at this
        have h1 : ¬ (i * L + m < j * L) := by omega
        have h2 : ¬ (i * L + m < j * L + L) := by omega
        simp [h1, h2]
  · simp only [hm, if_false]
    by_cases hij : i = j
    · subst hij
      simp only [if_true]
      rw [List.getElem?_eq_none]
      omega
    · simp only [hij, if_false, seg_getElem?, hm]

theorem seg_memset (buf : List GByte) (L n i : Nat) (hi : i < n) :
    ((memset buf 0 (n * L)).drop (i * L)).take L = List.replicate L 0 := by
  have hiL : i * L + L ≤ n * L := by
    have : (i + 1) * L ≤ n * L := Nat.mul_le_mul_right L hi
    rw [Nat.succ_mul] at this
    exact this
  apply List.ext_getElem?
  intro m
  rw [seg_getElem?]
  unfold memset
  by_cases hm : m < L
  · simp only [hm, if_true]
    rw [List.getElem?_append_left (by simp; omega)]
    simp [List.getElem?_replicate, hm]
    omega
  · simp only [hm, if_false]
    rw [eq_comm, List.getElem?_eq_none]
    simp
    omega

theorem memset_length (buf : List GByte) (k : Nat) (h : buf.length = k) :
    (memset buf 0 k).length = k := by
  simp [memset, h]

theorem outputLine_length (buf : List GByte) (n ws xs : Nat) :
    (outputLine buf n ws xs).length = n := by
  simp [outputLine]

theorem outputLine_getElem? (buf : List GByte) (n ws xs i : Nat) :
    (outputLine buf n ws xs)[i]? =
      if i < n then some ((buf.drop (i * (ws * xs))).take (ws * xs)) else none := by
  unfold outputLine
  by_cases hi : i < n
  · simp [List.getElem?_map, List.getElem?_range, hi, Nat.mul_assoc]
  · simp [List.getElem?_map, hi]
    omega

theorem outputLine_memset (buf : List GByte) (n ws xs : Nat) :
    outputLine (memset buf 0 (ws * xs * n)) n ws xs
      = List.replicate n (List.replicate (ws * xs) 0) := by
  apply List.ext_getElem?
  intro i
  rw [outputLine_getElem?, Nat.mul_comm (ws * xs) n]
  by_cases hi : i < n
  · simp [hi, seg_memset buf (ws * xs) n i hi, List.getElem?_replicate]
  · simp [hi, List.getElem?_replicate]

theorem outputLine_memcpy (buf data : List GByte) (n ws xs b : Nat)
    (hlen : buf.length = ws * n * xs) (hd : data.length = ws * xs)
    (hb1 : 1 ≤ b) (hb2 : b ≤ n) :
    outputLine (memcpy buf ((b - 1) * ws * xs) data (ws * xs)) n ws xs
      = (outputLine buf n ws xs).set (b - 1) data := by
  have hlen2 : buf.length = n * (ws * xs) := by
    rw [hlen, Nat.mul_comm ws n, Nat.mul_assoc]
  apply List.ext_getElem?
  intro i
  rw [outputLine_getElem?, Nat.mul_assoc (b - 1) ws xs,
    seg_memcpy buf data (ws * xs) n (b - 1) i hlen2 hd (by omega), List.getElem?_set]
  by_cases hi : i < n
  · by_cases hib : i = b - 1
    · subst hib
      simp [hi, outputLine_length]
    · have : ¬ (b - 1 = i) := fun h => hib h.symm
      simp [hi, hib, this, outputLine_getElem?]
  · have : ¬ (b - 1 = i) := by omega
    simp [hi, this, outputLine_getElem?]

/-! ## The log -/

theorem pushedLines_append (l1 l2 : List Event) :
    pushedLines (l1 ++ l2) = pushedLines l1 ++ pushedLines l2 := by
  induction l1 with
  | nil => rfl
  | cons e l ih => cases e <;> simp [pushedLines, ih]

theorem acceptedLines_append (l1 l2 : List Event) :
    acceptedLines (l1 ++ l2) = acceptedLines l1 ++ acceptedLines l2 := by
  induction l1 with
  | nil => rfl
  | cons e l ih =>
    cases e <;> simp [acceptedLines, ih]
    rename_i a b c ok
    cases ok <;> simp [acceptedLines, ih]

theorem pushedLines_noWrite (evs : List Event) (h : ∀ e ∈ evs, e.isWriteLineBIL = false) :
    pushedLines evs = [] := by
  induction evs with
  | nil => rfl
  | cons e l ih =>
    have he := h e (List.mem_cons_self _ _)
    have hl := ih (fun x hx => h x (List.mem_cons_of_mem _ hx))
    cases e <;> first | exact hl | (simp [Event.isWriteLineBIL] at he)

theorem acceptedLines_noWrite (evs : List Event) (h : ∀ e ∈ evs, e.isWriteLineBIL = false) :
    acceptedLines evs = [] := by
  induction evs with
  | nil => rfl
  | cons e l ih =>
    have he := h e (List.mem_cons_self _ _)
    have hl := ih (fun x hx => h x (List.mem_cons_of_mem _ hx))
    cases e <;> first | exact hl | (simp [Event.isWriteLineBIL] at he)

/-- What `setFileInfoAndOpen` adds to the log: the `SetFileInfo` call and,
when it succeeded, one `Open`. -/
theorem setFileInfoAndOpen_log (env : Env) (c : GDALECWCompressor) (f : String) :
    (c.setFileInfoAndOpen env f).1 = CPLErr.CE_None
    ∧ ∃ evs, (c.setFileInfoAndOpen env f).2 = { c with log := c.log ++ evs }
      ∧ (∀ e ∈ evs, e.isWriteLineBIL = false)
      ∧ Event.SetFileInfo c.sFileInfo (env.SetFileInfo c.sFileInfo) ∈ evs := by
  unfold GDALECWCompressor.setFileInfoAndOpen
  cases hok : env.SetFileInfo c.sFileInfo
  · refine ⟨by simp, [Event.SetFileInfo c.sFileInfo false], ?_, ?_, ?_⟩
    · simp [GDALECWCompressor.emit]
    · simp [Event.isWriteLineBIL]
    · simp
  · cases hfp : c.fpVSIL
    · refine ⟨by simp [GDALECWCompressor.emit, hfp],
        [Event.SetFileInfo c.sFileInfo true, Event.Open f (env.Open f)], ?_, ?_, ?_⟩
      · simp [GDALECWCompressor.emit, hfp]
      · simp [Event.isWriteLineBIL]
      · simp
    · rename_i fp
      refine ⟨by simp [GDALECWCompressor.emit, hfp],
        [Event.SetFileInfo c.sFileInfo true, Event.OpenStream fp (env.OpenStream fp)], ?_, ?_, ?_⟩
      · simp [GDALECWCompressor.emit, hfp]
      · simp [Event.isWriteLineBIL]
      · simp

/-- What `openDestination` adds to the log contains no scanline. -/
theorem openDestination_log (env : Env) (c : GDALECWCompressor) (f : String) :
    ∃ evs, (c.openDestination env f).2.log = c.log ++ evs
      ∧ (∀ e ∈ evs, e.isWriteLineBIL = false) := by
  unfold GDALECWCompressor.openDestination
  split
  · split
    · exact ⟨[Event.CPLError .CE_Failure .CPLE_OpenFailed
        "Failed to parse J2K_SUBFILE specification."],
        by simp [GDALECWCompressor.emit], by simp [Event.isWriteLineBIL]⟩
    · split
      · exact ⟨[Event.CPLError .CE_Failure .CPLE_OpenFailed
          "Failed to parse J2K_SUBFILE specification."],
          by simp [GDALECWCompressor.emit], by simp [Event.isWriteLineBIL]⟩
      · rename_i off size _ _ real _
        split
        · obtain ⟨_, evs, h1, h2, _⟩ := setFileInfoAndOpen_log env
            (GDALECWCompressor.emit { (GDALECWCompressor.emit { c with fpVSIL := none }
              (Event.VSIFOpenL real (env.VSIFOpenL real))) with
              fpVSIL := some real, m_OStream := some (real, off, size) }
              (Event.Access real off size)) f
          refine ⟨Event.VSIFOpenL real (env.VSIFOpenL real) :: Event.Access real off size :: evs,
            ?_, ?_⟩
          · rw [h1]
            simp [GDALECWCompressor.emit]
          · intro e he
            simp at he
            rcases he with he | he | he
            · simp [he, Event.isWriteLineBIL]
            · simp [he, Event.isWriteLineBIL]
            · exact h2 e he
        · exact ⟨[Event.VSIFOpenL real (env.VSIFOpenL real),
            Event.CPLError .CE_Failure .CPLE_OpenFailed "Failed to open %s."],
            by simp [GDALECWCompressor.emit], by simp [Event.isWriteLineBIL]⟩
  · obtain ⟨_, evs, h1, h2, _⟩ := setFileInfoAndOpen_log env { c with fpVSIL := none } f
    exact ⟨evs, by rw [h1], h2⟩

theorem configureEvents_noWrite (env : Env) (opts : List String) (y : Int) (g : GeoTransform)
    (j : Bool) : ∀ e ∈ configureEvents env opts y g j, e.isWriteLineBIL = false := by
  intro e he
  unfold configureEvents at he
  rw [List.mem_append] at he
  rcases he with he | he
  · split at he
    · rw [List.mem_map] at he
      obtain ⟨p, _, hp⟩ := he
      rw [← hp]
      rfl
    · exact absurd he (List.not_mem_nil _)
  · split at he
    · rw [List.mem_singleton] at he
      rw [he]
      rfl
    · exact absurd he (List.not_mem_nil _)

/-- What `Initialize` adds to the log contains no scanline. -/
theorem Initialize_log (env : Env) (c : GDALECWCompressor) (f : String) (opts : List String)
    (x y n : Int) (t : GDALDataType) (w : Option String) (g : GeoTransform) (j : Bool)
    (r : CPLErr) (c1 : GDALECWCompressor)
    (h : c.Initialize env f opts x y n t w g j = some (r, c1)) :
    ∃ evs, c1.log = c.log ++ evs ∧ (∀ e ∈ evs, e.isWriteLineBIL = false) := by
  unfold GDALECWCompressor.Initialize at h
  split at h
  · simp only [Option.some.injEq, Prod.mk.injEq] at h
    rw [← h.2]
    exact ⟨[_], rfl, by simp [Event.isWriteLineBIL]⟩
  · split at h
    · simp only [Option.some.injEq, Prod.mk.injEq] at h
      rw [← h.2]
      exact ⟨[_], rfl, by simp [Event.isWriteLineBIL]⟩
    · split at h
      · exact absurd h (by simp)
      · rename_i pd hpd
        simp only [Option.some.injEq] at h
        have h2 := congrArg Prod.snd h
        simp only at h2
        rw [← h2]
        obtain ⟨evs, he1, he2⟩ := openDestination_log env
          (c.configure env opts x y n t g j pd.1 pd.2) f
        rw [he1]
        refine ⟨configureEvents env opts y g j ++ evs, ?_, ?_⟩
        · simp [GDALECWCompressor.configure]
        · intro e he
          rw [List.mem_append] at he
          rcases he with he | he
          · exact configureEvents_noWrite env opts y g j e he
          · exact he2 e he

theorem Initialize_pushedLines (env : Env) (c : GDALECWCompressor) (f : String)
    (opts : List String) (x y n : Int) (t : GDALDataType) (w : Option String)
    (g : GeoTransform) (j : Bool) (r : CPLErr) (c1 : GDALECWCompressor)
    (h : c.Initialize env f opts x y n t w g j = some (r, c1)) :
    pushedLines c1.log = pushedLines c.log ∧ acceptedLines c1.log = acceptedLines c.log := by
  obtain ⟨evs, h1, h2⟩ := Initialize_log env c f opts x y n t w g j r c1 h
  rw [h1, pushedLines_append, acceptedLines_append, pushedLines_noWrite evs h2,
    acceptedLines_noWrite evs h2]
  simp

/-! ## Single steps of the dataset -/

theorem FlushLine_push_ok (env : Env) (s : ECWWriteDataset) (buf : List GByte)
    (hc : s.bCrystalized = true) (hb : s.pabyBILBuffer = some buf) (hl : s.nLoadedLine ≠ -1)
    (hok : s.pushOk env buf = true) :
    s.FlushLine env = some (CPLErr.CE_None, (s.emit (s.pushEvent env buf)).clearAndAdvance buf) := by
  unfold ECWWriteDataset.pushOk at hok
  simp [ECWWriteDataset.FlushLine, hc, hb, hl, hok, ECWWriteDataset.pushEvent]

theorem FlushLine_push_fail (env : Env) (s : ECWWriteDataset) (buf : List GByte)
    (hc : s.bCrystalized = true) (hb : s.pabyBILBuffer = some buf) (hl : s.nLoadedLine ≠ -1)
    (hok : s.pushOk env buf = false) :
    s.FlushLine env = some (CPLErr.CE_Failure, (s.emit (s.pushEvent env buf)).emit
      (Event.CPLError .CE_Failure .CPLE_AppDefined "Scanline write write failed.")) := by
  unfold ECWWriteDataset.pushOk at hok
  simp [ECWWriteDataset.FlushLine, hc, hb, hl, hok, ECWWriteDataset.pushEvent]

theorem FlushLine_init_fault (env : Env) (s : ECWWriteDataset)
    (hc : s.bCrystalized = false) (hi : s.compressorInitialize env = none) :
    s.FlushLine env = none := by
  simp [ECWWriteDataset.FlushLine, ECWWriteDataset.Crystalize, hc, hi]

theorem FlushLine_init_fail (env : Env) (s : ECWWriteDataset) (r : CPLErr)
    (c : GDALECWCompressor)
    (hc : s.bCrystalized = false) (hi : s.compressorInitialize env = some (r, c)) (hr : r ≠ .CE_None) :
    s.FlushLine env = some (r, { s with oCompressor := c, nLoadedLine := -1, pabyBILBuffer := CPLMalloc env (GDALGetDataTypeSize s.eDataType / 8 * s.nBands * s.nRasterXSize) }) := by
  simp [ECWWriteDataset.FlushLine, ECWWriteDataset.Crystalize, hc, hi, hr]

theorem FlushLine_init_ok (env : Env) (s : ECWWriteDataset) (c : GDALECWCompressor)
    (hc : s.bCrystalized = false) (hi : s.compressorInitialize env = some (CPLErr.CE_None, c)) :
    s.FlushLine env = some (CPLErr.CE_None, { s with oCompressor := c, bCrystalized := true, nLoadedLine := 0, pabyBILBuffer := some (memset ((List.range (GDALGetDataTypeSize s.eDataType / 8 * s.nBands * s.nRasterXSize)).map env.garbage) 0 (GDALGetDataTypeSize s.eDataType / 8 * s.nRasterXSize * s.nBands)) }) := by
  simp [ECWWriteDataset.FlushLine, ECWWriteDataset.Crystalize, hc, hi, CPLMalloc,
    ECWWriteDataset.clearAndAdvance]

theorem IWriteBlock_same_line (env : Env) (s : ECWWriteDataset) (nBand : Nat)
    (nBlockX nBlockY : Int) (pBuffer buf : List GByte)
    (hy : nBlockY = s.nLoadedLine) (hb : s.pabyBILBuffer = some buf) :
    s.IWriteBlock env nBand nBlockX nBlockY pBuffer = some (CPLErr.CE_None, { s with pabyBILBuffer := some (memcpy buf ((nBand - 1) * (GDALGetDataTypeSize s.eDataType / 8) * s.nRasterXSize) pBuffer (GDALGetDataTypeSize s.eDataType / 8 * s.nRasterXSize)) }) := by
  simp [ECWWriteDataset.IWriteBlock, hy, hb]

theorem IWriteBlock_same_line_null (env : Env) (s : ECWWriteDataset) (nBand : Nat)
    (nBlockX nBlockY : Int) (pBuffer : List GByte)
    (hy : nBlockY = s.nLoadedLine) (hb : s.pabyBILBuffer = none) :
    s.IWriteBlock env nBand nBlockX nBlockY pBuffer = none := by
  simp [ECWWriteDataset.IWriteBlock, hy, hb]

theorem IWriteBlock_next_fault (env : Env) (s : ECWWriteDataset) (nBand : Nat)
    (nBlockX nBlockY : Int) (pBuffer : List GByte)
    (hy : nBlockY = s.nLoadedLine + 1) (hf : s.FlushLine env = none) :
    s.IWriteBlock env nBand nBlockX nBlockY pBuffer = none := by
  simp [ECWWriteDataset.IWriteBlock, hy, hf]

theorem IWriteBlock_next_fail (env : Env) (s s1 : ECWWriteDataset) (r : CPLErr) (nBand : Nat)
    (nBlockX nBlockY : Int) (pBuffer : List GByte)
    (hy : nBlockY = s.nLoadedLine + 1) (hf : s.FlushLine env = some (r, s1))
    (hr : r ≠ .CE_None) :
    s.IWriteBlock env nBand nBlockX nBlockY pBuffer = some (r, s1) := by
  simp [ECWWriteDataset.IWriteBlock, hy, hf, hr]

theorem IWriteBlock_next_ok (env : Env) (s s1 : ECWWriteDataset) (nBand : Nat)
    (nBlockX nBlockY : Int) (pBuffer buf : List GByte)
    (hy : nBlockY = s.nLoadedLine + 1) (hf : s.FlushLine env = some (CPLErr.CE_None, s1))
    (hl : s1.nLoadedLine = s.nLoadedLine + 1) (hb : s1.pabyBILBuffer = some buf) :
    s.IWriteBlock env nBand nBlockX nBlockY pBuffer = some (CPLErr.CE_None, { s1 with pabyBILBuffer := some (memcpy buf ((nBand - 1) * (GDALGetDataTypeSize s.eDataType / 8) * s1.nRasterXSize) pBuffer (GDALGetDataTypeSize s.eDataType / 8 * s1.nRasterXSize)) }) := by
  simp [ECWWriteDataset.IWriteBlock, hy, hf, hl, hb]

theorem IWriteBlock_out_of_order_eq (env : Env) (s : ECWWriteDataset) (nBand : Nat)
    (nBlockX nBlockY : Int) (pBuffer : List GByte)
    (h1 : nBlockY ≠ s.nLoadedLine) (h2 : nBlockY ≠ s.nLoadedLine + 1) :
    s.IWriteBlock env nBand nBlockX nBlockY pBuffer =
      some (CPLErr.CE_Failure, s.emit
            (Event.CPLError .CE_Failure .CPLE_AppDefined
              "Apparent attempt to write to ECW non-sequentially.")) := by
  simp [ECWWriteDataset.IWriteBlock, h1, h2]

/-! ## Invariants of the dataset -/

theorem LineFrom_mono (h : List WriteCall) (c : WriteCall) (L : Nat) (k : Int)
    (ln : List (List GByte)) (hl : LineFrom h L k ln) : LineFrom (h ++ [c]) L k ln := by
  intro i seg hseg
  rcases hl i seg hseg with h0 | ⟨c0, hc0, hrest⟩
  · exact Or.inl h0
  · exact Or.inr ⟨c0, List.mem_append_left _ hc0, hrest⟩

theorem LineFrom_zero (h : List WriteCall) (L n : Nat) (k : Int) :
    LineFrom h L k (List.replicate n (List.replicate L 0)) := by
  intro i seg hseg
  rw [List.getElem?_replicate] at hseg
  split at hseg
  · simp only [Option.some.injEq] at hseg
    exact Or.inl hseg.symm
  · exact absurd hseg (by simp)

theorem LineFrom_set (h : List WriteCall) (c : WriteCall) (L : Nat) (k : Int)
    (ln : List (List GByte)) (hl : LineFrom h L k ln) (hk : c.nBlockY = k)
    (hb : 1 ≤ c.nBand) :
    LineFrom (h ++ [c]) L k (ln.set (c.nBand - 1) c.pBuffer) := by
  intro i seg hseg
  rw [List.getElem?_set] at hseg
  split at hseg
  · rename_i hi
    split at hseg
    · simp only [Option.some.injEq] at hseg
      exact Or.inr ⟨c, by simp, hk, by omega, hseg⟩
    · exact absurd hseg (by simp)
  · exact LineFrom_mono h c L k ln hl i seg hseg

theorem acceptedLines_emit_error (l : List Event) (a : CPLErr) (b : CPLErrorNum) (m : String) :
    acceptedLines (l ++ [Event.CPLError a b m]) = acceptedLines l := by
  rw [acceptedLines_append]
  simp [acceptedLines]

theorem acceptedLines_push_false (l : List Event) (a : NCSEcwCellType) (b : Nat)
    (ln : List (List GByte)) :
    acceptedLines (l ++ [Event.WriteLineBIL a b ln false]) = acceptedLines l := by
  rw [acceptedLines_append]
  simp [acceptedLines]

theorem acceptedLines_push_true (l : List Event) (a : NCSEcwCellType) (b : Nat)
    (ln : List (List GByte)) :
    acceptedLines (l ++ [Event.WriteLineBIL a b ln true]) = acceptedLines l ++ [ln] := by
  rw [acceptedLines_append]
  simp [acceptedLines]

theorem pushedLines_push (l : List Event) (a : NCSEcwCellType) (b : Nat)
    (ln : List (List GByte)) (ok : Bool) :
    pushedLines (l ++ [Event.WriteLineBIL a b ln ok]) = pushedLines l ++ [ln] := by
  rw [pushedLines_append]
  simp [pushedLines]

theorem pushedLines_emit_error (l : List Event) (a : CPLErr) (b : CPLErrorNum) (m : String) :
    pushedLines (l ++ [Event.CPLError a b m]) = pushedLines l := by
  rw [pushedLines_append]
  simp [pushedLines]

theorem Frame.refl (s : ECWWriteDataset) : Frame s s := ⟨rfl, rfl, rfl, rfl⟩

/-- A block write on the current line keeps the invariants. -/
theorem step_same_line (h : List WriteCall) (s : ECWWriteDataset) (c : WriteCall)
    (buf : List GByte) (hI : Inv s) (hP : Prov h s) (hw : c.WellFormed s)
    (hy : c.nBlockY = s.nLoadedLine) (hb : s.pabyBILBuffer = some buf) :
    ∃ s1, s.write c = some (CPLErr.CE_None, s1) ∧ Inv s1 ∧ Prov (h ++ [c]) s1 ∧ Frame s s1
      ∧ s1.oCompressor = s.oCompressor ∧ s1.nLoadedLine = s.nLoadedLine
      ∧ s1.bCrystalized = s.bCrystalized
      ∧ s1.pabyBILBuffer = some (memcpy buf
          ((c.nBand - 1) * (GDALGetDataTypeSize s.eDataType / 8) * s.nRasterXSize) c.pBuffer
          (GDALGetDataTypeSize s.eDataType / 8 * s.nRasterXSize)) := by
  obtain ⟨hb1, hb2, hlen⟩ := hw
  have hbl := hI.buflen buf hb
  have hfit : (c.nBand - 1) * (GDALGetDataTypeSize s.eDataType / 8) * s.nRasterXSize
      + GDALGetDataTypeSize s.eDataType / 8 * s.nRasterXSize ≤ buf.length := by
    rw [hbl, Nat.mul_assoc, Nat.mul_comm (GDALGetDataTypeSize s.eDataType / 8) s.nBands,
      Nat.mul_assoc]
    have : (c.nBand - 1 + 1) * (GDALGetDataTypeSize s.eDataType / 8 * s.nRasterXSize)
        ≤ s.nBands * (GDALGetDataTypeSize s.eDataType / 8 * s.nRasterXSize) :=
      Nat.mul_le_mul_right _ (by omega)
    rw [Nat.succ_mul] at this
    exact this
  refine ⟨_, IWriteBlock_same_line c.env s c.nBand c.nBlockX c.nBlockY c.pBuffer buf hy hb,
    ?_, ?_, ⟨rfl, rfl, rfl, rfl⟩, rfl, rfl, rfl, rfl⟩
  · refine ⟨hI.lower, hI.cryst, ?_, ?_, hI.accepted⟩
    · intro b2 hbuf2
      simp only [Option.some.injEq] at hbuf2
      rw [← hbuf2, memcpy_length _ _ _ _ hlen hfit]
      exact hbl
    · intro _
      simp
  · refine ⟨fun k ln hk => LineFrom_mono h c _ _ ln (hP.past k ln hk), ?_⟩
    intro h0 b2 hbuf2
    simp only [Option.some.injEq] at hbuf2
    rw [← hbuf2]
    show LineFrom (h ++ [c]) s.segmentSize s.nLoadedLine
      (outputLine (memcpy buf _ c.pBuffer _) s.nBands _ s.nRasterXSize)
    rw [outputLine_memcpy buf c.pBuffer s.nBands _ s.nRasterXSize c.nBand hbl hlen hb1 hb2]
    exact LineFrom_set h c _ _ _ (hP.current h0 buf hb) hy hb1

/-- An out-of-order block write keeps the invariants. -/
theorem step_out_of_order (h : List WriteCall) (s : ECWWriteDataset) (c : WriteCall)
    (hI : Inv s) (hP : Prov h s)
    (h1 : c.nBlockY ≠ s.nLoadedLine) (h2 : c.nBlockY ≠ s.nLoadedLine + 1) :
    ∃ s1, s.write c = some (CPLErr.CE_Failure, s1) ∧ Inv s1 ∧ Prov (h ++ [c]) s1 ∧ Frame s s1
      ∧ pushedLines s1.oCompressor.log = pushedLines s.oCompressor.log := by
  refine ⟨_, IWriteBlock_out_of_order_eq c.env s c.nBand c.nBlockX c.nBlockY c.pBuffer h1 h2,
    ?_, ?_, ⟨rfl, rfl, rfl, rfl⟩, ?_⟩
  · refine ⟨hI.lower, hI.cryst, hI.buflen, hI.bufsome, ?_⟩
    show (acceptedLines (s.oCompressor.log ++ [_])).length = _
    rw [acceptedLines_emit_error]
    exact hI.accepted
  · refine ⟨?_, ?_⟩
    · intro k ln hk
      have hk2 : (acceptedLines s.oCompressor.log)[k]? = some ln := by
        have : (acceptedLines (s.oCompressor.log ++ [Event.CPLError .CE_Failure .CPLE_AppDefined
          "Apparent attempt to write to ECW non-sequentially."]))[k]? = some ln := hk
        rw [acceptedLines_emit_error] at this
        exact this
      exact LineFrom_mono h c _ _ ln (hP.past k ln hk2)
    · intro h0 buf hb
      exact LineFrom_mono h c _ _ _ (hP.current h0 buf hb)
  · show pushedLines (s.oCompressor.log ++ [_]) = _
    rw [pushedLines_emit_error]

theorem pushEvent_eq (env : Env) (s : ECWWriteDataset) (buf : List GByte) :
    s.pushEvent env buf = Event.WriteLineBIL s.oCompressor.sFileInfo.eCellType
      (s.nBands % 65536)
      (outputLine buf s.nBands (GDALGetDataTypeSize s.eDataType / 8) s.nRasterXSize)
      (s.pushOk env buf) := rfl

/-- What `FlushLine` does to a state that satisfies the invariants. -/
theorem FlushLine_spec (h : List WriteCall) (s : ECWWriteDataset) (env : Env)
    (hI : Inv s) (hP : Prov h s) :
    s.FlushLine env = none
    ∨ (∃ r s1, s.FlushLine env = some (r, s1) ∧ r ≠ CPLErr.CE_None ∧ Inv s1 ∧ Prov h s1
        ∧ Frame s s1)
    ∨ (∃ s1, s.FlushLine env = some (CPLErr.CE_None, s1) ∧ Inv s1 ∧ Prov h s1 ∧ Frame s s1
        ∧ s1.nLoadedLine = s.nLoadedLine + 1) := by
  cases hc : s.bCrystalized
  · have hl : s.nLoadedLine = -1 := by
      have h1 := hI.lower
      have h2 : ¬ (0 ≤ s.nLoadedLine) := fun h0 => by
        have := hI.cryst.mpr h0
        rw [hc] at this
        exact absurd this (by simp)
      omega
    have hacc : (acceptedLines s.oCompressor.log).length = 0 := by
      rw [hI.accepted, hl]
      rfl
    cases hi : s.compressorInitialize env with
    | none => exact Or.inl (FlushLine_init_fault env s hc hi)
    | some rc =>
      obtain ⟨r0, c0⟩ := rc
      have hlog := Initialize_pushedLines _ _ _ _ _ _ _ _ _ _ _ _ _ hi
      by_cases hr : r0 = CPLErr.CE_None
      · subst hr
        refine Or.inr (Or.inr ⟨_, FlushLine_init_ok env s c0 hc hi, ?_, ?_, ⟨rfl, rfl, rfl, rfl⟩,
          ?_⟩)
        · refine ⟨by simp, by simp, ?_, by simp, ?_⟩
          · intro b2 hbuf2
            simp only [Option.some.injEq] at hbuf2
            rw [← hbuf2, memset_length]
            · exact Nat.mul_right_comm _ _ _
            · rw [List.length_map, List.length_range]
              exact Nat.mul_right_comm _ _ _
          · simp only
            rw [hlog.2, hacc]
            rfl
        · refine ⟨?_, ?_⟩
          · intro k ln hk
            simp only at hk
            rw [hlog.2] at hk
            have : k < (acceptedLines s.oCompressor.log).length := by
              by_contra hcon
              rw [List.getElem?_eq_none (by omega)] at hk
              exact absurd hk (by simp)
            omega
          · intro _ b2 hbuf2
            simp only [Option.some.injEq] at hbuf2
            rw [← hbuf2]
            simp only
            rw [outputLine_memset]
            exact LineFrom_zero h _ _ _
        · simp [hl]
      · refine Or.inr (Or.inl ⟨r0, _, FlushLine_init_fail env s r0 c0 hc hi hr, hr, ?_, ?_,
          ⟨rfl, rfl, rfl, rfl⟩⟩)
        · refine ⟨by simp, by simp [hc], ?_, by simp [hc], ?_⟩
          · intro b2 hbuf2
            simp only [CPLMalloc, Option.some.injEq] at hbuf2
            rw [← hbuf2]
            simp
          · simp only
            rw [hlog.2, hacc]
            rfl
        · refine ⟨?_, ?_⟩
          · intro k ln hk
            simp only at hk
            rw [hlog.2] at hk
            have : k < (acceptedLines s.oCompressor.log).length := by
              by_contra hcon
              rw [List.getElem?_eq_none (by omega)] at hk
              exact absurd hk (by simp)
            omega
          · intro h0
            simp at h0
  · have hl0 : 0 ≤ s.nLoadedLine := hI.cryst.mp hc
    have hl : s.nLoadedLine ≠ -1 := by omega
    cases hb : s.pabyBILBuffer with
    | none => exact absurd hb (hI.bufsome hc)
    | some buf =>
      have hbl := hI.buflen buf hb
      cases hok : s.pushOk env buf
      · refine Or.inr (Or.inl ⟨_, _, FlushLine_push_fail env s buf hc hb hl hok, by simp, ?_, ?_,
          ⟨rfl, rfl, rfl, rfl⟩⟩)
        · refine ⟨hI.lower, hI.cryst, hI.buflen, hI.bufsome, ?_⟩
          show (acceptedLines ((s.oCompressor.log ++ [s.pushEvent env buf]) ++ [_])).length = _
          rw [acceptedLines_emit_error, pushEvent_eq, hok, acceptedLines_push_false]
          exact hI.accepted
        · refine ⟨?_, hP.current⟩
          intro k ln hk
          have hk2 : (acceptedLines ((s.oCompressor.log ++ [s.pushEvent env buf])
              ++ [Event.CPLError .CE_Failure .CPLE_AppDefined "Scanline write write failed."]))[k]?
              = some ln := hk
          rw [acceptedLines_emit_error, pushEvent_eq, hok, acceptedLines_push_false] at hk2
          exact hP.past k ln hk2
      · have hacc : acceptedLines (s.oCompressor.log ++ [s.pushEvent env buf])
            = acceptedLines s.oCompressor.log
              ++ [outputLine buf s.nBands (GDALGetDataTypeSize s.eDataType / 8) s.nRasterXSize] := by
          rw [pushEvent_eq, hok, acceptedLines_push_true]
        refine Or.inr (Or.inr ⟨_, FlushLine_push_ok env s buf hc hb hl hok, ?_, ?_,
          ⟨rfl, rfl, rfl, rfl⟩, rfl⟩)
        · refine ⟨?_, ?_, ?_, ?_, ?_⟩
          · show -1 ≤ s.nLoadedLine + 1
            omega
          · show s.bCrystalized = true ↔ 0 ≤ s.nLoadedLine + 1
            rw [hc]
            simp
            omega
          · intro b2 hbuf2
            have hbuf3 : some (memset buf 0 (GDALGetDataTypeSize s.eDataType / 8
                * s.nRasterXSize * s.nBands)) = some b2 := hbuf2
            simp only [Option.some.injEq] at hbuf3
            rw [← hbuf3, memset_length]
            · exact Nat.mul_right_comm _ _ _
            · rw [hbl]
              exact Nat.mul_right_comm _ _ _
          · intro _ hnone
            have : some (memset buf 0 (GDALGetDataTypeSize s.eDataType / 8
                * s.nRasterXSize * s.nBands)) = none := hnone
            exact absurd this (by simp)
          · show (acceptedLines (s.oCompressor.log ++ [s.pushEvent env buf])).length
              = (s.nLoadedLine + 1).toNat
            rw [hacc, List.length_append, hI.accepted]
            simp
            omega
        · refine ⟨?_, ?_⟩
          · intro k ln hk
            have hk2 : (acceptedLines (s.oCompressor.log ++ [s.pushEvent env buf]))[k]?
                = some ln := hk
            rw [hacc] at hk2
            by_cases hlt : k < (acceptedLines s.oCompressor.log).length
            · rw [List.getElem?_append_left hlt] at hk2
              exact hP.past k ln hk2
            · rw [List.getElem?_append_right (by omega)] at hk2
              have hk0 : k - (acceptedLines s.oCompressor.log).length = 0 := by
                by_contra hne
                rw [List.getElem?_eq_none (by simp; omega)] at hk2
                exact absurd hk2 (by simp)
              rw [hk0] at hk2
              simp only [List.getElem?_cons_zero, Option.some.injEq] at hk2
              have hkl : (k : Int) = s.nLoadedLine := by
                have := hI.accepted
                omega
              rw [← hk2, hkl]
              exact hP.current hl0 buf hb
          · intro _ b2 hbuf2
            have hbuf3 : some (memset buf 0 (GDALGetDataTypeSize s.eDataType / 8
                * s.nRasterXSize * s.nBands)) = some b2 := hbuf2
            simp only [Option.some.injEq] at hbuf3
            rw [← hbuf3]
            show LineFrom h s.segmentSize (s.nLoadedLine + 1)
              (outputLine (memset buf 0 _) s.nBands (GDALGetDataTypeSize s.eDataType / 8)
                s.nRasterXSize)
            rw [outputLine_memset]
            exact LineFrom_zero h _ _ _

theorem Prov_mono (h : List WriteCall) (c : WriteCall) (s : ECWWriteDataset) (hP : Prov h s) :
    Prov (h ++ [c]) s :=
  ⟨fun k ln hk => LineFrom_mono h c _ _ ln (hP.past k ln hk),
   fun h0 buf hb => LineFrom_mono h c _ _ _ (hP.current h0 buf hb)⟩

theorem Frame.trans {s s1 s2 : ECWWriteDataset} (h1 : Frame s s1) (h2 : Frame s1 s2) :
    Frame s s2 :=
  ⟨h2.1.trans h1.1, h2.2.1.trans h1.2.1, h2.2.2.1.trans h1.2.2.1, h2.2.2.2.trans h1.2.2.2⟩

theorem WellFormed_frame {s s1 : ECWWriteDataset} (c : WriteCall) (hF : Frame s s1)
    (hw : c.WellFormed s) : c.WellFormed s1 := by
  obtain ⟨h1, h2, h3⟩ := hw
  refine ⟨h1, ?_, ?_⟩
  · rw [hF.2.1]
    exact h2
  · rw [hF.1, hF.2.2.1]
    exact h3

/-- After a flush that succeeded, the rest of `IWriteBlock` is a write on the
line that has become current. -/
theorem IWriteBlock_after_flush (env : Env) (s s0 : ECWWriteDataset) (nBand : Nat)
    (nBlockX nBlockY : Int) (pBuffer : List GByte)
    (hy : nBlockY = s.nLoadedLine + 1) (hf : s.FlushLine env = some (CPLErr.CE_None, s0))
    (hl : s0.nLoadedLine = s.nLoadedLine + 1) (ht : s0.eDataType = s.eDataType) :
    s.IWriteBlock env nBand nBlockX nBlockY pBuffer
      = s0.IWriteBlock env nBand nBlockX nBlockY pBuffer := by
  simp [ECWWriteDataset.IWriteBlock, hy, hf, hl, ht]

/-- Every block write keeps the invariants. -/
theorem step_inv (h : List WriteCall) (s s1 : ECWWriteDataset) (c : WriteCall) (r : CPLErr)
    (hI : Inv s) (hP : Prov h s) (hw : c.WellFormed s) (hstep : s.write c = some (r, s1)) :
    Inv s1 ∧ Prov (h ++ [c]) s1 ∧ Frame s s1 := by
  by_cases hy : c.nBlockY = s.nLoadedLine
  · cases hb : s.pabyBILBuffer with
    | none =>
      have := IWriteBlock_same_line_null c.env s c.nBand c.nBlockX c.nBlockY c.pBuffer hy hb
      unfold ECWWriteDataset.write at hstep
      rw [this] at hstep
      exact absurd hstep (by simp)
    | some buf =>
      obtain ⟨s2, h1, h2, h3, h4, _⟩ := step_same_line h s c buf hI hP hw hy hb
      rw [h1] at hstep
      simp only [Option.some.injEq, Prod.mk.injEq] at hstep
      rw [← hstep.2]
      exact ⟨h2, h3, h4⟩
  · by_cases hy2 : c.nBlockY = s.nLoadedLine + 1
    · rcases FlushLine_spec h s c.env hI hP with hf | ⟨r0, s0, hf, hr, hI0, hP0, hF0⟩
          | ⟨s0, hf, hI0, hP0, hF0, hl0⟩
      · have := IWriteBlock_next_fault c.env s c.nBand c.nBlockX c.nBlockY c.pBuffer hy2 hf
        unfold ECWWriteDataset.write at hstep
        rw [this] at hstep
        exact absurd hstep (by simp)
      · have := IWriteBlock_next_fail c.env s s0 r0 c.nBand c.nBlockX c.nBlockY c.pBuffer hy2 hf hr
        unfold ECWWriteDataset.write at hstep
        rw [this] at hstep
        simp only [Option.some.injEq, Prod.mk.injEq] at hstep
        rw [← hstep.2]
        exact ⟨hI0, Prov_mono h c s0 hP0, hF0⟩
      · have heq := IWriteBlock_after_flush c.env s s0 c.nBand c.nBlockX c.nBlockY c.pBuffer hy2 hf
          hl0 hF0.1
        have hy0 : c.nBlockY = s0.nLoadedLine := by rw [hl0, hy2]
        have hc0 : s0.bCrystalized = true := hI0.cryst.mpr (by have := hI.lower; omega)
        cases hb : s0.pabyBILBuffer with
        | none => exact absurd hb (hI0.bufsome hc0)
        | some buf =>
          obtain ⟨s2, h1, h2, h3, h4, _⟩ :=
            step_same_line h s0 c buf hI0 hP0 (WellFormed_frame c hF0 hw) hy0 hb
          unfold ECWWriteDataset.write at hstep h1
          rw [heq, h1] at hstep
          simp only [Option.some.injEq, Prod.mk.injEq] at hstep
          rw [← hstep.2]
          exact ⟨h2, h3, hF0.trans h4⟩
    · obtain ⟨s2, h1, h2, h3, h4, _⟩ := step_out_of_order h s c hI hP hy hy2
      rw [h1] at hstep
      simp only [Option.some.injEq, Prod.mk.injEq] at hstep
      rw [← hstep.2]
      exact ⟨h2, h3, h4⟩

/-- Every reachable state satisfies the invariants. -/
theorem Trace_inv {h : List WriteCall} {s : ECWWriteDataset} (ht : Trace h s) :
    Inv s ∧ Prov h s := by
  induction ht with
  | create f x y n t o j =>
    refine ⟨⟨by simp [ECWWriteDataset.new], by simp [ECWWriteDataset.new],
      by simp [ECWWriteDataset.new], by simp [ECWWriteDataset.new], ?_⟩, ⟨?_, ?_⟩⟩
    · simp [ECWWriteDataset.new, GDALECWCompressor.new, acceptedLines]
    · intro k ln hk
      simp [ECWWriteDataset.new, GDALECWCompressor.new, acceptedLines] at hk
    · intro h0
      simp [ECWWriteDataset.new] at h0
  | setGeoTransform g _ ih =>
    exact ⟨⟨ih.1.lower, ih.1.cryst, ih.1.buflen, ih.1.bufsome, ih.1.accepted⟩,
      ⟨ih.2.past, ih.2.current⟩⟩
  | setProjection w _ ih =>
    exact ⟨⟨ih.1.lower, ih.1.cryst, ih.1.buflen, ih.1.bufsome, ih.1.accepted⟩,
      ⟨ih.2.past, ih.2.current⟩⟩
  | read b x y p _ ih => exact ih
  | write c r _ hw hstep ih =>
    have := step_inv _ _ _ c r ih.1 ih.2 hw hstep
    exact ⟨this.1, this.2.1⟩

/-! ## Whole lines -/

/-- Block writes on the current line only change the buffer: each block ends
up in the segment of its band. -/
theorem fill_line (cs : List WriteCall) :
    ∀ (h : List WriteCall) (s : ECWWriteDataset) (buf : List GByte), Trace h s →
      s.pabyBILBuffer = some buf →
      (∀ c ∈ cs, c.WellFormed s ∧ c.nBlockY = s.nLoadedLine) →
      ∃ s1 buf1, s.writeAll cs = some s1 ∧ Trace (h ++ cs) s1 ∧ Frame s s1
        ∧ s1.oCompressor = s.oCompressor ∧ s1.nLoadedLine = s.nLoadedLine
        ∧ s1.bCrystalized = s.bCrystalized ∧ s1.pabyBILBuffer = some buf1
        ∧ outputLine buf1 s.nBands (GDALGetDataTypeSize s.eDataType / 8) s.nRasterXSize
          = storeBlocks
              (outputLine buf s.nBands (GDALGetDataTypeSize s.eDataType / 8) s.nRasterXSize) cs := by
  induction cs with
  | nil =>
    intro h s buf ht hb _
    exact ⟨s, buf, rfl, by simpa using ht, Frame.refl s, rfl, rfl, rfl, hb, rfl⟩
  | cons c rest ih =>
    intro h s buf ht hb hcs
    obtain ⟨hw, hy⟩ := hcs c (List.mem_cons_self _ _)
    obtain ⟨hI, hP⟩ := Trace_inv ht
    obtain ⟨s1, hstep, _, _, hF, hco, hl, hcr, hb1⟩ := step_same_line h s c buf hI hP hw hy hb
    have ht1 : Trace (h ++ [c]) s1 := Trace.write c _ ht hw hstep
    have hrest : ∀ c2 ∈ rest, c2.WellFormed s1 ∧ c2.nBlockY = s1.nLoadedLine := by
      intro c2 hc2
      obtain ⟨hw2, hy2⟩ := hcs c2 (List.mem_cons_of_mem _ hc2)
      exact ⟨WellFormed_frame c2 hF hw2, by rw [hl]; exact hy2⟩
    obtain ⟨s2, buf2, hall, ht2, hF2, hco2, hl2, hcr2, hb2, hout⟩ := ih (h ++ [c]) s1 _ ht1 hb1 hrest
    refine ⟨s2, buf2, ?_, ?_, hF.trans hF2, hco2.trans hco, hl2.trans hl, hcr2.trans hcr, hb2, ?_⟩
    · simp only [ECWWriteDataset.writeAll, hstep]
      exact hall
    · simpa using ht2
    · rw [hF.1, hF.2.1, hF.2.2.1] at hout
      rw [hout, outputLine_memcpy buf c.pBuffer s.nBands _ s.nRasterXSize c.nBand
        (hI.buflen buf hb) hw.2.2 hw.1 hw.2.1]
      rfl

theorem storeBlocks_lineCalls (envs : Nat → Nat → Env) (blocks : Nat → Nat → List GByte)
    (k n : Nat) (order : List Nat) :
    ∀ (ln : List (List GByte)), ln.length = n → (∀ b ∈ order, 1 ≤ b) →
      ∀ i, (storeBlocks ln (lineCalls envs blocks k order))[i]?
        = if i + 1 ∈ order ∧ i < n then some (blocks k (i + 1)) else ln[i]? := by
  induction order with
  | nil =>
    intro ln _ _ i
    simp [storeBlocks, lineCalls]
  | cons b rest ih =>
    intro ln hlen hpos i
    have hb : 1 ≤ b := hpos b (List.mem_cons_self _ _)
    have hrest : ∀ b2 ∈ rest, 1 ≤ b2 := fun b2 h2 => hpos b2 (List.mem_cons_of_mem _ h2)
    have hstep : storeBlocks ln (lineCalls envs blocks k (b :: rest))
        = storeBlocks (ln.set (b - 1) (blocks k b)) (lineCalls envs blocks k rest) := by
      simp [storeBlocks, lineCalls]
    rw [hstep, ih (ln.set (b - 1) (blocks k b)) (by simpa using hlen) hrest i]
    by_cases hmem : i + 1 ∈ rest ∧ i < n
    · have : i + 1 ∈ b :: rest ∧ i < n := ⟨List.mem_cons_of_mem _ hmem.1, hmem.2⟩
      simp only [hmem, this, and_self, if_true]
    · rw [if_neg hmem, List.getElem?_set]
      by_cases hbi : b - 1 = i
      · have hbe : b = i + 1 := by omega
        subst hbe
        simp only [hbi, if_true]
        by_cases hin : i < n
        · simp [hin, hlen]
        · have hnone : ln[i]? = none := List.getElem?_eq_none (by omega)
          simp [hin, hlen, hnone]
      · have hne : i + 1 ≠ b := by omega
        have hiff : (i + 1 ∈ b :: rest ∧ i < n) ↔ (i + 1 ∈ rest ∧ i < n) := by
          simp [List.mem_cons, hne]
        rw [if_neg hbi, if_neg (fun hh => hmem (hiff.mp hh))]

/-- When every band `1 .. n` occurs in `order`, storing the blocks of line `k`
gives the line in band order, whatever the order of the writes and whatever
the scanline held before. -/
theorem storeBlocks_perm (envs : Nat → Nat → Env) (blocks : Nat → Nat → List GByte)
    (k n : Nat) (order : List Nat) (ln : List (List GByte)) (hlen : ln.length = n)
    (hperm : order.Perm (List.range' 1 n)) :
    storeBlocks ln (lineCalls envs blocks k order) = sessionLine blocks n k := by
  have hmem : ∀ b, b ∈ order ↔ 1 ≤ b ∧ b < 1 + n := by
    intro b
    rw [hperm.mem_iff, List.mem_range'_1]
  apply List.ext_getElem?
  intro i
  rw [storeBlocks_lineCalls envs blocks k n order ln hlen (fun b hb => ((hmem b).mp hb).1) i]
  unfold sessionLine
  by_cases hin : i < n
  · have : i + 1 ∈ order := (hmem _).mpr ⟨by omega, by omega⟩
    simp [hin, this, List.getElem?_range]
  · have hnone : ln[i]? = none := List.getElem?_eq_none (by omega)
    have hnone2 : (List.map (fun i => blocks k (i + 1)) (List.range n))[i]? = none :=
      List.getElem?_eq_none (by simp; omega)
    rw [hnone2]
    simp [hin, hnone]

theorem writeAll_append (a b : List WriteCall) :
    ∀ s : ECWWriteDataset, s.writeAll (a ++ b) = (s.writeAll a).bind fun s1 => s1.writeAll b := by
  induction a with
  | nil => intro s; rfl
  | cons c rest ih =>
    intro s
    simp only [List.cons_append, ECWWriteDataset.writeAll]
    cases s.write c with
    | none => rfl
    | some r => exact ih r.2

theorem sessionCalls_succ (envs : Nat → Nat → Env) (blocks : Nat → Nat → List GByte)
    (order : Nat → List Nat) (m : Nat) :
    sessionCalls envs blocks order (m + 1)
      = sessionCalls envs blocks order m ++ lineCalls envs blocks m (order m) := by
  simp [sessionCalls, List.range_succ, List.flatMap_append]

/-- The calls of one line, all bands in any order, starting with the write
that flushes the line before: when that flush succeeds, the buffer ends up
holding the line in band order. -/
theorem whole_line (h : List WriteCall) (s : ECWWriteDataset) (ht : Trace h s)
    (envs : Nat → Nat → Env) (blocks : Nat → Nat → List GByte) (k : Nat) (order : List Nat)
    (hperm : order.Perm (List.range' 1 s.nBands)) (hn : 1 ≤ s.nBands)
    (hk : (k : Int) = s.nLoadedLine + 1)
    (hlen : ∀ b, (blocks k b).length = GDALGetDataTypeSize s.eDataType / 8 * s.nRasterXSize)
    (P : List (List (List GByte)))
    (hf : ∀ b, ∃ sF, s.FlushLine (envs k b) = some (CPLErr.CE_None, sF)
      ∧ pushedLines sF.oCompressor.log = P) :
    ∃ s1 buf1, s.writeAll (lineCalls envs blocks k order) = some s1
      ∧ Trace (h ++ lineCalls envs blocks k order) s1 ∧ Frame s s1
      ∧ s1.nLoadedLine = (k : Int) ∧ s1.bCrystalized = true
      ∧ pushedLines s1.oCompressor.log = P
      ∧ s1.pabyBILBuffer = some buf1
      ∧ outputLine buf1 s.nBands (GDALGetDataTypeSize s.eDataType / 8) s.nRasterXSize
          = sessionLine blocks s.nBands k := by
  obtain ⟨hI, hP⟩ := Trace_inv ht
  have hwf : ∀ b ∈ order, 1 ≤ b ∧ b ≤ s.nBands := by
    intro b hb
    have := (hperm.mem_iff).mp hb
    rw [List.mem_range'_1] at this
    omega
  cases order with
  | nil =>
    have := hperm.length_eq
    simp at this
    omega
  | cons b0 rest =>
    obtain ⟨sF, hflush, hpush⟩ := hf b0
    -- the flush and what it leaves
    rcases FlushLine_spec h s (envs k b0) hI hP with hnone | ⟨r0, s0, hf0, hr0, _⟩
        | ⟨s0, hf0, hI0, hP0, hF0, hl0⟩
    · rw [hnone] at hflush
      exact absurd hflush (by simp)
    · rw [hf0] at hflush
      simp only [Option.some.injEq, Prod.mk.injEq] at hflush
      exact absurd hflush.1 hr0
    · rw [hf0] at hflush
      simp only [Option.some.injEq, Prod.mk.injEq, true_and] at hflush
      subst hflush
      have hc0 : s0.bCrystalized = true := hI0.cryst.mpr (by have := hI.lower; omega)
      cases hb : s0.pabyBILBuffer with
      | none => exact absurd hb (hI0.bufsome hc0)
      | some bufF =>
        let c0 : WriteCall :=
          { env := envs k b0, nBand := b0, nBlockX := 0, nBlockY := (k : Int),
            pBuffer := blocks k b0 }
        have hw0 : c0.WellFormed s :=
          ⟨(hwf b0 (List.mem_cons_self _ _)).1, (hwf b0 (List.mem_cons_self _ _)).2, hlen b0⟩
        have hy0 : c0.nBlockY = s0.nLoadedLine := by rw [hl0]; exact hk
        obtain ⟨s1, hstep, _, _, hF1, hco1, hl1, hcr1, hb1⟩ :=
          step_same_line h s0 c0 bufF hI0 hP0 (WellFormed_frame c0 hF0 hw0) hy0 hb
        rw [hF0.1, hF0.2.2.1] at hb1
        have hbl : bufF.length
            = GDALGetDataTypeSize s.eDataType / 8 * s.nBands * s.nRasterXSize := by
          have := hI0.buflen bufF hb
          rw [hF0.1, hF0.2.1, hF0.2.2.1] at this
          exact this
        have hstep0 : s.write c0 = some (CPLErr.CE_None, s1) := by
          unfold ECWWriteDataset.write at hstep ⊢
          rw [IWriteBlock_after_flush (envs k b0) s s0 b0 0 (k : Int) (blocks k b0) hk hf0 hl0
            hF0.1]
          exact hstep
        have ht1 : Trace (h ++ [c0]) s1 := Trace.write c0 _ ht hw0 hstep0
        have hFs1 : Frame s s1 := hF0.trans hF1
        have hrest : ∀ c ∈ lineCalls envs blocks k rest,
            c.WellFormed s1 ∧ c.nBlockY = s1.nLoadedLine := by
          intro c hc
          unfold lineCalls at hc
          rw [List.mem_map] at hc
          obtain ⟨b, hbm, hbe⟩ := hc
          rw [← hbe]
          refine ⟨WellFormed_frame _ hFs1 ⟨(hwf b (List.mem_cons_of_mem _ hbm)).1,
            (hwf b (List.mem_cons_of_mem _ hbm)).2, hlen b⟩, ?_⟩
          show (k : Int) = s1.nLoadedLine
          rw [hl1, hl0]
          exact hk
        obtain ⟨s2, buf2, hall, ht2, hF2, hco2, hl2, hcr2, hb2, hout⟩ :=
          fill_line (lineCalls envs blocks k rest) (h ++ [c0]) s1 _ ht1 hb1 hrest
        refine ⟨s2, buf2, ?_, ?_, hFs1.trans hF2, ?_, ?_, ?_, hb2, ?_⟩
        · show ECWWriteDataset.writeAll s (c0 :: lineCalls envs blocks k rest) = some s2
          simp only [ECWWriteDataset.writeAll, hstep0]
          exact hall
        · have : h ++ lineCalls envs blocks k (b0 :: rest)
              = h ++ [c0] ++ lineCalls envs blocks k rest := by
            simp [lineCalls, c0]
          rw [this]
          exact ht2
        · rw [hl2, hl1, hl0]
          exact hk.symm
        · rw [hcr2, hcr1]
          exact hc0
        · rw [hco2, hco1]
          exact hpush
        · rw [hFs1.1, hFs1.2.1, hFs1.2.2.1] at hout
          rw [hout]
          show storeBlocks (outputLine (memcpy bufF
            ((b0 - 1) * (GDALGetDataTypeSize s.eDataType / 8) * s.nRasterXSize) (blocks k b0)
            (GDALGetDataTypeSize s.eDataType / 8 * s.nRasterXSize)) s.nBands
            (GDALGetDataTypeSize s.eDataType / 8) s.nRasterXSize)
            (lineCalls envs blocks k rest) = sessionLine blocks s.nBands k
          rw [outputLine_memcpy bufF (blocks k b0) s.nBands _ s.nRasterXSize b0 hbl
            (hlen b0) hw0.1 hw0.2.1]
          have hcons : storeBlocks ((outputLine bufF s.nBands
              (GDALGetDataTypeSize s.eDataType / 8) s.nRasterXSize).set (b0 - 1) (blocks k b0))
              (lineCalls envs blocks k rest)
              = storeBlocks (outputLine bufF s.nBands
                  (GDALGetDataTypeSize s.eDataType / 8) s.nRasterXSize)
                  (lineCalls envs blocks k (b0 :: rest)) := by
            simp [storeBlocks, lineCalls]
          rw [hcons]
          exact storeBlocks_perm envs blocks k s.nBands (b0 :: rest) _
            (outputLine_length _ _ _ _) hperm

/-! ## Teardown -/

theorem CloseDown_log (c : GDALECWCompressor) :
    ∃ evs, c.CloseDown.2.log = c.log ++ evs ∧ pushedLines evs = []
      ∧ evs.count Event.Close = 1 := by
  unfold GDALECWCompressor.CloseDown
  cases hfp : c.fpVSIL with
  | none =>
    refine ⟨[Event.Close], ?_, rfl, ?_⟩
    · simp [GDALECWCompressor.emit, hfp]
    · simp
  | some fp =>
    refine ⟨[Event.Close, Event.VSIFCloseL fp], ?_, rfl, ?_⟩
    · simp [GDALECWCompressor.emit, hfp]
    · simp [List.count_cons]

/-- What the destructor does to a reachable dataset: it hands the buffer to
the codec when the dataset is crystalized and the current line is the last
one, and it closes the compressor when the dataset is crystalized. -/
theorem destructor_spec (h : List WriteCall) (s : ECWWriteDataset) (ht : Trace h s)
    (env : Env) :
    ∃ s1 evs, s.destructor env = some s1 ∧ s1.oCompressor.log = s.oCompressor.log ++ evs
      ∧ pushedLines evs
          = (if s.bCrystalized = true ∧ s.nLoadedLine = (s.nRasterYSize : Int) - 1 then
              [outputLine (s.pabyBILBuffer.getD []) s.nBands
                (GDALGetDataTypeSize s.eDataType / 8) s.nRasterXSize]
            else [])
      ∧ evs.count Event.Close = (if s.bCrystalized = true then 1 else 0) := by
  obtain ⟨hI, _⟩ := Trace_inv ht
  cases hc : s.bCrystalized
  · exact ⟨s, [], by simp [ECWWriteDataset.destructor, hc], by simp, by simp [pushedLines],
      by simp⟩
  · have hl0 : 0 ≤ s.nLoadedLine := hI.cryst.mp hc
    by_cases hlast : s.nLoadedLine = (s.nRasterYSize : Int) - 1
    · cases hb : s.pabyBILBuffer with
      | none => exact absurd hb (hI.bufsome hc)
      | some buf =>
        cases hok : s.pushOk env buf
        · have hf := FlushLine_push_fail env s buf hc hb (by omega) hok
          obtain ⟨evs, he1, he2, he3⟩ := CloseDown_log ((s.emit (s.pushEvent env buf)).emit
            (Event.CPLError .CE_Failure .CPLE_AppDefined "Scanline write write failed.")).oCompressor
          refine ⟨((s.emit (s.pushEvent env buf)).emit (Event.CPLError .CE_Failure
            .CPLE_AppDefined "Scanline write write failed.")).closeDown,
            s.pushEvent env buf :: Event.CPLError .CE_Failure .CPLE_AppDefined
            "Scanline write write failed." :: evs, ?_, ?_, ?_, ?_⟩
          · simp only [ECWWriteDataset.destructor, hc, hlast, hf, if_true, Option.map_some']
          · show GDALECWCompressor.log (GDALECWCompressor.CloseDown _).2 = _
            rw [he1]
            simp [ECWWriteDataset.emit, GDALECWCompressor.emit]
          · simp [pushEvent_eq, pushedLines, he2, hlast]
          · simp [pushEvent_eq, List.count_cons, he3]
        · have hf := FlushLine_push_ok env s buf hc hb (by omega) hok
          obtain ⟨evs, he1, he2, he3⟩ := CloseDown_log
            ((s.emit (s.pushEvent env buf)).clearAndAdvance buf).oCompressor
          refine ⟨((s.emit (s.pushEvent env buf)).clearAndAdvance buf).closeDown,
            s.pushEvent env buf :: evs, ?_, ?_, ?_, ?_⟩
          · simp only [ECWWriteDataset.destructor, hc, hlast, hf, if_true, Option.map_some']
          · show GDALECWCompressor.log (GDALECWCompressor.CloseDown _).2 = _
            rw [he1]
            simp [ECWWriteDataset.emit, GDALECWCompressor.emit, ECWWriteDataset.clearAndAdvance]
          · simp [pushEvent_eq, pushedLines, he2, hlast]
          · simp [pushEvent_eq, List.count_cons, he3]
    · obtain ⟨evs, he1, he2, he3⟩ := CloseDown_log s.oCompressor
      refine ⟨s.closeDown, evs, ?_, ?_, ?_, ?_⟩
      · simp only [ECWWriteDataset.destructor, hc, hlast, if_true, if_false]
      · exact he1
      · simp [he2, hlast]
      · simp [he3]

/-! ## Whole sessions -/

theorem Trace_nil_aux {h : List WriteCall} {s : ECWWriteDataset} (ht : Trace h s) :
    h = [] → s.bCrystalized = false ∧ s.nLoadedLine = -1 ∧ pushedLines s.oCompressor.log = [] := by
  induction ht with
  | create f x y n t o j => intro _; exact ⟨rfl, rfl, rfl⟩
  | setGeoTransform g _ ih => intro hh; exact ih hh
  | setProjection w _ ih => intro hh; exact ih hh
  | read b x y p _ ih => intro hh; exact ih hh
  | write c r _ hw hstep ih => intro hh; simp at hh

/-- A dataset that no block has been written to is not crystalized, has no
current line and has handed nothing to the codec. -/
theorem Trace_nil {s : ECWWriteDataset} (ht : Trace [] s) :
    s.bCrystalized = false ∧ s.nLoadedLine = -1 ∧ pushedLines s.oCompressor.log = [] :=
  Trace_nil_aux ht rfl

/-- The state after the lines `0 .. j` of a session have been written, all
bands of each line in any order, when the initialization succeeds and the
codec accepts every scanline: lines `0 .. j-1` have been handed to the codec
and line `j` is in the buffer. -/
theorem session_lines (s0 : ECWWriteDataset) (ht0 : Trace [] s0)
    (envs : Nat → Nat → Env) (blocks : Nat → Nat → List GByte) (order : Nat → List Nat)
    (hn : 1 ≤ s0.nBands)
    (hperm : ∀ k, (order k).Perm (List.range' 1 s0.nBands))
    (hlen : ∀ k b, (blocks k b).length = GDALGetDataTypeSize s0.eDataType / 8 * s0.nRasterXSize)
    (haccept : ∀ k b a n l, (envs k b).WriteLineBIL a n l = true)
    (hinit : ∀ b, ∃ c, s0.compressorInitialize (envs 0 b) = some (CPLErr.CE_None, c)) (j : Nat) :
    ∃ s buf, s0.writeAll (sessionCalls envs blocks order (j + 1)) = some s
      ∧ Trace (sessionCalls envs blocks order (j + 1)) s ∧ Frame s0 s
      ∧ s.nLoadedLine = (j : Int) ∧ s.bCrystalized = true
      ∧ pushedLines s.oCompressor.log = (List.range j).map (sessionLine blocks s0.nBands)
      ∧ s.pabyBILBuffer = some buf
      ∧ outputLine buf s0.nBands (GDALGetDataTypeSize s0.eDataType / 8) s0.nRasterXSize
          = sessionLine blocks s0.nBands j := by
  induction j with
  | zero =>
    obtain ⟨hc, hl, hp⟩ := Trace_nil ht0
    have hf : ∀ b, ∃ sF, s0.FlushLine (envs 0 b) = some (CPLErr.CE_None, sF)
        ∧ pushedLines sF.oCompressor.log = [] := by
      intro b
      obtain ⟨c, hc0⟩ := hinit b
      refine ⟨_, FlushLine_init_ok (envs 0 b) s0 c hc hc0, ?_⟩
      have := (Initialize_pushedLines _ _ _ _ _ _ _ _ _ _ _ _ _ hc0).1
      simp only
      rw [this, hp]
    obtain ⟨s1, buf1, hall, ht1, hF1, hl1, hc1, hp1, hb1, hout⟩ :=
      whole_line [] s0 ht0 envs blocks 0 (order 0) (hperm 0) hn (by rw [hl]; rfl) (hlen 0) [] hf
    refine ⟨s1, buf1, ?_, ?_, hF1, hl1, hc1, ?_, hb1, hout⟩
    · rw [sessionCalls_succ]
      simpa [sessionCalls] using hall
    · rw [sessionCalls_succ]
      simpa [sessionCalls] using ht1
    · simpa using hp1
  | succ j ih =>
    obtain ⟨s, buf, hall, ht, hF, hl, hc, hp, hb, hout⟩ := ih
    have hf : ∀ b, ∃ sF, s.FlushLine (envs (j + 1) b) = some (CPLErr.CE_None, sF)
        ∧ pushedLines sF.oCompressor.log
          = (List.range (j + 1)).map (sessionLine blocks s0.nBands) := by
      intro b
      have hok : s.pushOk (envs (j + 1) b) buf = true := haccept _ _ _ _ _
      refine ⟨_, FlushLine_push_ok (envs (j + 1) b) s buf hc hb (by omega) hok, ?_⟩
      show pushedLines (s.oCompressor.log ++ [s.pushEvent (envs (j + 1) b) buf]) = _
      rw [pushEvent_eq, pushedLines_push, hp, hF.1, hF.2.1, hF.2.2.1, hout, List.range_succ,
        List.map_append]
      rfl
    have hperm2 : (order (j + 1)).Perm (List.range' 1 s.nBands) := by
      rw [hF.2.1]; exact hperm (j + 1)
    have hlen2 : ∀ b, (blocks (j + 1) b).length
        = GDALGetDataTypeSize s.eDataType / 8 * s.nRasterXSize := by
      intro b
      rw [hF.1, hF.2.2.1]
      exact hlen (j + 1) b
    obtain ⟨s1, buf1, hall1, ht1, hF1, hl1, hc1, hp1, hb1, hout1⟩ :=
      whole_line _ s ht envs blocks (j + 1) (order (j + 1)) hperm2 (by rw [hF.2.1]; exact hn)
        (by rw [hl]; push_cast; rfl) hlen2 _ hf
    refine ⟨s1, buf1, ?_, ?_, hF.trans hF1, hl1, hc1, hp1, hb1, ?_⟩
    · rw [sessionCalls_succ, writeAll_append, hall]
      exact hall1
    · rw [sessionCalls_succ]
      exact ht1
    · rw [hF.1, hF.2.1, hF.2.2.1] at hout1
      exact hout1

/-- What one block write hands to the codec: the buffer, when the write is
addressed to the line after a current line, and nothing otherwise. -/
theorem write_pushedLines (h : List WriteCall) (s s1 : ECWWriteDataset) (c : WriteCall)
    (r : CPLErr) (ht : Trace h s) (hw : c.WellFormed s) (hstep : s.write c = some (r, s1)) :
    pushedLines s1.oCompressor.log = pushedLines s.oCompressor.log
      ++ (if c.nBlockY = s.nLoadedLine + 1 ∧ 0 ≤ s.nLoadedLine then
            [outputLine (s.pabyBILBuffer.getD []) s.nBands
              (GDALGetDataTypeSize s.eDataType / 8) s.nRasterXSize]
          else []) := by
  obtain ⟨hI, hP⟩ := Trace_inv ht
  by_cases hy : c.nBlockY = s.nLoadedLine
  · have hny : ¬ (c.nBlockY = s.nLoadedLine + 1 ∧ 0 ≤ s.nLoadedLine) := by omega
    rw [if_neg hny, List.append_nil]
    cases hb : s.pabyBILBuffer with
    | none =>
      have := IWriteBlock_same_line_null c.env s c.nBand c.nBlockX c.nBlockY c.pBuffer hy hb
      unfold ECWWriteDataset.write at hstep
      rw [this] at hstep
      exact absurd hstep (by simp)
    | some buf =>
      obtain ⟨s2, h1, _, _, _, hco, _⟩ := step_same_line h s c buf hI hP hw hy hb
      rw [h1] at hstep
      simp only [Option.some.injEq, Prod.mk.injEq] at hstep
      rw [← hstep.2, hco]
  · by_cases hy2 : c.nBlockY = s.nLoadedLine + 1
    · cases hc : s.bCrystalized
      · have hneg : ¬ (0 ≤ s.nLoadedLine) := fun h0 => by
          have := hI.cryst.mpr h0
          rw [hc] at this
          exact absurd this (by simp)
        have hny : ¬ (c.nBlockY = s.nLoadedLine + 1 ∧ 0 ≤ s.nLoadedLine) := fun hh => hneg hh.2
        rw [if_neg hny, List.append_nil]
        cases hi : s.compressorInitialize c.env with
        | none =>
          have := IWriteBlock_next_fault c.env s c.nBand c.nBlockX c.nBlockY c.pBuffer hy2
            (FlushLine_init_fault c.env s hc hi)
          unfold ECWWriteDataset.write at hstep
          rw [this] at hstep
          exact absurd hstep (by simp)
        | some rc =>
          obtain ⟨r0, c0⟩ := rc
          have hlog := (Initialize_pushedLines _ _ _ _ _ _ _ _ _ _ _ _ _ hi).1
          by_cases hr : r0 = CPLErr.CE_None
          · subst hr
            have hf := FlushLine_init_ok c.env s c0 hc hi
            rcases FlushLine_spec h s c.env hI hP with hnone | ⟨r1, s0, hf0, hr0, _⟩
                | ⟨s0, hf0, hI0, hP0, hF0, hl0⟩
            · rw [hnone] at hf
              exact absurd hf (by simp)
            · rw [hf0] at hf
              simp only [Option.some.injEq, Prod.mk.injEq] at hf
              exact absurd hf.1 hr0
            · have hs0 := hf0.symm.trans hf
              simp only [Option.some.injEq, Prod.mk.injEq, true_and] at hs0
              have hc0 : s0.bCrystalized = true := hI0.cryst.mpr (by have := hI.lower; omega)
              cases hb : s0.pabyBILBuffer with
              | none => exact absurd hb (hI0.bufsome hc0)
              | some bufF =>
                obtain ⟨s2, h1, _, _, _, hco, _⟩ := step_same_line h s0 c bufF hI0 hP0
                  (WellFormed_frame c hF0 hw) (by rw [hl0]; exact hy2) hb
                unfold ECWWriteDataset.write at hstep h1
                rw [IWriteBlock_after_flush c.env s s0 c.nBand c.nBlockX c.nBlockY c.pBuffer hy2
                  hf0 hl0 hF0.1, h1] at hstep
                simp only [Option.some.injEq, Prod.mk.injEq] at hstep
                rw [← hstep.2, hco, hs0]
                exact hlog
          · have hf := FlushLine_init_fail c.env s r0 c0 hc hi hr
            have := IWriteBlock_next_fail c.env s _ r0 c.nBand c.nBlockX c.nBlockY c.pBuffer hy2
              hf hr
            unfold ECWWriteDataset.write at hstep
            rw [this] at hstep
            simp only [Option.some.injEq, Prod.mk.injEq] at hstep
            rw [← hstep.2]
            exact hlog
      · have hl0 : 0 ≤ s.nLoadedLine := hI.cryst.mp hc
        rw [if_pos ⟨hy2, hl0⟩]
        cases hb : s.pabyBILBuffer with
        | none => exact absurd hb (hI.bufsome hc)
        | some buf =>
          simp only [Option.getD_some]
          cases hok : s.pushOk c.env buf
          · have hf := FlushLine_push_fail c.env s buf hc hb (by omega) hok
            have := IWriteBlock_next_fail c.env s _ _ c.nBand c.nBlockX c.nBlockY c.pBuffer hy2
              hf (by simp)
            unfold ECWWriteDataset.write at hstep
            rw [this] at hstep
            simp only [Option.some.injEq, Prod.mk.injEq] at hstep
            rw [← hstep.2]
            show pushedLines ((s.oCompressor.log ++ [s.pushEvent c.env buf]) ++ [_]) = _
            rw [pushedLines_emit_error, pushEvent_eq, pushedLines_push]
          · have hf := FlushLine_push_ok c.env s buf hc hb (by omega) hok
            rcases FlushLine_spec h s c.env hI hP with hnone | ⟨r1, s0, hf0, hr0, _⟩
                | ⟨s0, hf0, hI0, hP0, hF0, hl1⟩
            · rw [hnone] at hf
              exact absurd hf (by simp)
            · rw [hf0] at hf
              simp only [Option.some.injEq, Prod.mk.injEq] at hf
              exact absurd hf.1 hr0
            · have hs0 := hf0.symm.trans hf
              simp only [Option.some.injEq, Prod.mk.injEq, true_and] at hs0
              have hc0 : s0.bCrystalized = true := hI0.cryst.mpr (by omega)
              cases hb0 : s0.pabyBILBuffer with
              | none => exact absurd hb0 (hI0.bufsome hc0)
              | some bufF =>
                obtain ⟨s2, h1, _, _, _, hco, _⟩ := step_same_line h s0 c bufF hI0 hP0
                  (WellFormed_frame c hF0 hw) (by rw [hl1]; exact hy2) hb0
                unfold ECWWriteDataset.write at hstep h1
                rw [IWriteBlock_after_flush c.env s s0 c.nBand c.nBlockX c.nBlockY c.pBuffer hy2
                  hf0 hl1 hF0.1, h1] at hstep
                simp only [Option.some.injEq, Prod.mk.injEq] at hstep
                rw [← hstep.2, hco, hs0]
                show pushedLines (s.oCompressor.log ++ [s.pushEvent c.env buf]) = _
                rw [pushEvent_eq, pushedLines_push]
    · have hny : ¬ (c.nBlockY = s.nLoadedLine + 1 ∧ 0 ≤ s.nLoadedLine) := fun hh => hy2 hh.1
      rw [if_neg hny, List.append_nil]
      obtain ⟨s2, h1, _, _, _, hpl⟩ := step_out_of_order h s c hI hP hy hy2
      rw [h1] at hstep
      simp only [Option.some.injEq, Prod.mk.injEq] at hstep
      rw [← hstep.2]
      exact hpl

/-- On a crystalized dataset every well-formed block write returns. -/
theorem write_total (h : List WriteCall) (s : ECWWriteDataset) (c : WriteCall)
    (ht : Trace h s) (hc : s.bCrystalized = true) (hw : c.WellFormed s) :
    ∃ r s1, s.write c = some (r, s1) := by
  obtain ⟨hI, hP⟩ := Trace_inv ht
  have hl0 : 0 ≤ s.nLoadedLine := hI.cryst.mp hc
  cases hb : s.pabyBILBuffer with
  | none => exact absurd hb (hI.bufsome hc)
  | some buf =>
    by_cases hy : c.nBlockY = s.nLoadedLine
    · obtain ⟨s2, h1, _⟩ := step_same_line h s c buf hI hP hw hy hb
      exact ⟨_, _, h1⟩
    · by_cases hy2 : c.nBlockY = s.nLoadedLine + 1
      · cases hok : s.pushOk c.env buf
        · have hf := FlushLine_push_fail c.env s buf hc hb (by omega) hok
          exact ⟨_, _, IWriteBlock_next_fail c.env s _ _ c.nBand c.nBlockX c.nBlockY c.pBuffer
            hy2 hf (by simp)⟩
        · rcases FlushLine_spec h s c.env hI hP with hnone | ⟨r1, s0, hf0, hr0, _⟩
              | ⟨s0, hf0, hI0, hP0, hF0, hl1⟩
          · rw [FlushLine_push_ok c.env s buf hc hb (by omega) hok] at hnone
            exact absurd hnone (by simp)
          · rw [FlushLine_push_ok c.env s buf hc hb (by omega) hok] at hf0
            simp only [Option.some.injEq, Prod.mk.injEq] at hf0
            exact absurd hf0.1.symm hr0
          · have hc0 : s0.bCrystalized = true := hI0.cryst.mpr (by omega)
            cases hb0 : s0.pabyBILBuffer with
            | none => exact absurd hb0 (hI0.bufsome hc0)
            | some bufF =>
              obtain ⟨s2, h1, _⟩ := step_same_line h s0 c bufF hI0 hP0
                (WellFormed_frame c hF0 hw) (by rw [hl1]; exact hy2) hb0
              refine ⟨CPLErr.CE_None, s2, ?_⟩
              unfold ECWWriteDataset.write at h1 ⊢
              rw [IWriteBlock_after_flush c.env s s0 c.nBand c.nBlockX c.nBlockY c.pBuffer hy2
                hf0 hl1 hF0.1]
              exact h1
      · obtain ⟨s2, h1, _⟩ := step_out_of_order h s c hI hP hy hy2
        exact ⟨_, _, h1⟩

/-! ## The claims -/

/-- C2. From any reachable state with current line `L`, writing one block per
band for line `L`, the bands in any order `order` (a permutation of
`1 .. nBands`), returns without handing anything to the codec; the next block
write addressed to line `L + 1` then returns and hands the codec exactly one
scanline, whose band segments are the blocks written for bands
`1 .. nBands` of line `L`, in band order. -/
theorem flush_after_complete_line (h : List WriteCall) (s : ECWWriteDataset)
    (ht : Trace h s) (L : Nat) (hL : s.nLoadedLine = (L : Int))
    (envs : Nat → Nat → Env) (blocks : Nat → Nat → List GByte) (order : List Nat)
    (hperm : order.Perm (List.range' 1 s.nBands))
    (hlen : ∀ b, (blocks L b).length = GDALGetDataTypeSize s.eDataType / 8 * s.nRasterXSize)
    (cN : WriteCall) (hwN : cN.WellFormed s) (hyN : cN.nBlockY = (L : Int) + 1) :
    ∃ s1 r s2, s.writeAll (lineCalls envs blocks L order) = some s1
      ∧ pushedLines s1.oCompressor.log = pushedLines s.oCompressor.log
      ∧ s1.write cN = some (r, s2)
      ∧ pushedLines s2.oCompressor.log
          = pushedLines s.oCompressor.log ++ [sessionLine blocks s.nBands L] := by
  obtain ⟨hI, hP⟩ := Trace_inv ht
  have hc : s.bCrystalized = true := hI.cryst.mpr (by omega)
  cases hb : s.pabyBILBuffer with
  | none => exact absurd hb (hI.bufsome hc)
  | some buf =>
    have hcalls : ∀ c ∈ lineCalls envs blocks L order,
        c.WellFormed s ∧ c.nBlockY = s.nLoadedLine := by
      intro c hcm
      unfold lineCalls at hcm
      rw [List.mem_map] at hcm
      obtain ⟨b, hbm, hbe⟩ := hcm
      have hbr := (hperm.mem_iff).mp hbm
      rw [List.mem_range'_1] at hbr
      rw [← hbe]
      have hb2 : b ≤ s.nBands := by omega
      exact ⟨⟨hbr.1, hb2, hlen b⟩, hL.symm⟩
    obtain ⟨s1, buf1, hall, ht1, hF1, hco1, hl1, hcr1, hb1, hout⟩ :=
      fill_line (lineCalls envs blocks L order) h s buf ht hb hcalls
    rw [storeBlocks_perm envs blocks L s.nBands order _ (outputLine_length _ _ _ _) hperm]
      at hout
    obtain ⟨r, s2, hstep⟩ := write_total _ s1 cN ht1 (by rw [hcr1]; exact hc)
      (WellFormed_frame cN hF1 hwN)
    have hpush := write_pushedLines _ s1 s2 cN r ht1 (WellFormed_frame cN hF1 hwN) hstep
    rw [if_pos ⟨by rw [hl1, hL]; exact hyN, by rw [hl1]; omega⟩, hb1, Option.getD_some,
      hF1.1, hF1.2.1, hF1.2.2.1, hout, hco1] at hpush
    exact ⟨s1, r, s2, hall, by rw [hco1], hstep, hpush⟩

/-- C3. A block write whose line index is neither the current line nor the
line after it returns failure and changes nothing except for the error
report it adds to the log: nothing is handed to the codec, the dataset is not
crystalized by it, and the current line and the scanline buffer stay as they
were.  This holds in every state, the initial one (current line -1)
included. -/
theorem out_of_order_write_rejected (env : Env) (s : ECWWriteDataset) (nBand : Nat)
    (nBlockX nBlockY : Int) (pBuffer : List GByte)
    (h1 : nBlockY ≠ s.nLoadedLine) (h2 : nBlockY ≠ s.nLoadedLine + 1) :
    ∃ s1, s.IWriteBlock env nBand nBlockX nBlockY pBuffer = some (CPLErr.CE_Failure, s1)
      ∧ s1.oCompressor.log = s.oCompressor.log
          ++ [Event.CPLError .CE_Failure .CPLE_AppDefined
                "Apparent attempt to write to ECW non-sequentially."]
      ∧ pushedLines s1.oCompressor.log = pushedLines s.oCompressor.log
      ∧ s1.bCrystalized = s.bCrystalized
      ∧ s1.oCompressor.sFileInfo = s.oCompressor.sFileInfo
      ∧ s1.nLoadedLine = s.nLoadedLine
      ∧ s1.pabyBILBuffer = s.pabyBILBuffer := by
  refine ⟨_, IWriteBlock_out_of_order_eq env s nBand nBlockX nBlockY pBuffer h1 h2, rfl, ?_,
    rfl, rfl, rfl, rfl⟩
  show pushedLines (s.oCompressor.log ++ [_]) = _
  rw [pushedLines_emit_error]

/-- C4. In every state reached from a new dataset by block writes (any line
indices, any bands, whatever the initialization and the codec answer), the
number of scanlines the codec has accepted is `max(nLoadedLine, 0)`, and
every band segment of the `k`-th accepted scanline is either all zero or the
block of a write made with line index `k` for that band. -/
theorem line_order_invariant (h : List WriteCall) (s : ECWWriteDataset) (ht : Trace h s) :
    ((acceptedLines s.oCompressor.log).length : Int) = max s.nLoadedLine 0
      ∧ ∀ (k : Nat) (ln : List (List GByte)),
          (acceptedLines s.oCompressor.log)[k]? = some ln →
          ∀ (i : Nat) (seg : List GByte), ln[i]? = some seg →
            seg = List.replicate (GDALGetDataTypeSize s.eDataType / 8 * s.nRasterXSize) 0
              ∨ ∃ c ∈ h, c.nBlockY = (k : Int) ∧ c.nBand = i + 1 ∧ c.pBuffer = seg := by
  obtain ⟨hI, hP⟩ := Trace_inv ht
  refine ⟨?_, fun k ln hk => hP.past k ln hk⟩
  rw [hI.accepted]
  have := hI.lower
  omega

theorem Trace_writeAll (cs : List WriteCall) :
    ∀ (h : List WriteCall) (s s1 : ECWWriteDataset), Trace h s →
      (∀ c ∈ cs, c.WellFormed s) → s.writeAll cs = some s1 → Trace (h ++ cs) s1 := by
  induction cs with
  | nil =>
    intro h s s1 ht _ hall
    simp only [ECWWriteDataset.writeAll, Option.some.injEq] at hall
    rw [← hall]
    simpa using ht
  | cons c rest ih =>
    intro h s s1 ht hwf hall
    simp only [ECWWriteDataset.writeAll] at hall
    cases hstep : s.write c with
    | none =>
      rw [hstep] at hall
      exact absurd hall (by simp)
    | some rs =>
      rw [hstep] at hall
      have hw := hwf c (List.mem_cons_self _ _)
      have ht1 : Trace (h ++ [c]) rs.2 := Trace.write c rs.1 ht hw hstep
      obtain ⟨hI, hP⟩ := Trace_inv ht
      have hF := (step_inv h s rs.2 c rs.1 hI hP hw hstep).2.2
      have := ih (h ++ [c]) rs.2 s1 ht1
        (fun c2 hc2 => WellFormed_frame c2 hF (hwf c2 (List.mem_cons_of_mem _ hc2))) hall
      simpa using this

theorem some_getD {α : Type} (o : Option α) (d : α) (h : o.isSome = true) :
    o = some (o.getD d) := by
  cases o with
  | none => exact absurd h (by simp)
  | some x => rfl

theorem exampleState_eq : exampleDataset.writeAll exampleHistory = some exampleState :=
  some_getD _ _ (by decide)

theorem exampleTrace : Trace exampleHistory exampleState := by
  have := Trace_writeAll exampleHistory [] exampleDataset exampleState
    (Trace.create "out.jp2" 2 2 2 .GDT_Byte [] true)
    (by
      intro c hc
      simp only [exampleHistory, lineCalls, List.map_cons, List.map_nil,
        List.mem_singleton] at hc
      rw [hc]
      exact ⟨by decide, by decide, by decide⟩)
    exampleState_eq
  simpa using this

/-- Witness of C2 on the example dataset, where band 1 of line 0 has been
written: writing bands 2 and 1 of line 0 and then band 1 of line 1 hands the
codec the one scanline `[[1, 101], [2, 102]]`. -/
theorem flush_after_complete_line_witness :
    exampleState.nLoadedLine = 0
    ∧ ∃ s1 r s2,
      exampleState.writeAll (lineCalls exampleEnvs exampleBlocks 0 [2, 1]) = some s1
      ∧ pushedLines s1.oCompressor.log = pushedLines exampleState.oCompressor.log
      ∧ s1.write exampleNextWrite = some (r, s2)
      ∧ pushedLines s2.oCompressor.log
          = pushedLines exampleState.oCompressor.log ++ [[[1, 101], [2, 102]]] :=
  ⟨by decide,
    flush_after_complete_line exampleHistory exampleState exampleTrace 0 (by decide)
      exampleEnvs exampleBlocks [2, 1] (by decide) (fun _ => rfl) exampleNextWrite
      ⟨by decide, by decide, by decide⟩ (by decide)⟩

/-- Witness of C3: on a new dataset (current line -1) a write for line 5 is
rejected. -/
theorem out_of_order_write_rejected_witness :
    ∃ s1, exampleDataset.IWriteBlock Env.accepting 1 0 5 [1, 2] = some (CPLErr.CE_Failure, s1)
      ∧ s1.oCompressor.log = exampleDataset.oCompressor.log
          ++ [Event.CPLError .CE_Failure .CPLE_AppDefined
                "Apparent attempt to write to ECW non-sequentially."]
      ∧ pushedLines s1.oCompressor.log = pushedLines exampleDataset.oCompressor.log
      ∧ s1.bCrystalized = exampleDataset.bCrystalized
      ∧ s1.oCompressor.sFileInfo = exampleDataset.oCompressor.sFileInfo
      ∧ s1.nLoadedLine = exampleDataset.nLoadedLine
      ∧ s1.pabyBILBuffer = exampleDataset.pabyBILBuffer :=
  out_of_order_write_rejected Env.accepting exampleDataset 1 0 5 [1, 2] (by decide) (by decide)

theorem exampleFinal_eq : exampleDataset.writeAll exampleSession = some exampleFinal :=
  some_getD _ _ (by decide)

theorem exampleFinalTrace : Trace exampleSession exampleFinal := by
  have := Trace_writeAll exampleSession [] exampleDataset exampleFinal
    (Trace.create "out.jp2" 2 2 2 .GDT_Byte [] true)
    (by
      intro c hc
      simp only [exampleSession, sessionCalls, lineCalls, exampleOrder] at hc
      simp only [List.range, List.range.loop, List.flatMap, List.map_cons, List.map_nil,
        List.flatten, List.append_nil, List.cons_append, List.nil_append, List.mem_cons,
        List.mem_singleton, List.not_mem_nil, or_false] at hc
      rcases hc with hc | hc | hc | hc <;> rw [hc] <;> exact ⟨by decide, by decide, by decide⟩)
    exampleFinal_eq
  simpa using this

/-- Witness of C4 on the example dataset after the whole example session: the
codec has accepted one scanline, line 0, and the current line is 1. -/
theorem line_order_invariant_witness :
    acceptedLines exampleFinal.oCompressor.log = [[[1, 101], [2, 102]]]
    ∧ exampleFinal.nLoadedLine = 1
    ∧ ((acceptedLines exampleFinal.oCompressor.log).length : Int) = max exampleFinal.nLoadedLine 0
    ∧ ∀ (k : Nat) (ln : List (List GByte)),
        (acceptedLines exampleFinal.oCompressor.log)[k]? = some ln →
        ∀ (i : Nat) (seg : List GByte), ln[i]? = some seg →
          seg = List.replicate
              (GDALGetDataTypeSize exampleFinal.eDataType / 8 * exampleFinal.nRasterXSize) 0
            ∨ ∃ c ∈ exampleSession, c.nBlockY = (k : Int) ∧ c.nBand = i + 1 ∧ c.pBuffer = seg :=
  ⟨by decide, by decide, line_order_invariant exampleSession exampleFinal exampleFinalTrace⟩

/-- C5 (as the code has it).  A block write hands a scanline to the codec only
when it is addressed to the line after the current line and there is a
current line; the scanline handed over is the buffer as it stands, and every
band segment of it is either all zero (the band was not written since the
buffer was cleared) or the block of a write made for that band with the
current line index.  Whether every band has been written is not checked. -/
theorem flush_only_for_next_line (h : List WriteCall) (s s1 : ECWWriteDataset) (c : WriteCall)
    (r : CPLErr) (ht : Trace h s) (hw : c.WellFormed s) (hstep : s.write c = some (r, s1))
    (hpush : pushedLines s1.oCompressor.log ≠ pushedLines s.oCompressor.log) :
    c.nBlockY = s.nLoadedLine + 1 ∧ 0 ≤ s.nLoadedLine
    ∧ ∃ buf, s.pabyBILBuffer = some buf
      ∧ pushedLines s1.oCompressor.log = pushedLines s.oCompressor.log
          ++ [outputLine buf s.nBands (GDALGetDataTypeSize s.eDataType / 8) s.nRasterXSize]
      ∧ ∀ (i : Nat) (seg : List GByte),
          (outputLine buf s.nBands (GDALGetDataTypeSize s.eDataType / 8) s.nRasterXSize)[i]?
            = some seg →
          seg = List.replicate (GDALGetDataTypeSize s.eDataType / 8 * s.nRasterXSize) 0
            ∨ ∃ c0 ∈ h, c0.nBlockY = s.nLoadedLine ∧ c0.nBand = i + 1 ∧ c0.pBuffer = seg := by
  obtain ⟨hI, hP⟩ := Trace_inv ht
  have hpl := write_pushedLines h s s1 c r ht hw hstep
  by_cases hcond : c.nBlockY = s.nLoadedLine + 1 ∧ 0 ≤ s.nLoadedLine
  · refine ⟨hcond.1, hcond.2, ?_⟩
    have hc : s.bCrystalized = true := hI.cryst.mpr hcond.2
    cases hb : s.pabyBILBuffer with
    | none => exact absurd hb (hI.bufsome hc)
    | some buf =>
      rw [if_pos hcond, hb, Option.getD_some] at hpl
      exact ⟨buf, rfl, hpl, hP.current hcond.2 buf hb⟩
  · rw [if_neg hcond, List.append_nil] at hpl
    exact absurd hpl hpush

/-- Witness of C5 as amended: on the example dataset, where only band 1 of
line 0 has been written, the write of band 1 of line 1 hands line 0 to the
codec. -/
theorem flush_only_for_next_line_witness :
    ∃ r s1, exampleState.write exampleNextWrite = some (r, s1)
      ∧ pushedLines s1.oCompressor.log ≠ pushedLines exampleState.oCompressor.log
      ∧ exampleNextWrite.nBlockY = exampleState.nLoadedLine + 1 := by
  obtain ⟨r, s1, hstep⟩ := write_total exampleHistory exampleState exampleNextWrite
    exampleTrace (by decide) ⟨by decide, by decide, by decide⟩
  have hpl := write_pushedLines exampleHistory exampleState s1 exampleNextWrite r exampleTrace
    ⟨by decide, by decide, by decide⟩ hstep
  have hne : pushedLines s1.oCompressor.log ≠ pushedLines exampleState.oCompressor.log := by
    rw [hpl, if_pos (by decide)]
    simp
  exact ⟨r, s1, hstep, hne,
    (flush_only_for_next_line exampleHistory exampleState s1 exampleNextWrite r exampleTrace
      ⟨by decide, by decide, by decide⟩ hstep hne).1⟩

/-- C5 fails as stated.  On the example dataset (2 bands) band 1 of line 0 is
written and then band 1 of line 1: the second write hands the codec the
scanline `[[1, 101], [0, 0]]` although no write has been made for band 2. -/
theorem flush_with_unwritten_band :
    (∃ r s1, exampleState.write exampleNextWrite = some (r, s1)
      ∧ pushedLines s1.oCompressor.log = [[[1, 101], [0, 0]]])
    ∧ ¬ ∀ (h : List WriteCall) (s s1 : ECWWriteDataset) (c : WriteCall) (r : CPLErr),
        Trace h s → c.WellFormed s → s.write c = some (r, s1) →
        pushedLines s1.oCompressor.log ≠ pushedLines s.oCompressor.log →
        ∀ b, 1 ≤ b → b ≤ s.nBands → ∃ c0 ∈ h, c0.nBand = b ∧ c0.nBlockY = s.nLoadedLine := by
  obtain ⟨r, s1, hstep⟩ := write_total exampleHistory exampleState exampleNextWrite
    exampleTrace (by decide) ⟨by decide, by decide, by decide⟩
  have hpl := write_pushedLines exampleHistory exampleState s1 exampleNextWrite r exampleTrace
    ⟨by decide, by decide, by decide⟩ hstep
  rw [if_pos (by decide)] at hpl
  refine ⟨⟨r, s1, hstep, ?_⟩, ?_⟩
  · rw [hpl]
    decide
  · intro hall
    have hne : pushedLines s1.oCompressor.log ≠ pushedLines exampleState.oCompressor.log := by
      rw [hpl]
      simp
    obtain ⟨c0, hc0, hband, _⟩ := hall exampleHistory exampleState s1 exampleNextWrite r
      exampleTrace ⟨by decide, by decide, by decide⟩ hstep hne 2 (by decide) (by decide)
    simp only [exampleHistory, lineCalls, List.map_cons, List.map_nil,
      List.mem_singleton] at hc0
    rw [hc0] at hband
    exact absurd hband (by decide)

/-- C6. `IReadBlock` returns success for every band, block coordinate and
state; it sets the first `nRasterXSize * nWordSize` bytes of the caller's
buffer to zero and leaves the rest of it alone, so a buffer of exactly that
size comes back all zero; the dataset is returned as it was: nothing is
handed to the codec and the current line and the scanline buffer are
unchanged. -/
theorem read_returns_zeros (s : ECWWriteDataset) (nBand : Nat) (nBlockX nBlockY : Int)
    (pBuffer : List GByte) :
    (s.IReadBlock nBand nBlockX nBlockY pBuffer).1 = CPLErr.CE_None
    ∧ (s.IReadBlock nBand nBlockX nBlockY pBuffer).2.1
        = List.replicate (s.nRasterXSize * (GDALGetDataTypeSize s.eDataType / 8)) 0
          ++ pBuffer.drop (s.nRasterXSize * (GDALGetDataTypeSize s.eDataType / 8))
    ∧ (pBuffer.length = s.nRasterXSize * (GDALGetDataTypeSize s.eDataType / 8) →
        (s.IReadBlock nBand nBlockX nBlockY pBuffer).2.1
          = List.replicate (s.nRasterXSize * (GDALGetDataTypeSize s.eDataType / 8)) 0)
    ∧ (s.IReadBlock nBand nBlockX nBlockY pBuffer).2.2 = s
    ∧ pushedLines (s.IReadBlock nBand nBlockX nBlockY pBuffer).2.2.oCompressor.log
        = pushedLines s.oCompressor.log
    ∧ (s.IReadBlock nBand nBlockX nBlockY pBuffer).2.2.nLoadedLine = s.nLoadedLine
    ∧ (s.IReadBlock nBand nBlockX nBlockY pBuffer).2.2.pabyBILBuffer = s.pabyBILBuffer := by
  refine ⟨rfl, rfl, ?_, rfl, rfl, rfl, rfl⟩
  intro hlen
  show memset pBuffer 0 _ = _
  unfold memset
  rw [List.drop_of_length_le (by omega), List.append_nil]

/-- Witness of C6: a read of band 2 on the example dataset after the whole
example session gives two zero bytes, whatever the buffer held. -/
theorem read_returns_zeros_witness :
    (exampleFinal.IReadBlock 2 0 0 [7, 9]).2.1 = [0, 0]
    ∧ (exampleFinal.IReadBlock 2 0 0 [7, 9]).1 = CPLErr.CE_None
    ∧ (exampleFinal.IReadBlock 2 0 0 [7, 9]).2.2 = exampleFinal :=
  ⟨(read_returns_zeros exampleFinal 2 0 0 [7, 9]).2.2.1 (by decide),
    (read_returns_zeros exampleFinal 2 0 0 [7, 9]).1,
    (read_returns_zeros exampleFinal 2 0 0 [7, 9]).2.2.2.1⟩

/-- C7. The destructor of a reachable dataset returns; what it adds to the
log hands one scanline to the codec, the content of the buffer, exactly when
the dataset is crystalized (the initialization has succeeded) and the current
line is `nRasterYSize - 1`, and nothing otherwise; and it closes the
compressor once when the dataset is crystalized and not at all otherwise. -/
theorem teardown_flushes_last_line (h : List WriteCall) (s : ECWWriteDataset)
    (ht : Trace h s) (env : Env) :
    ∃ s1 evs, s.destructor env = some s1 ∧ s1.oCompressor.log = s.oCompressor.log ++ evs
      ∧ pushedLines evs
          = (if s.bCrystalized = true ∧ s.nLoadedLine = (s.nRasterYSize : Int) - 1 then
              [outputLine (s.pabyBILBuffer.getD []) s.nBands
                (GDALGetDataTypeSize s.eDataType / 8) s.nRasterXSize]
            else [])
      ∧ evs.count Event.Close = (if s.bCrystalized = true then 1 else 0) :=
  destructor_spec h s ht env

/-- Witness of C7: the destructor of the example dataset after the whole
example session hands the last line, `[[11, 111], [12, 112]]`, to the codec
and closes the compressor. -/
theorem teardown_flushes_last_line_witness :
    ∃ s1 evs, exampleFinal.destructor Env.accepting = some s1
      ∧ s1.oCompressor.log = exampleFinal.oCompressor.log ++ evs
      ∧ pushedLines evs = [[[11, 111], [12, 112]]]
      ∧ evs.count Event.Close = 1 := by
  obtain ⟨s1, evs, h1, h2, h3, h4⟩ :=
    teardown_flushes_last_line exampleSession exampleFinal exampleFinalTrace Env.accepting
  rw [if_pos (by decide)] at h3 h4
  exact ⟨s1, evs, h1, h2, by rw [h3]; decide, h4⟩

theorem exists_of_map_fst {α β : Type} (o : Option (α × β)) (r : α)
    (h : o.map Prod.fst = some r) : ∃ c, o = some (r, c) := by
  cases o with
  | none => exact absurd h (by simp)
  | some x =>
    simp only [Option.map_some', Option.some.injEq] at h
    exact ⟨x.2, by rw [← h]⟩

/-- C1 (as the code has it).  Take a new dataset `s0` with at least one band,
and a session that writes, for each line `0 .. nRasterYSize - 1` in turn, one
block per band, the bands of line `k` in the order `order k`.  If the
initialization that the first write triggers succeeds and the codec accepts
every scanline, then all the writes return, the destructor returns, and the
codec has been handed exactly `nRasterYSize` scanlines, the `k`-th of which
holds the blocks written for bands `1 .. nBands` of line `k`, in band
order. -/
theorem complete_session (s0 : ECWWriteDataset) (ht0 : Trace [] s0)
    (envs : Nat → Nat → Env) (blocks : Nat → Nat → List GByte) (order : Nat → List Nat)
    (envT : Env) (hn : 1 ≤ s0.nBands)
    (hperm : ∀ k, (order k).Perm (List.range' 1 s0.nBands))
    (hlen : ∀ k b, (blocks k b).length = GDALGetDataTypeSize s0.eDataType / 8 * s0.nRasterXSize)
    (haccept : ∀ k b a n l, (envs k b).WriteLineBIL a n l = true)
    (hinit : ∀ b, ∃ c, s0.compressorInitialize (envs 0 b) = some (CPLErr.CE_None, c)) :
    ∃ s1 s2, s0.writeAll (sessionCalls envs blocks order s0.nRasterYSize) = some s1
      ∧ s1.destructor envT = some s2
      ∧ pushedLines s2.oCompressor.log
          = (List.range s0.nRasterYSize).map (sessionLine blocks s0.nBands)
      ∧ (pushedLines s2.oCompressor.log).length = s0.nRasterYSize := by
  have key : ∃ s1 s2, s0.writeAll (sessionCalls envs blocks order s0.nRasterYSize) = some s1
      ∧ s1.destructor envT = some s2
      ∧ pushedLines s2.oCompressor.log
          = (List.range s0.nRasterYSize).map (sessionLine blocks s0.nBands) := by
    cases hh : s0.nRasterYSize with
    | zero =>
      obtain ⟨hc, hl, hp⟩ := Trace_nil ht0
      obtain ⟨s2, evs, hd, hlog, hpush, _⟩ := destructor_spec [] s0 ht0 envT
      refine ⟨s0, s2, by simp [sessionCalls, ECWWriteDataset.writeAll], hd, ?_⟩
      rw [hlog, pushedLines_append, hpush, hp, if_neg (by rw [hc]; simp)]
      simp
    | succ j =>
      obtain ⟨s, buf, hall, ht, hF, hl, hc, hp, hb, hout⟩ :=
        session_lines s0 ht0 envs blocks order hn hperm hlen haccept hinit j
      obtain ⟨s2, evs, hd, hlog, hpush, _⟩ := destructor_spec _ s ht envT
      refine ⟨s, s2, hall, hd, ?_⟩
      have hlast : s.bCrystalized = true ∧ s.nLoadedLine = (s.nRasterYSize : Int) - 1 := by
        refine ⟨hc, ?_⟩
        rw [hl, hF.2.2.2, hh]
        push_cast
        omega
      rw [hlog, pushedLines_append, hpush, if_pos hlast, hb, Option.getD_some, hp,
        hF.1, hF.2.1, hF.2.2.1, hout, List.range_succ, List.map_append]
      rfl
  obtain ⟨s1, s2, h1, h2, h3⟩ := key
  exact ⟨s1, s2, h1, h2, h3, by rw [h3]; simp⟩

/-- Witness of C1 as amended: the whole example session followed by the
destructor hands the codec the two lines, each in band order. -/
theorem complete_session_witness :
    ∃ s1 s2, exampleDataset.writeAll (sessionCalls exampleEnvs exampleBlocks exampleOrder 2)
        = some s1
      ∧ s1.destructor Env.accepting = some s2
      ∧ pushedLines s2.oCompressor.log = [[[1, 101], [2, 102]], [[11, 111], [12, 112]]]
      ∧ (pushedLines s2.oCompressor.log).length = 2 :=
  complete_session exampleDataset (Trace.create "out.jp2" 2 2 2 .GDT_Byte [] true)
    exampleEnvs exampleBlocks exampleOrder Env.accepting (by decide)
    (fun _ => List.Perm.swap 1 2 []) (fun _ _ => rfl) (fun _ _ _ _ _ => rfl)
    (fun _ => exists_of_map_fst (exampleDataset.compressorInitialize Env.accepting) CPLErr.CE_None
      (by decide))

/-- C1 fails as stated.  The dataset is created with the option `TARGET=0`,
1 x 1 pixel, 1 band; the session writes band 1 of line 0 and tears down, and
the codec would accept every scanline.  The initialization that the write
triggers fails, the write returns failure, and the codec is handed no
scanline at all, where the claim says one. -/
theorem session_without_initialization :
    invalidTargetDataset.nRasterYSize = 1
    ∧ (invalidTargetDataset.write
        { env := Env.accepting, nBand := 1, nBlockX := 0, nBlockY := 0, pBuffer := [7] }).map
          Prod.fst = some CPLErr.CE_Failure
    ∧ ((invalidTargetDataset.writeAll
          (sessionCalls (fun _ _ => Env.accepting) (fun _ _ => [7]) (fun _ => [1]) 1)).bind
        fun s => (s.destructor Env.accepting).map fun s2 => pushedLines s2.oCompressor.log)
        = some [] := by
  decide

/-! ## Rounding to `double` and `float` -/

/-- With enough fuel `log2Floor` gives the position of the leading binary
digit. -/
theorem log2Floor_spec : ∀ (fuel n : Nat), n ≤ fuel → 0 < n →
    2 ^ log2Floor fuel n ≤ n ∧ n < 2 ^ (log2Floor fuel n + 1)
  | 0, n, h, hn => by omega
  | fuel + 1, n, h, hn => by
    unfold log2Floor
    by_cases h2 : n < 2
    · rw [if_pos h2]
      constructor <;> simp <;> omega
    · rw [if_neg h2]
      obtain ⟨a, b⟩ := log2Floor_spec fuel (n / 2) (by omega) (by omega)
      constructor
      · rw [pow_succ]
        omega
      · rw [pow_succ]
        omega

/-- Scaling keeps a positive number positive. -/
theorem scale2_pos (k : Int) (n : Nat) (hn : 0 < n) : 0 < scale2 k n := by
  unfold scale2
  positivity

/-- The quotient of the two scaled numbers. -/
theorem scale2_div (k : Int) (n d : Nat) :
    ((scale2 (-k) n : Nat) : ℚ) / ((scale2 k d : Nat) : ℚ) = ((n : ℚ) / (d : ℚ)) / (2 : ℚ) ^ k := by
  unfold scale2
  rcases le_total 0 k with hk | hk
  · obtain ⟨K, rfl⟩ := Int.eq_ofNat_of_zero_le hk
    have h1 : (-(K : Int)).toNat = 0 := by omega
    rw [h1, Int.toNat_natCast, zpow_natCast]
    push_cast
    field_simp
  · obtain ⟨K, hK⟩ := Int.eq_ofNat_of_zero_le (by omega : 0 ≤ -k)
    have h1 : k.toNat = 0 := by omega
    have h2 : k = -(K : Int) := by omega
    rw [hK, h1, Int.toNat_natCast, h2, zpow_neg, zpow_natCast]
    push_cast
    field_simp

/-- The binary exponent of a positive fraction brackets it between two
consecutive powers of two. -/
theorem binaryExponent_spec (n d : Nat) (hn : 0 < n) (hd : 0 < d) :
    (2 : ℚ) ^ binaryExponent n d ≤ (n : ℚ) / (d : ℚ)
    ∧ (n : ℚ) / (d : ℚ) < (2 : ℚ) ^ (binaryExponent n d + 1) := by
  obtain ⟨ha1, ha2⟩ := log2Floor_spec n n (le_refl _) hn
  obtain ⟨hb1, hb2⟩ := log2Floor_spec d d (le_refl _) hd
  have hdq : (0 : ℚ) < (d : ℚ) := by exact_mod_cast hd
  have two_pos : ∀ k : Int, (0 : ℚ) < (2 : ℚ) ^ k := fun k => zpow_pos (by norm_num) k
  have ha1q : (2 : ℚ) ^ (log2Floor n n : Int) ≤ (n : ℚ) := by
    rw [zpow_natCast]
    exact_mod_cast ha1
  have ha2q : (n : ℚ) < (2 : ℚ) ^ ((log2Floor n n : Int) + 1) := by
    have : (n : ℚ) < (2 : ℚ) ^ (log2Floor n n + 1) := by exact_mod_cast ha2
    rw [← zpow_natCast] at this
    push_cast at this
    exact this
  have hb1q : (2 : ℚ) ^ (log2Floor d d : Int) ≤ (d : ℚ) := by
    rw [zpow_natCast]
    exact_mod_cast hb1
  have hb2q : (d : ℚ) < (2 : ℚ) ^ ((log2Floor d d : Int) + 1) := by
    have : (d : ℚ) < (2 : ℚ) ^ (log2Floor d d + 1) := by exact_mod_cast hb2
    rw [← zpow_natCast] at this
    push_cast at this
    exact this
  -- bounds on the quotient
  have hlow : (2 : ℚ) ^ (exponentGuess n d - 1) < (n : ℚ) / (d : ℚ) := by
    rw [lt_div_iff₀ hdq]
    have h1 : (2 : ℚ) ^ (exponentGuess n d - 1) * (2 : ℚ) ^ ((log2Floor d d : Int) + 1)
        = (2 : ℚ) ^ (log2Floor n n : Int) := by
      rw [← zpow_add₀ (by norm_num : (2 : ℚ) ≠ 0)]
      congr 1
      unfold exponentGuess
      ring
    calc (2 : ℚ) ^ (exponentGuess n d - 1) * (d : ℚ)
        < (2 : ℚ) ^ (exponentGuess n d - 1) * (2 : ℚ) ^ ((log2Floor d d : Int) + 1) :=
          mul_lt_mul_of_pos_left hb2q (two_pos _)
      _ = (2 : ℚ) ^ (log2Floor n n : Int) := h1
      _ ≤ (n : ℚ) := ha1q
  have hhigh : (n : ℚ) / (d : ℚ) < (2 : ℚ) ^ (exponentGuess n d + 1) := by
    rw [div_lt_iff₀ hdq]
    have h1 : (2 : ℚ) ^ (exponentGuess n d + 1) * (2 : ℚ) ^ (log2Floor d d : Int)
        = (2 : ℚ) ^ ((log2Floor n n : Int) + 1) := by
      rw [← zpow_add₀ (by norm_num : (2 : ℚ) ≠ 0)]
      congr 1
      unfold exponentGuess
      ring
    calc (n : ℚ) < (2 : ℚ) ^ ((log2Floor n n : Int) + 1) := ha2q
      _ = (2 : ℚ) ^ (exponentGuess n d + 1) * (2 : ℚ) ^ (log2Floor d d : Int) := h1.symm
      _ ≤ (2 : ℚ) ^ (exponentGuess n d + 1) * (d : ℚ) :=
          mul_le_mul_of_nonneg_left hb1q (le_of_lt (two_pos _))
  -- the test
  have hspos : (0 : ℚ) < ((scale2 (exponentGuess n d) d : Nat) : ℚ) := by
    exact_mod_cast scale2_pos _ d hd
  have htest : scale2 (exponentGuess n d) d ≤ scale2 (-exponentGuess n d) n
      ↔ (2 : ℚ) ^ exponentGuess n d ≤ (n : ℚ) / (d : ℚ) := by
    have h := scale2_div (exponentGuess n d) n d
    rw [le_div_iff₀ hdq]
    constructor
    · intro hle
      have hq : (1 : ℚ) ≤ ((scale2 (-exponentGuess n d) n : Nat) : ℚ)
          / ((scale2 (exponentGuess n d) d : Nat) : ℚ) := by
        rw [le_div_iff₀ hspos, one_mul]
        exact_mod_cast hle
      rw [h] at hq
      rw [le_div_iff₀ (two_pos _), one_mul] at hq
      rw [← le_div_iff₀ hdq]
      exact hq
    · intro hle
      rw [← le_div_iff₀ hdq] at hle
      have hq : (1 : ℚ) ≤ ((n : ℚ) / (d : ℚ)) / (2 : ℚ) ^ exponentGuess n d := by
        rw [le_div_iff₀ (two_pos _), one_mul]
        exact hle
      rw [← h, le_div_iff₀ hspos, one_mul] at hq
      exact_mod_cast hq
  unfold binaryExponent
  by_cases ht : scale2 (exponentGuess n d) d ≤ scale2 (-exponentGuess n d) n
  · rw [if_pos ht]
    exact ⟨htest.1 ht, hhigh⟩
  · rw [if_neg ht]
    refine ⟨le_of_lt hlow, ?_⟩
    have : ¬ (2 : ℚ) ^ exponentGuess n d ≤ (n : ℚ) / (d : ℚ) := fun h => ht (htest.2 h)
    rw [sub_add_cancel]
    exact not_le.mp this

/-- The rounded quotient lies between the whole numbers below and above the
quotient. -/
theorem roundQuotient_spec (ns ds : Nat) (hds : 0 < ds) :
    (∀ z : Int, (z : ℚ) ≤ (ns : ℚ) / (ds : ℚ) → z ≤ (roundQuotient ns ds : Int))
    ∧ (∀ z : Int, (ns : ℚ) / (ds : ℚ) ≤ (z : ℚ) → (roundQuotient ns ds : Int) ≤ z) := by
  have hdq : (0 : ℚ) < (ds : ℚ) := by exact_mod_cast hds
  have hdiv := Nat.div_add_mod ns ds
  have hmod := Nat.mod_lt ns hds
  have hf : ∀ z : Int, (z : ℚ) ≤ (ns : ℚ) / (ds : ℚ) → z ≤ ((ns / ds : Nat) : Int) := by
    intro z hz
    rw [le_div_iff₀ hdq] at hz
    have h1 : z * (ds : Int) ≤ (ns : Int) := by exact_mod_cast hz
    have h2 : (ns : Int) < ((ns / ds : Nat) + 1) * (ds : Int) := by
      have : ns < (ns / ds + 1) * ds := by
        rw [Nat.add_mul, one_mul, Nat.mul_comm]
        omega
      exact_mod_cast this
    have h3 : z * (ds : Int) < (((ns / ds : Nat) : Int) + 1) * (ds : Int) := lt_of_le_of_lt h1 h2
    have h4 : z < ((ns / ds : Nat) : Int) + 1 :=
      lt_of_mul_lt_mul_right h3 (by positivity)
    omega
  have hc0 : ∀ z : Int, (ns : ℚ) / (ds : ℚ) ≤ (z : ℚ) → ((ns / ds : Nat) : Int) ≤ z := by
    intro z hz
    rw [div_le_iff₀ hdq] at hz
    have h1 : (ns : Int) ≤ z * (ds : Int) := by exact_mod_cast hz
    have h2 : ((ns / ds : Nat) : Int) * (ds : Int) ≤ (ns : Int) := by
      have : ns / ds * ds ≤ ns := Nat.div_mul_le_self ns ds
      exact_mod_cast this
    have h3 : ((ns / ds : Nat) : Int) * (ds : Int) ≤ z * (ds : Int) := le_trans h2 h1
    exact le_of_mul_le_mul_right h3 (by positivity)
  have hc1 : 0 < ns % ds → ∀ z : Int, (ns : ℚ) / (ds : ℚ) ≤ (z : ℚ) →
      ((ns / ds : Nat) : Int) + 1 ≤ z := by
    intro hr z hz
    rw [div_le_iff₀ hdq] at hz
    have h1 : (ns : Int) ≤ z * (ds : Int) := by exact_mod_cast hz
    have h2 : ((ns / ds : Nat) : Int) * (ds : Int) < (ns : Int) := by
      have : ns / ds * ds < ns := by
        rw [Nat.mul_comm]
        omega
      exact_mod_cast this
    have h3 : ((ns / ds : Nat) : Int) * (ds : Int) < z * (ds : Int) := lt_of_lt_of_le h2 h1
    have h4 : ((ns / ds : Nat) : Int) < z := lt_of_mul_lt_mul_right h3 (by positivity)
    omega
  unfold roundQuotient
  constructor
  · intro z hz
    have := hf z hz
    split_ifs <;> push_cast <;> omega
  · intro z hz
    have h0 := hc0 z hz
    split_ifs with h1 h2 h3
    · exact h0
    · push_cast
      exact hc1 (by omega) z hz
    · exact h0
    · push_cast
      exact hc1 (by omega) z hz

/-- The rounding of a positive number to `p` bits: a whole number `m` times a
power of two, where `m` has at least `p` bits and lies between the whole
numbers below and above the scaled number. -/
theorem roundBinary_pos (p : Nat) (hp : 1 ≤ p) (x : ℚ) (hx : 0 < x) :
    ∃ (m : Nat) (q : Int), roundBinary p x = (m : ℚ) * (2 : ℚ) ^ q
      ∧ (2 : ℚ) ^ (p - 1) ≤ x / (2 : ℚ) ^ q
      ∧ (∀ z : Int, (z : ℚ) ≤ x / (2 : ℚ) ^ q → z ≤ (m : Int))
      ∧ (∀ z : Int, x / (2 : ℚ) ^ q ≤ (z : ℚ) → (m : Int) ≤ z) := by
  have hnum : 0 < x.num := Rat.num_pos.mpr hx
  have hn : 0 < x.num.natAbs := Int.natAbs_pos.mpr (ne_of_gt hnum)
  have hd : 0 < x.den := x.den_pos
  have hcast : ((x.num.natAbs : Nat) : Int) = x.num := Int.natAbs_of_nonneg (le_of_lt hnum)
  have hxq : ((x.num.natAbs : Nat) : ℚ) / (x.den : ℚ) = x := by
    have h1 : ((x.num.natAbs : Nat) : ℚ) = ((x.num : Int) : ℚ) := by
      have h0 : (((x.num.natAbs : Nat) : Int) : ℚ) = ((x.num : Int) : ℚ) :=
        congrArg (fun z : Int => (z : ℚ)) hcast
      rw [← h0]
      exact (Int.cast_natCast _).symm
    rw [h1]
    exact Rat.num_div_den x
  obtain ⟨he1, he2⟩ := binaryExponent_spec x.num.natAbs x.den hn hd
  rw [hxq] at he1 he2
  have two_pos : ∀ k : Int, (0 : ℚ) < (2 : ℚ) ^ k := fun k => zpow_pos (by norm_num) k
  refine ⟨roundQuotient (scale2 (-(binaryExponent x.num.natAbs x.den - ((p : Int) - 1)))
      x.num.natAbs) (scale2 (binaryExponent x.num.natAbs x.den - ((p : Int) - 1)) x.den),
    binaryExponent x.num.natAbs x.den - ((p : Int) - 1), ?_, ?_, ?_⟩
  · unfold roundBinary
    rw [if_neg (ne_of_gt hnum)]
    simp only
    rw [Rat.mkRat_eq_div, Int.sign_eq_one_of_pos hnum, one_mul]
    have h := scale2_div (-(binaryExponent x.num.natAbs x.den - ((p : Int) - 1)))
      (roundQuotient (scale2 (-(binaryExponent x.num.natAbs x.den - ((p : Int) - 1)))
        x.num.natAbs) (scale2 (binaryExponent x.num.natAbs x.den - ((p : Int) - 1)) x.den)) 1
    rw [neg_neg] at h
    rw [Int.cast_natCast, h, zpow_neg]
    simp
  · rw [le_div_iff₀ (two_pos _)]
    have h1 : (2 : ℚ) ^ (p - 1) * (2 : ℚ) ^ (binaryExponent x.num.natAbs x.den - ((p : Int) - 1))
        = (2 : ℚ) ^ binaryExponent x.num.natAbs x.den := by
      rw [← zpow_natCast, ← zpow_add₀ (by norm_num : (2 : ℚ) ≠ 0)]
      congr 1
      rw [Nat.cast_sub hp]
      push_cast
      ring
    rw [h1]
    exact he1
  · have hs := scale2_div (binaryExponent x.num.natAbs x.den - ((p : Int) - 1)) x.num.natAbs x.den
    rw [hxq] at hs
    rw [← hs]
    exact roundQuotient_spec _ _ (scale2_pos _ _ hd)

/-- A number with at most `p` significant bits that lies below `x` lies below
the rounded `x`. -/
theorem roundBinary_ge (p : Nat) (hp : 1 ≤ p) (x : ℚ) (hx : 0 < x) (k : Nat) (j : Int)
    (hk : k < 2 ^ p) (hg : (k : ℚ) * (2 : ℚ) ^ j ≤ x) :
    (k : ℚ) * (2 : ℚ) ^ j ≤ roundBinary p x := by
  obtain ⟨m, q, hr, hlow, hfloor, _⟩ := roundBinary_pos p hp x hx
  have two_pos : ∀ i : Int, (0 : ℚ) < (2 : ℚ) ^ i := fun i => zpow_pos (by norm_num) i
  have two_ne : (2 : ℚ) ≠ 0 := by norm_num
  rw [hr]
  have hbase : (((2 ^ (p - 1) : Nat) : Int) : ℚ) ≤ x / (2 : ℚ) ^ q := by
    push_cast
    exact hlow
  have hm0 : ((2 ^ (p - 1) : Nat) : Int) ≤ (m : Int) := hfloor _ hbase
  rcases le_or_lt q j with hqj | hqj
  · obtain ⟨t, ht⟩ := Int.eq_ofNat_of_zero_le (by omega : 0 ≤ j - q)
    have hj : j = (t : Int) + q := by omega
    have hz : (((k * 2 ^ t : Nat) : Int) : ℚ) ≤ x / (2 : ℚ) ^ q := by
      rw [le_div_iff₀ (two_pos _)]
      push_cast
      rw [mul_assoc, ← zpow_natCast, ← zpow_add₀ two_ne, ← hj]
      exact hg
    have hzm : ((k * 2 ^ t : Nat) : Int) ≤ (m : Int) := hfloor _ hz
    have hzm2 : ((k * 2 ^ t : Nat) : ℚ) ≤ (m : ℚ) := by exact_mod_cast hzm
    rw [hj, zpow_add₀ two_ne, ← mul_assoc, zpow_natCast]
    push_cast at hzm2
    exact mul_le_mul_of_nonneg_right hzm2 (le_of_lt (two_pos _))
  · have hm1 : ((2 ^ (p - 1) : Nat) : ℚ) ≤ (m : ℚ) := by exact_mod_cast hm0
    have hk1 : (k : ℚ) ≤ (2 : ℚ) ^ p := by
      have : ((k : Nat) : ℚ) ≤ ((2 ^ p : Nat) : ℚ) := by exact_mod_cast le_of_lt hk
      push_cast at this
      exact this
    have hpow : (2 : ℚ) ^ p * (2 : ℚ) ^ j ≤ (2 : ℚ) ^ (p - 1) * (2 : ℚ) ^ q := by
      rw [← zpow_natCast, ← zpow_natCast, ← zpow_add₀ two_ne, ← zpow_add₀ two_ne]
      apply zpow_le_zpow_right₀ (by norm_num)
      rw [Nat.cast_sub hp]
      push_cast
      omega
    calc (k : ℚ) * (2 : ℚ) ^ j ≤ (2 : ℚ) ^ p * (2 : ℚ) ^ j :=
          mul_le_mul_of_nonneg_right hk1 (le_of_lt (two_pos _))
      _ ≤ (2 : ℚ) ^ (p - 1) * (2 : ℚ) ^ q := hpow
      _ ≤ (m : ℚ) * (2 : ℚ) ^ q := by
          apply mul_le_mul_of_nonneg_right _ (le_of_lt (two_pos _))
          push_cast at hm1
          exact hm1

/-- A number with at most `p` significant bits that lies above `x` lies above
the rounded `x`. -/
theorem roundBinary_le (p : Nat) (hp : 1 ≤ p) (x : ℚ) (hx : 0 < x) (k : Nat) (j : Int)
    (hk : k < 2 ^ p) (hg : x ≤ (k : ℚ) * (2 : ℚ) ^ j) :
    roundBinary p x ≤ (k : ℚ) * (2 : ℚ) ^ j := by
  obtain ⟨m, q, hr, hlow, _, hceil⟩ := roundBinary_pos p hp x hx
  have two_pos : ∀ i : Int, (0 : ℚ) < (2 : ℚ) ^ i := fun i => zpow_pos (by norm_num) i
  have two_ne : (2 : ℚ) ≠ 0 := by norm_num
  rw [hr]
  rcases le_or_lt q j with hqj | hqj
  · obtain ⟨t, ht⟩ := Int.eq_ofNat_of_zero_le (by omega : 0 ≤ j - q)
    have hj : j = (t : Int) + q := by omega
    have hz : x / (2 : ℚ) ^ q ≤ (((k * 2 ^ t : Nat) : Int) : ℚ) := by
      rw [div_le_iff₀ (two_pos _)]
      push_cast
      rw [mul_assoc, ← zpow_natCast, ← zpow_add₀ two_ne, ← hj]
      exact hg
    have hzm : (m : Int) ≤ ((k * 2 ^ t : Nat) : Int) := hceil _ hz
    have hzm2 : (m : ℚ) ≤ ((k * 2 ^ t : Nat) : ℚ) := by exact_mod_cast hzm
    rw [hj, zpow_add₀ two_ne, ← mul_assoc, zpow_natCast]
    push_cast at hzm2
    exact mul_le_mul_of_nonneg_right hzm2 (le_of_lt (two_pos _))
  · exfalso
    have hk1 : (k : ℚ) < (2 : ℚ) ^ p := by
      have : ((k : Nat) : ℚ) < ((2 ^ p : Nat) : ℚ) := by exact_mod_cast hk
      push_cast at this
      exact this
    have hpow : (2 : ℚ) ^ p * (2 : ℚ) ^ j ≤ (2 : ℚ) ^ (p - 1) * (2 : ℚ) ^ q := by
      rw [← zpow_natCast, ← zpow_natCast, ← zpow_add₀ two_ne, ← zpow_add₀ two_ne]
      apply zpow_le_zpow_right₀ (by norm_num)
      rw [Nat.cast_sub hp]
      push_cast
      omega
    have hx2 : (2 : ℚ) ^ (p - 1) * (2 : ℚ) ^ q ≤ x := by
      rw [← le_div_iff₀ (two_pos _)]
      exact hlow
    have : (k : ℚ) * (2 : ℚ) ^ j < (2 : ℚ) ^ p * (2 : ℚ) ^ j :=
      mul_lt_mul_of_pos_right hk1 (two_pos _)
    linarith

/-- Rounding keeps a number that is not positive from becoming positive. -/
theorem roundBinary_nonpos (p : Nat) (x : ℚ) (hx : x ≤ 0) : roundBinary p x ≤ 0 := by
  unfold roundBinary
  by_cases h0 : x.num = 0
  · rw [if_pos h0]
  · rw [if_neg h0]
    have hneg : x.num < 0 := lt_of_le_of_ne (Rat.num_nonpos.mpr hx) h0
    simp only
    rw [Rat.mkRat_eq_div, Int.sign_eq_neg_one_of_neg hneg]
    apply div_nonpos_of_nonpos_of_nonneg
    · push_cast
      have : (0 : ℚ) ≤ ((scale2 (binaryExponent x.num.natAbs x.den - ((p : Int) - 1))
          (roundQuotient (scale2 (-(binaryExponent x.num.natAbs x.den - ((p : Int) - 1)))
            x.num.natAbs) (scale2 (binaryExponent x.num.natAbs x.den - ((p : Int) - 1)) x.den))
          : Nat) : ℚ) := Nat.cast_nonneg _
      linarith
    · exact Nat.cast_nonneg _

/-- A whole number below `2 ^ p` is its own rounding to `p` bits. -/
theorem roundBinary_natCast (p : Nat) (hp : 1 ≤ p) (k : Nat) (hk : k < 2 ^ p) :
    roundBinary p (k : ℚ) = (k : ℚ) := by
  by_cases h0 : k = 0
  · subst h0
    rfl
  · have hpos : (0 : ℚ) < (k : ℚ) := by exact_mod_cast Nat.pos_of_ne_zero h0
    have h1 := roundBinary_ge p hp (k : ℚ) hpos k 0 hk (by simp)
    have h2 := roundBinary_le p hp (k : ℚ) hpos k 0 hk (by simp)
    simp only [zpow_zero, mul_one] at h1 h2
    exact le_antisymm h2 h1

/-- The `float` of the `double` of a whole number below `2 ^ 24`. -/
theorem toFloat_toDouble_natCast (k : Nat) (hk : k < 2 ^ 24) :
    toFloat (toDouble (k : ℚ)) = (k : ℚ) := by
  unfold toFloat toDouble
  rw [roundBinary_natCast 53 (by norm_num) k (lt_trans hk (by norm_num)),
    roundBinary_natCast 24 (by norm_num) k hk]

/-- The `float` of the `double` of a number lies on the same side of a number
with at most 24 significant bits as the number itself. -/
theorem toFloat_toDouble_le (x : ℚ) (k : Nat) (j : Int) (hk : k < 2 ^ 24)
    (hg : x ≤ (k : ℚ) * (2 : ℚ) ^ j) : toFloat (toDouble x) ≤ (k : ℚ) * (2 : ℚ) ^ j := by
  have hnn : (0 : ℚ) ≤ (k : ℚ) * (2 : ℚ) ^ j :=
    mul_nonneg (Nat.cast_nonneg _) (le_of_lt (zpow_pos (by norm_num) j))
  have hstep : ∀ (p : Nat), 1 ≤ p → k < 2 ^ p → ∀ y : ℚ, y ≤ (k : ℚ) * (2 : ℚ) ^ j →
      roundBinary p y ≤ (k : ℚ) * (2 : ℚ) ^ j := by
    intro p hp hkp y hy
    rcases le_or_lt y 0 with h0 | h0
    · exact le_trans (roundBinary_nonpos p y h0) hnn
    · exact roundBinary_le p hp y h0 k j hkp hy
  unfold toFloat toDouble
  exact hstep 24 (by norm_num) hk _ (hstep 53 (by norm_num) (lt_trans hk (by norm_num)) x hg)

/-- The `float` of the `double` of a number that lies above a positive number
with at most 24 significant bits lies above it too. -/
theorem toFloat_toDouble_ge (x : ℚ) (k : Nat) (j : Int) (hk : k < 2 ^ 24) (hk0 : 0 < k)
    (hg : (k : ℚ) * (2 : ℚ) ^ j ≤ x) : (k : ℚ) * (2 : ℚ) ^ j ≤ toFloat (toDouble x) := by
  have hpos : (0 : ℚ) < (k : ℚ) * (2 : ℚ) ^ j :=
    mul_pos (by exact_mod_cast hk0) (zpow_pos (by norm_num) j)
  have hstep : ∀ (p : Nat), 1 ≤ p → k < 2 ^ p → ∀ y : ℚ, (k : ℚ) * (2 : ℚ) ^ j ≤ y →
      (k : ℚ) * (2 : ℚ) ^ j ≤ roundBinary p y := by
    intro p hp hkp y hy
    exact roundBinary_ge p hp y (lt_of_lt_of_le hpos hy) k j hkp hy
  unfold toFloat toDouble
  exact hstep 24 (by norm_num) hk _ (hstep 53 (by norm_num) (lt_trans hk (by norm_num)) x hg)

/-! ## Initialize -/

theorem Initialize_zero_bands (env : Env) (c : GDALECWCompressor) (f : String)
    (opts : List String) (x y : Int) (t : GDALDataType) (w : Option String)
    (g : GeoTransform) (j : Bool) :
    c.Initialize env f opts x y 0 t w g j
      = some (CPLErr.CE_Failure, c.emit (Event.CPLError .CE_Failure .CPLE_NotSupported
          "ECW driver requires at least one band.")) := by
  simp [GDALECWCompressor.Initialize]

/-- The guard of `Initialize` on the band count is the test `nBands == 0`.  A
negative count, which no caller in this file passes, is not caught by it and
would reach the codec as the `UINT16` 65535. -/
theorem Initialize_negative_band_count :
    (GDALECWCompressor.new.Initialize Env.accepting "out.jp2" [] 2 2 (-1) .GDT_Byte none
        identityGeoTransform false).map
      (fun r => (r.1, r.2.log.map Event.name, r.2.sFileInfo.nBands))
      = some (CPLErr.CE_None, ["SetFileInfo", "Open"], 65535) := by
  decide

/-- When `openDestination` succeeds it has called `SetFileInfo` with the file
description of the compressor, which it leaves as it is. -/
theorem openDestination_ok (env : Env) (c : GDALECWCompressor) (f : String)
    (h : (c.openDestination env f).1 = CPLErr.CE_None) :
    (c.openDestination env f).2.sFileInfo = c.sFileInfo
    ∧ Event.SetFileInfo c.sFileInfo (env.SetFileInfo c.sFileInfo)
        ∈ (c.openDestination env f).2.log := by
  unfold GDALECWCompressor.openDestination at h ⊢
  split
  · rename_i hsub
    rw [if_pos hsub] at h
    split
    · rename_i hs
      rw [hs] at h
      exact absurd h (by simp)
    · rename_i off size hs
      rw [hs] at h
      split
      · rename_i hr
        rw [hr] at h
        exact absurd h (by simp)
      · rename_i real hr
        rw [hr] at h
        simp only at h
        split
        · rename_i hopen
          obtain ⟨_, evs, h1, _, h3⟩ := setFileInfoAndOpen_log env
            (GDALECWCompressor.emit { (GDALECWCompressor.emit { c with fpVSIL := none }
              (Event.VSIFOpenL real (env.VSIFOpenL real))) with
              fpVSIL := some real, m_OStream := some (real, off, size) }
              (Event.Access real off size)) f
          rw [h1]
          exact ⟨rfl, List.mem_append_right _ h3⟩
        · rename_i hopen
          rw [if_neg hopen] at h
          exact absurd h (by simp)
  · obtain ⟨_, evs, h1, _, h3⟩ := setFileInfoAndOpen_log env { c with fpVSIL := none } f
    rw [h1]
    exact ⟨rfl, List.mem_append_right _ h3⟩

/-- Outside the subfile block `openDestination` does not fail. -/
theorem openDestination_plain (env : Env) (c : GDALECWCompressor) (f : String)
    (h : EQUALN f "J2K_SUBFILE:" 12 = false) :
    (c.openDestination env f).1 = CPLErr.CE_None := by
  unfold GDALECWCompressor.openDestination
  rw [if_neg (by rw [h]; simp)]
  exact (setFileInfoAndOpen_log env _ f).1

/-- The compression rate for a whole target between 1 and 99. -/
theorem compressionRate_intCast (t : Int) (h1 : 1 ≤ t) (h2 : t ≤ 99) :
    compressionRate (t : ℚ) = some (max 1 (100 / (100 - t))) := by
  have hd : (100 : ℚ) - (t : ℚ) ≠ 0 := by
    have : ((100 - t : Int) : ℚ) ≠ 0 := by
      exact_mod_cast (by omega : (100 - t : Int) ≠ 0)
    push_cast at this
    exact this
  have hpos : (0 : ℚ) < 100 - (t : ℚ) := by
    have : ((0 : Int) : ℚ) < ((100 - t : Int) : ℚ) := by
      exact_mod_cast (by omega : (0 : Int) < 100 - t)
    push_cast at this
    exact this
  have hq : (1 : ℚ) ≤ 100 / (100 - (t : ℚ)) := by
    rw [le_div_iff₀ hpos]
    have : ((1 : Int) : ℚ) ≤ ((t : Int) : ℚ) := by exact_mod_cast h1
    push_cast at this
    linarith
  have hfloor : ⌊(100 : ℚ) / (100 - (t : ℚ))⌋ = 100 / (100 - t) := by
    have h3 : (100 : ℚ) / (100 - (t : ℚ)) = ((100 : Int) : ℚ) / (((100 - t).toNat : Nat) : ℚ) := by
      have : (((100 - t).toNat : Nat) : Int) = 100 - t := Int.toNat_of_nonneg (by omega)
      have h4 : (((100 - t).toNat : Nat) : ℚ) = ((100 - t : Int) : ℚ) := by
        have h5 : ((((100 - t).toNat : Nat) : Int) : ℚ) = ((100 - t : Int) : ℚ) :=
          congrArg (fun z : Int => (z : ℚ)) this
        rw [← h5]
        exact (Int.cast_natCast _).symm
      rw [h4]
      push_cast
      rfl
    rw [h3, Rat.floor_intCast_div_natCast, Int.toNat_of_nonneg (by omega)]
  have hge : (1 : Int) ≤ 100 / (100 - t) := by
    apply Int.le_ediv_of_mul_le (by omega)
    omega
  unfold compressionRate
  rw [if_neg hd]
  simp only [gt_iff_lt, not_lt.mpr hq, if_false]
  have hnum : 0 ≤ (100 / (100 - (t : ℚ))).num := by
    rw [Rat.num_nonneg]
    linarith
  rw [Int.tdiv_eq_ediv hnum (by positivity), ← Rat.floor_def, hfloor, max_eq_right hge]

/-! ## What Initialize hands to the codec -/

/-- The events of `setFileInfoAndOpen`: one `SetFileInfo` on the file
description of the compressor, and an `Open` exactly when it succeeded. -/
theorem setFileInfoAndOpen_events (env : Env) (c : GDALECWCompressor) (f : String) :
    ∃ evs, (c.setFileInfoAndOpen env f).2 = { c with log := c.log ++ evs }
      ∧ (∀ info ok, Event.SetFileInfo info ok ∈ evs → info = c.sFileInfo)
      ∧ Event.SetFileInfo c.sFileInfo (env.SetFileInfo c.sFileInfo) ∈ evs
      ∧ ((∃ e ∈ evs, e.isOpen = true) ↔ env.SetFileInfo c.sFileInfo = true) := by
  unfold GDALECWCompressor.setFileInfoAndOpen
  cases hok : env.SetFileInfo c.sFileInfo
  · refine ⟨[Event.SetFileInfo c.sFileInfo false], ?_, ?_, ?_, ?_⟩
    · simp [GDALECWCompressor.emit]
    · intro info ok h
      simp at h
      exact h.1
    · simp
    · simp [Event.isOpen]
  · cases hfp : c.fpVSIL
    · refine ⟨[Event.SetFileInfo c.sFileInfo true, Event.Open f (env.Open f)], ?_, ?_, ?_, ?_⟩
      · simp [GDALECWCompressor.emit, hfp]
      · intro info ok h
        simp at h
        exact h.1
      · simp
      · simp [Event.isOpen]
    · rename_i fp
      refine ⟨[Event.SetFileInfo c.sFileInfo true, Event.OpenStream fp (env.OpenStream fp)],
        ?_, ?_, ?_, ?_⟩
      · simp [GDALECWCompressor.emit, hfp]
      · intro info ok h
        simp at h
        exact h.1
      · simp
      · simp [Event.isOpen]

/-- The events of `openDestination`.  The file description and the working
type are left as they are; every `SetFileInfo` is on that file description;
when the result is `CE_None`, `SetFileInfo` has been called and an `Open`
follows exactly when it succeeded. -/
theorem openDestination_events (env : Env) (c : GDALECWCompressor) (f : String) :
    ∃ evs, (c.openDestination env f).2.log = c.log ++ evs
      ∧ (c.openDestination env f).2.sFileInfo = c.sFileInfo
      ∧ (c.openDestination env f).2.eWorkDT = c.eWorkDT
      ∧ (∀ info ok, Event.SetFileInfo info ok ∈ evs → info = c.sFileInfo)
      ∧ ((c.openDestination env f).1 = CPLErr.CE_None →
          Event.SetFileInfo c.sFileInfo (env.SetFileInfo c.sFileInfo) ∈ evs
          ∧ ((∃ e ∈ evs, e.isOpen = true) ↔ env.SetFileInfo c.sFileInfo = true)) := by
  unfold GDALECWCompressor.openDestination
  split
  · split
    · exact ⟨[Event.CPLError .CE_Failure .CPLE_OpenFailed
        "Failed to parse J2K_SUBFILE specification."],
        by simp [GDALECWCompressor.emit], rfl, rfl, by simp, by simp⟩
    · split
      · exact ⟨[Event.CPLError .CE_Failure .CPLE_OpenFailed
          "Failed to parse J2K_SUBFILE specification."],
          by simp [GDALECWCompressor.emit], rfl, rfl, by simp, by simp⟩
      · rename_i off size _ _ real _
        split
        · obtain ⟨evs, h1, h2, h3, h4⟩ := setFileInfoAndOpen_events env
            (GDALECWCompressor.emit { (GDALECWCompressor.emit { c with fpVSIL := none }
              (Event.VSIFOpenL real (env.VSIFOpenL real))) with
              fpVSIL := some real, m_OStream := some (real, off, size) }
              (Event.Access real off size)) f
          refine ⟨Event.VSIFOpenL real (env.VSIFOpenL real) :: Event.Access real off size :: evs,
            ?_, ?_, ?_, ?_, ?_⟩
          · rw [h1]
            simp [GDALECWCompressor.emit]
          · rw [h1]
            rfl
          · rw [h1]
            rfl
          · intro info ok h
            simp only [List.mem_cons] at h
            rcases h with h | h | h
            · exact absurd h (by simp)
            · exact absurd h (by simp)
            · exact h2 info ok h
          · intro _
            refine ⟨List.mem_cons_of_mem _ (List.mem_cons_of_mem _ h3), ?_⟩
            refine Iff.trans ?_ h4
            constructor
            · rintro ⟨e, he, ho⟩
              simp only [List.mem_cons] at he
              rcases he with he | he | he
              · rw [he] at ho
                exact absurd ho (by simp [Event.isOpen])
              · rw [he] at ho
                exact absurd ho (by simp [Event.isOpen])
              · exact ⟨e, he, ho⟩
            · rintro ⟨e, he, ho⟩
              exact ⟨e, List.mem_cons_of_mem _ (List.mem_cons_of_mem _ he), ho⟩
        · exact ⟨[Event.VSIFOpenL real (env.VSIFOpenL real),
            Event.CPLError .CE_Failure .CPLE_OpenFailed "Failed to open %s."],
            by simp [GDALECWCompressor.emit], rfl, rfl, by simp, by simp⟩
  · obtain ⟨evs, h1, h2, h3, h4⟩ := setFileInfoAndOpen_events env { c with fpVSIL := none } f
    exact ⟨evs, by rw [h1], by rw [h1], by rw [h1], h2, fun _ => ⟨h3, h4⟩⟩

/-- The result code of `openDestination` depends on the file name and on the
file layer only, not on the compressor it starts from. -/
theorem openDestination_code (env : Env) (c c2 : GDALECWCompressor) (f : String) :
    (c.openDestination env f).1 = (c2.openDestination env f).1 := by
  unfold GDALECWCompressor.openDestination
  by_cases hsub : EQUALN f "J2K_SUBFILE:" 12 = true
  · rw [if_pos hsub, if_pos hsub]
    cases hs : sscanfSubfile f with
    | none => rfl
    | some p =>
      obtain ⟨off, size⟩ := p
      cases hr : realFilename f with
      | none => rfl
      | some real =>
        by_cases hopen : env.VSIFOpenL real = true
        · simp only [if_pos hopen]
          rw [(setFileInfoAndOpen_log env _ f).1, (setFileInfoAndOpen_log env _ f).1]
        · simp only [if_neg hopen]
  · rw [if_neg hsub, if_neg hsub]
    rw [(setFileInfoAndOpen_log env _ f).1, (setFileInfoAndOpen_log env _ f).1]

/-- A successful `Initialize` has passed the two option checks and the
resolver, and ends in `openDestination` on the configured compressor. -/
theorem Initialize_success (env : Env) (c c1 : GDALECWCompressor) (f : String)
    (opts : List String) (x y n : Int) (t : GDALDataType) (w : Option String)
    (g : GeoTransform) (j : Bool)
    (h : c.Initialize env f opts x y n t w g j = some (CPLErr.CE_None, c1)) :
    n ≠ 0
    ∧ ¬ ((CSLFetchNameValue opts "TARGET").isSome
          ∧ (targetCompression env opts < 1 ∨ targetCompression env opts > 100))
    ∧ ∃ pd, projectionAndDatum env opts w = some pd
        ∧ (c.configure env opts x y n t g j pd.1 pd.2).openDestination env f
            = (CPLErr.CE_None, c1) := by
  unfold GDALECWCompressor.Initialize at h
  split at h
  · simp at h
  · rename_i hn
    split at h
    · simp at h
    · rename_i ht
      split at h
      · exact absurd h (by simp)
      · rename_i pd hpd
        simp only [Option.some.injEq] at h
        exact ⟨hn, ht, pd, hpd, h⟩

/-- The file description a successful `Initialize` leaves in the compressor
and hands to `SetFileInfo`, the working type it sets, and when it opens the
destination. -/
theorem Initialize_fileInfo (env : Env) (c c1 : GDALECWCompressor) (f : String)
    (opts : List String) (x y n : Int) (t : GDALDataType) (w : Option String)
    (g : GeoTransform) (j : Bool)
    (h : c.Initialize env f opts x y n t w g j = some (CPLErr.CE_None, c1)) :
    ∃ pd evs, projectionAndDatum env opts w = some pd
      ∧ c1.sFileInfo = fileInfo (targetCompression env opts) x y n t g pd.1 pd.2
      ∧ c1.eWorkDT = (cellTypeOf t).2.2.2
      ∧ c1.log = c.log ++ configureEvents env opts y g j ++ evs
      ∧ (∀ info ok, Event.SetFileInfo info ok ∈ evs → info = c1.sFileInfo)
      ∧ Event.SetFileInfo c1.sFileInfo (env.SetFileInfo c1.sFileInfo) ∈ evs
      ∧ ((∃ e ∈ evs, e.isOpen = true) ↔ env.SetFileInfo c1.sFileInfo = true) := by
  obtain ⟨_, _, pd, hpd, hopen⟩ := Initialize_success env c c1 f opts x y n t w g j h
  obtain ⟨evs, h1, h2, h3, h4, h5⟩ :=
    openDestination_events env (c.configure env opts x y n t g j pd.1 pd.2) f
  rw [hopen] at h1 h2 h3 h5
  have hinfo : c1.sFileInfo = fileInfo (targetCompression env opts) x y n t g pd.1 pd.2 := h2
  have h6 := h5 rfl
  refine ⟨pd, evs, hpd, hinfo, h3, h1, ?_, ?_, ?_⟩
  · intro info ok hmem
    rw [hinfo]
    exact h4 info ok hmem
  · rw [hinfo]
    exact h6.1
  · rw [hinfo]
    exact h6.2

/-- The rotation written to the file description is zero. -/
theorem fileInfo_rotation (tc : ℚ) (x y n : Int) (t : GDALDataType) (g : GeoTransform)
    (p d : String) : (fileInfo tc x y n t g p d).fCWRotationDegrees = 0 := by
  show (georeference y g).1.2.2.2.2 = 0
  unfold georeference
  split <;> rfl

/-- The band descriptors of the file description: one per band, all with the
bit depth and the signedness of the cell type. -/
theorem bandInfos_spec (n : Int) (nBits : Nat) (bSigned : Bool) :
    (bandInfos n nBits bSigned).length = n.toNat
    ∧ ∀ b ∈ bandInfos n nBits bSigned, b.nBits = nBits ∧ b.bSigned = bSigned := by
  unfold bandInfos
  refine ⟨by simp, ?_⟩
  intro b hb
  rw [List.mem_map] at hb
  obtain ⟨i, _, hi⟩ := hb
  rw [← hi]
  exact ⟨rfl, rfl⟩

/-- What a rotation term changes in the events before the subfile block: the
warning is there exactly when a rotation term is not zero. -/
theorem configureEvents_warning (env : Env) (opts : List String) (y : Int) (g : GeoTransform)
    (j : Bool) :
    Event.CPLError .CE_Warning .CPLE_NotSupported
        "Rotational coefficients ignored, georeferencing of" ∈ configureEvents env opts y g j
      ↔ (g.g2 ≠ 0 ∨ g.g4 ≠ 0) := by
  unfold configureEvents georeference
  by_cases hr : g.g2 ≠ 0 ∨ g.g4 ≠ 0
  · simp [hr]
  · simp only [hr, iff_false, if_false]
    intro hmem
    rw [List.mem_append] at hmem
    rcases hmem with hmem | hmem
    · split at hmem
      · rw [List.mem_map] at hmem
        obtain ⟨p, _, hp⟩ := hmem
        exact absurd hp (by simp)
      · exact absurd hmem (List.not_mem_nil _)
    · simp at hmem

/-! ## The quality target -/

/-- The entry `TARGET=value` at the head of the option list is the one
`CSLFetchNameValue` finds. -/
theorem CSLFetchNameValue_TARGET (v : String) (rest : List String) :
    CSLFetchNameValue (("TARGET=" ++ v) :: rest) "TARGET" = some v := by
  have hd : ("TARGET=" ++ v).data = 'T' :: 'A' :: 'R' :: 'G' :: 'E' :: 'T' :: '=' :: v.data := by
    rw [String.data_append]
    rfl
  have hl : "TARGET".length = 6 := by decide
  have hn : "TARGET".data = ['T', 'A', 'R', 'G', 'E', 'T'] := rfl
  unfold CSLFetchNameValue
  simp [EQUALN, hd, hl, hn]

/-- The decimal text of a whole number below 100 reads as that number. -/
theorem strtodDecimal_fmtD :
    ∀ t : Nat, t < 100 → strtodDecimal (fmtD t).data = some (false, t, 0) := by
  decide

/-- The number of a text without sign, fraction and exponent. -/
theorem decimalValue_natCast (m : Nat) : decimalValue false m 0 = (m : ℚ) := by
  unfold decimalValue
  simp [Rat.mkRat_eq_div]

/-- The target of a `TARGET` option whose value reads as a decimal number. -/
theorem targetCompression_value (env : Env) (opts : List String) (v : String) (neg : Bool)
    (m : Nat) (e : Int) (hv : CSLFetchNameValue opts "TARGET" = some v)
    (hs : strtodDecimal v.data = some (neg, m, e)) :
    targetCompression env opts = toFloat (toDouble (decimalValue neg m e)) := by
  simp [targetCompression, hv, atof, hs]

/-- The target of a `TARGET` option whose value is the decimal text of a whole
number below 100 is that number. -/
theorem targetCompression_fmtD (env : Env) (opts : List String) (t : Nat) (ht : t < 100)
    (hv : CSLFetchNameValue opts "TARGET" = some (fmtD t)) :
    targetCompression env opts = (t : ℚ) := by
  rw [targetCompression_value env opts _ _ _ _ hv (strtodDecimal_fmtD t ht), decimalValue_natCast]
  exact toFloat_toDouble_natCast t (lt_trans ht (by norm_num))

/-- `Initialize` on a target outside 1 .. 100: it reports the error and
returns. -/
theorem Initialize_target_invalid (env : Env) (c : GDALECWCompressor) (f : String)
    (opts : List String) (x y n : Int) (t : GDALDataType) (w : Option String)
    (g : GeoTransform) (j : Bool) (hn : n ≠ 0)
    (hsome : (CSLFetchNameValue opts "TARGET").isSome = true)
    (hbad : targetCompression env opts < 1 ∨ targetCompression env opts > 100) :
    c.Initialize env f opts x y n t w g j
      = some (CPLErr.CE_Failure, c.emit (Event.CPLError .CE_Failure .CPLE_NotSupported
          "TARGET compression of %.3f invalid, should be a")) := by
  unfold GDALECWCompressor.Initialize
  rw [if_neg hn, if_pos ⟨hsome, hbad⟩]

/-- A failure of `Initialize` with a band count other than zero and a target
that passes the range check comes from the subfile block. -/
theorem Initialize_failure_cause (env : Env) (c c1 : GDALECWCompressor) (f : String)
    (opts : List String) (x y n : Int) (t : GDALDataType) (w : Option String)
    (g : GeoTransform) (j : Bool) (hn : n ≠ 0)
    (hok : ¬ ((CSLFetchNameValue opts "TARGET").isSome = true
        ∧ (targetCompression env opts < 1 ∨ targetCompression env opts > 100)))
    (hfail : c.Initialize env f opts x y n t w g j = some (CPLErr.CE_Failure, c1)) :
    EQUALN f "J2K_SUBFILE:" 12 = true := by
  cases hh : EQUALN f "J2K_SUBFILE:" 12
  · exfalso
    unfold GDALECWCompressor.Initialize at hfail
    rw [if_neg hn, if_neg hok] at hfail
    split at hfail
    · exact absurd hfail (by simp)
    · simp only [Option.some.injEq] at hfail
      have h1 := congrArg Prod.fst hfail
      rw [openDestination_plain env _ f hh] at h1
      exact absurd h1 (by simp)
  · rfl

/-- C9, counterexample.  The option `TARGET=100.000001` supplies a numeric
value above 100, and `TARGET=0.99999999` one below 1.  The `float` nearest to
the first is 100 and the one nearest to the second is 1, so the range check
of `Initialize` passes: it goes on to `SetFileInfo` and `Open` and returns
`CE_None`. -/
theorem target_within_rounding_accepted :
    CSLFetchNameValue ["TARGET=100.000001"] "TARGET" = some "100.000001"
    ∧ strtodDecimal "100.000001".data = some (false, 100000001, -6)
    ∧ 100 < decimalValue false 100000001 (-6)
    ∧ targetCompression Env.accepting ["TARGET=100.000001"] = 100
    ∧ (GDALECWCompressor.new.Initialize Env.accepting "out.jp2" ["TARGET=100.000001"] 2 2 1
        .GDT_Byte none identityGeoTransform false).map (fun r => (r.1, r.2.log.map Event.name))
      = some (CPLErr.CE_None, ["SetFileInfo", "Open"])
    ∧ CSLFetchNameValue ["TARGET=0.99999999"] "TARGET" = some "0.99999999"
    ∧ strtodDecimal "0.99999999".data = some (false, 99999999, -8)
    ∧ decimalValue false 99999999 (-8) < 1
    ∧ targetCompression Env.accepting ["TARGET=0.99999999"] = 1
    ∧ (GDALECWCompressor.new.Initialize Env.accepting "out.jp2" ["TARGET=0.99999999"] 2 2 1
        .GDT_Byte none identityGeoTransform false).map (fun r => (r.1, r.2.log.map Event.name))
      = some (CPLErr.CE_None, ["SetFileInfo", "Open"]) := by
  decide

/-- C9 (as the code has it).  The value of `TARGET` is compared after its
conversion to `float`, `(float) atof(value)`.  When that `float` is below 1 or
above 100, `Initialize` returns failure and the only thing it does is report
the error: the compressor is otherwise unchanged, so no file is opened and no
call is made into the codec.  When `TARGET` is absent, or that `float` lies in
1 .. 100, a failure of `Initialize` has another cause: the band count is zero
or the destination is a subfile name.  In terms of the decimal number `d` the
value spells: `Initialize` fails when `d ≤ 1 - 2^-24` or `d ≥ 100 + 2^-17`,
the neighbours of 1 and of 100 among the `float` numbers, and `TARGET` is not
the cause of a failure when `1 ≤ d ≤ 100`. -/
theorem target_validation (env : Env) (c : GDALECWCompressor) (f : String)
    (opts : List String) (x y n : Int) (t : GDALDataType) (w : Option String)
    (g : GeoTransform) (j : Bool) :
    (∀ v, CSLFetchNameValue opts "TARGET" = some v →
      (toFloat (atof env v) < 1 ∨ 100 < toFloat (atof env v)) →
      ∃ fmt, c.Initialize env f opts x y n t w g j
        = some (CPLErr.CE_Failure,
            c.emit (Event.CPLError .CE_Failure .CPLE_NotSupported fmt)))
    ∧ ((CSLFetchNameValue opts "TARGET" = none
          ∨ ∃ v, CSLFetchNameValue opts "TARGET" = some v
              ∧ 1 ≤ toFloat (atof env v) ∧ toFloat (atof env v) ≤ 100) →
        ∀ c1, c.Initialize env f opts x y n t w g j = some (CPLErr.CE_Failure, c1) →
          n = 0 ∨ EQUALN f "J2K_SUBFILE:" 12 = true)
    ∧ (∀ v neg m e, CSLFetchNameValue opts "TARGET" = some v →
        strtodDecimal v.data = some (neg, m, e) →
        (decimalValue neg m e ≤ 1 - 1 / 2 ^ 24 ∨ 100 + 1 / 2 ^ 17 ≤ decimalValue neg m e) →
        ∃ fmt, c.Initialize env f opts x y n t w g j
          = some (CPLErr.CE_Failure,
              c.emit (Event.CPLError .CE_Failure .CPLE_NotSupported fmt)))
    ∧ (∀ v neg m e, CSLFetchNameValue opts "TARGET" = some v →
        strtodDecimal v.data = some (neg, m, e) →
        1 ≤ decimalValue neg m e → decimalValue neg m e ≤ 100 →
        ∀ c1, c.Initialize env f opts x y n t w g j = some (CPLErr.CE_Failure, c1) →
          n = 0 ∨ EQUALN f "J2K_SUBFILE:" 12 = true) := by
  have hbadfloat : ∀ v, CSLFetchNameValue opts "TARGET" = some v →
      (toFloat (atof env v) < 1 ∨ 100 < toFloat (atof env v)) →
      ∃ fmt, c.Initialize env f opts x y n t w g j
        = some (CPLErr.CE_Failure,
            c.emit (Event.CPLError .CE_Failure .CPLE_NotSupported fmt)) := by
    intro v hv hbad
    by_cases hn : n = 0
    · subst hn
      exact ⟨_, Initialize_zero_bands env c f opts x y t w g j⟩
    · have htc : targetCompression env opts = toFloat (atof env v) := by
        simp [targetCompression, hv]
      exact ⟨_, Initialize_target_invalid env c f opts x y n t w g j hn (by rw [hv]; rfl)
        (by rw [htc]; exact hbad)⟩
  have hokfloat : (CSLFetchNameValue opts "TARGET" = none
        ∨ ∃ v, CSLFetchNameValue opts "TARGET" = some v
            ∧ 1 ≤ toFloat (atof env v) ∧ toFloat (atof env v) ≤ 100) →
      ∀ c1, c.Initialize env f opts x y n t w g j = some (CPLErr.CE_Failure, c1) →
        n = 0 ∨ EQUALN f "J2K_SUBFILE:" 12 = true := by
    intro hvalid c1 hfail
    by_cases hn : n = 0
    · exact Or.inl hn
    · right
      refine Initialize_failure_cause env c c1 f opts x y n t w g j hn ?_ hfail
      rintro ⟨hsome, hbad⟩
      rcases hvalid with hnone | ⟨v, hv, h1, h2⟩
      · rw [hnone] at hsome
        exact absurd hsome (by simp)
      · have htc : targetCompression env opts = toFloat (atof env v) := by
          simp [targetCompression, hv]
        rw [htc] at hbad
        rcases hbad with hb | hb
        · exact absurd h1 (not_le.mpr hb)
        · exact absurd h2 (not_le.mpr hb)
  have hatof : ∀ v neg m e, strtodDecimal v.data = some (neg, m, e) →
      toFloat (atof env v) = toFloat (toDouble (decimalValue neg m e)) := by
    intro v neg m e hs
    simp [atof, hs]
  refine ⟨hbadfloat, hokfloat, ?_, ?_⟩
  · intro v neg m e hv hs hbad
    apply hbadfloat v hv
    rw [hatof v neg m e hs]
    rcases hbad with hb | hb
    · left
      have h1 : (1 : ℚ) - 1 / 2 ^ 24 = ((16777215 : Nat) : ℚ) * (2 : ℚ) ^ (-24 : Int) := by
        norm_num
      rw [h1] at hb
      have h2 := toFloat_toDouble_le _ 16777215 (-24) (by norm_num) hb
      have h3 : ((16777215 : Nat) : ℚ) * (2 : ℚ) ^ (-24 : Int) < 1 := by norm_num
      exact lt_of_le_of_lt h2 h3
    · right
      have h1 : (100 : ℚ) + 1 / 2 ^ 17 = ((13107201 : Nat) : ℚ) * (2 : ℚ) ^ (-17 : Int) := by
        norm_num
      rw [h1] at hb
      have h2 := toFloat_toDouble_ge _ 13107201 (-17) (by norm_num) (by norm_num) hb
      have h3 : (100 : ℚ) < ((13107201 : Nat) : ℚ) * (2 : ℚ) ^ (-17 : Int) := by norm_num
      exact lt_of_lt_of_le h3 h2
  · intro v neg m e hv hs h1 h2
    apply hokfloat
    right
    refine ⟨v, hv, ?_, ?_⟩
    · rw [hatof v neg m e hs]
      have h3 := toFloat_toDouble_ge (decimalValue neg m e) 1 0 (by norm_num) (by norm_num)
        (by simpa using h1)
      simpa using h3
    · rw [hatof v neg m e hs]
      have h3 := toFloat_toDouble_le (decimalValue neg m e) 100 0 (by norm_num)
        (by simpa using h2)
      simpa using h3

/-- Witness of C9: `TARGET=0` and `TARGET=101` are rejected with nothing but
the error report, and a failure with `TARGET=75` has another cause. -/
theorem target_validation_witness :
    (∃ fmt, GDALECWCompressor.new.Initialize Env.accepting "out.ecw" ["TARGET=0"] 2 2 1
        .GDT_Byte none identityGeoTransform false
        = some (CPLErr.CE_Failure,
            GDALECWCompressor.new.emit (Event.CPLError .CE_Failure .CPLE_NotSupported fmt)))
    ∧ (∃ fmt, GDALECWCompressor.new.Initialize Env.accepting "out.ecw" ["TARGET=101"] 2 2 1
        .GDT_Byte none identityGeoTransform false
        = some (CPLErr.CE_Failure,
            GDALECWCompressor.new.emit (Event.CPLError .CE_Failure .CPLE_NotSupported fmt)))
    ∧ (∀ c1, GDALECWCompressor.new.Initialize Env.accepting "J2K_SUBFILE:x" ["TARGET=75"] 2 2 1
        .GDT_Byte none identityGeoTransform false = some (CPLErr.CE_Failure, c1) →
        (1 : Int) = 0 ∨ EQUALN "J2K_SUBFILE:x" "J2K_SUBFILE:" 12 = true) :=
  ⟨(target_validation Env.accepting GDALECWCompressor.new "out.ecw" ["TARGET=0"] 2 2 1
      .GDT_Byte none identityGeoTransform false).2.2.1 "0" false 0 0 (by decide) (by decide)
      (Or.inl (by rw [decimalValue_natCast]; norm_num)),
   (target_validation Env.accepting GDALECWCompressor.new "out.ecw" ["TARGET=101"] 2 2 1
      .GDT_Byte none identityGeoTransform false).2.2.1 "101" false 101 0 (by decide) (by decide)
      (Or.inr (by rw [decimalValue_natCast]; norm_num)),
   (target_validation Env.accepting GDALECWCompressor.new "J2K_SUBFILE:x" ["TARGET=75"] 2 2 1
      .GDT_Byte none identityGeoTransform false).2.2.2 "75" false 75 0 (by decide) (by decide)
      (by rw [decimalValue_natCast]; norm_num) (by rw [decimalValue_natCast]; norm_num)⟩

/-- For a whole target between 1 and 99 the quotient `100 / (100 - t)` rounded
to `float` truncates to the same integer as the exact quotient. -/
theorem rate_float_quotient : ∀ t : Nat, t < 100 → 1 ≤ t →
    toFloat ((100 - t : Nat) : ℚ) = ((100 - t : Nat) : ℚ)
    ∧ ⌊toFloat (mkRat 100 (100 - t))⌋ = ((100 / (100 - t) : Nat) : Int) := by
  decide

/-- The rate stored in the 16-bit member of the file description for a whole
target between 1 and 99. -/
theorem storedRate_natCast (t : Nat) (h1 : 1 ≤ t) (h2 : t ≤ 99) :
    (compressionRate (t : ℚ)).map (· % 65536) = some (max 1 (100 / (100 - (t : Int)))) := by
  have h := compressionRate_intCast (t : Int) (by omega) (by omega)
  rw [Int.cast_natCast] at h
  rw [h, Option.map_some']
  have hle : (100 : Int) / (100 - (t : Int)) ≤ 100 :=
    Int.ediv_le_self _ (by norm_num)
  have hge : (0 : Int) ≤ 100 / (100 - (t : Int)) := Int.ediv_nonneg (by norm_num) (by omega)
  have hm1 : (1 : Int) ≤ max 1 (100 / (100 - (t : Int))) := le_max_left _ _
  have hm2 : max 1 (100 / (100 - (t : Int))) ≤ 100 := max_le (by norm_num) hle
  congr 1
  exact Int.emod_eq_of_lt (by omega) (by omega)

/-- C10. For a whole target `t` with `1 ≤ t ≤ 99`, given as its decimal text in
the option `TARGET`, the `float` target of `Initialize` is `t`, and the
compression rate in the file description that a successful `Initialize` hands
to `SetFileInfo` is `max(1, floor(100 / (100 - t)))`; the rate is at least 1
and does not decrease when the target grows.  Without the option `TARGET` the
target is 75 and the rate handed to `SetFileInfo` is 4, as for `TARGET=75`. -/
theorem quality_to_ratio (t : Nat) (h1 : 1 ≤ t) (h2 : t ≤ 99) :
    (∀ rest, CSLFetchNameValue (("TARGET=" ++ fmtD t) :: rest) "TARGET" = some (fmtD t))
    ∧ (∀ (env : Env) (opts : List String), CSLFetchNameValue opts "TARGET" = some (fmtD t) →
        targetCompression env opts = (t : ℚ))
    ∧ (∀ (env : Env) (c c1 : GDALECWCompressor) (f : String) (opts : List String)
          (x y n : Int) (ty : GDALDataType) (w : Option String) (g : GeoTransform) (j : Bool),
          CSLFetchNameValue opts "TARGET" = some (fmtD t) →
          c.Initialize env f opts x y n ty w g j = some (CPLErr.CE_None, c1) →
          c1.sFileInfo.nCompressionRate = some (max 1 (100 / (100 - (t : Int))))
            ∧ Event.SetFileInfo c1.sFileInfo (env.SetFileInfo c1.sFileInfo) ∈ c1.log)
    ∧ 1 ≤ max 1 (100 / (100 - (t : Int)))
    ∧ (∀ t2 : Nat, t ≤ t2 → t2 ≤ 99 →
        max 1 (100 / (100 - (t : Int))) ≤ max 1 (100 / (100 - (t2 : Int))))
    ∧ (∀ (env : Env) (c c1 : GDALECWCompressor) (f : String) (opts : List String)
          (x y n : Int) (ty : GDALDataType) (w : Option String) (g : GeoTransform) (j : Bool),
          CSLFetchNameValue opts "TARGET" = none →
          c.Initialize env f opts x y n ty w g j = some (CPLErr.CE_None, c1) →
          c1.sFileInfo.nCompressionRate = some 4
            ∧ Event.SetFileInfo c1.sFileInfo (env.SetFileInfo c1.sFileInfo) ∈ c1.log)
    ∧ fmtD 75 = "75" ∧ max 1 (100 / (100 - ((75 : Nat) : Int))) = 4 := by
  have hrate : ∀ (env : Env) (c c1 : GDALECWCompressor) (f : String) (opts : List String)
      (x y n : Int) (ty : GDALDataType) (w : Option String) (g : GeoTransform) (j : Bool),
      c.Initialize env f opts x y n ty w g j = some (CPLErr.CE_None, c1) →
      c1.sFileInfo.nCompressionRate = (compressionRate (targetCompression env opts)).map (· % 65536)
        ∧ Event.SetFileInfo c1.sFileInfo (env.SetFileInfo c1.sFileInfo) ∈ c1.log := by
    intro env c c1 f opts x y n ty w g j hinit
    obtain ⟨pd, evs, _, hinfo, _, hlog, _, hmem, _⟩ :=
      Initialize_fileInfo env c c1 f opts x y n ty w g j hinit
    refine ⟨?_, ?_⟩
    · rw [hinfo]
      rfl
    · rw [hlog]
      exact List.mem_append_right _ hmem
  refine ⟨fun rest => CSLFetchNameValue_TARGET (fmtD t) rest,
    fun env opts hv => targetCompression_fmtD env opts t (by omega) hv, ?_, le_max_left _ _,
    ?_, ?_, by decide, by decide⟩
  · intro env c c1 f opts x y n ty w g j hv hinit
    obtain ⟨hr, hmem⟩ := hrate env c c1 f opts x y n ty w g j hinit
    rw [targetCompression_fmtD env opts t (by omega) hv, storedRate_natCast t h1 h2] at hr
    exact ⟨hr, hmem⟩
  · intro t2 h3 h4
    apply max_le_max (le_refl _)
    apply Int.le_ediv_of_mul_le (by omega)
    have hb : (100 : Int) / (100 - (t : Int)) * (100 - (t : Int)) ≤ 100 :=
      Int.ediv_mul_le _ (by omega)
    have hnn : (0 : Int) ≤ 100 / (100 - (t : Int)) := Int.ediv_nonneg (by omega) (by omega)
    have hle : (100 : Int) / (100 - (t : Int)) * (100 - (t2 : Int))
        ≤ 100 / (100 - (t : Int)) * (100 - (t : Int)) :=
      Int.mul_le_mul_of_nonneg_left (by omega) hnn
    omega
  · intro env c c1 f opts x y n ty w g j hnone hinit
    obtain ⟨hr, hmem⟩ := hrate env c c1 f opts x y n ty w g j hinit
    have htc : targetCompression env opts = ((75 : Nat) : ℚ) := by
      simp [targetCompression, hnone]
    rw [htc, storedRate_natCast 75 (by decide) (by decide)] at hr
    exact ⟨hr, hmem⟩

/-- Witness of C10: with the option `TARGET=75`, and with no option at all,
`Initialize` succeeds and the rate in the file description is 4. -/
theorem quality_to_ratio_witness :
    (∃ c1, GDALECWCompressor.new.Initialize Env.accepting "out.jp2" ["TARGET=75"] 2 2 1
        .GDT_Byte none identityGeoTransform false = some (CPLErr.CE_None, c1)
      ∧ c1.sFileInfo.nCompressionRate = some 4
      ∧ Event.SetFileInfo c1.sFileInfo (Env.accepting.SetFileInfo c1.sFileInfo) ∈ c1.log)
    ∧ (∃ c1, GDALECWCompressor.new.Initialize Env.accepting "out.jp2" [] 2 2 1
        .GDT_Byte none identityGeoTransform false = some (CPLErr.CE_None, c1)
      ∧ c1.sFileInfo.nCompressionRate = some 4) := by
  obtain ⟨c1, h⟩ := exists_of_map_fst
    (GDALECWCompressor.new.Initialize Env.accepting "out.jp2" ["TARGET=75"] 2 2 1 .GDT_Byte none
      identityGeoTransform false) CPLErr.CE_None (by decide)
  obtain ⟨c2, h2⟩ := exists_of_map_fst
    (GDALECWCompressor.new.Initialize Env.accepting "out.jp2" [] 2 2 1 .GDT_Byte none
      identityGeoTransform false) CPLErr.CE_None (by decide)
  have hq := quality_to_ratio 75 (by decide) (by decide)
  obtain ⟨hr, hmem⟩ := hq.2.2.1 Env.accepting GDALECWCompressor.new c1 "out.jp2" ["TARGET=75"]
    2 2 1 .GDT_Byte none identityGeoTransform false (by decide) h
  rw [hq.2.2.2.2.2.2.2] at hr
  exact ⟨⟨c1, h, hr, hmem⟩, c2, h2,
    (hq.2.2.2.2.2.1 Env.accepting GDALECWCompressor.new c2 "out.jp2" [] 2 2 1 .GDT_Byte none
      identityGeoTransform false (by decide) h2).1⟩

/-! ## Sample type, georeferencing and the destination -/

/-- C11. Sample-type mapping.  `Initialize` maps Byte to (UINT8, 8,
unsigned), UInt16 to (UINT16, 16, unsigned), UInt32 to (UINT32, 32, unsigned),
Int16 to (INT16, 16, signed), Int32 to (INT32, 32, signed), Float32 to
(IEEE4, 32, signed) and Float64 to (IEEE8, 64, signed), and keeps the input
type as working type for these seven; every other input type gets the working
type Float32 and the cell type (IEEE4, 32, signed).  After a successful
`Initialize` the file description handed to `SetFileInfo` has that cell type,
the compressor has that working type, and (the band count fitting the array
of 200 descriptors) there is one band descriptor per band, each with that bit
depth and signedness. -/
theorem sample_type_mapping :
    cellTypeOf .GDT_Byte = (.NCSCT_UINT8, 8, false, .GDT_Byte)
    ∧ cellTypeOf .GDT_UInt16 = (.NCSCT_UINT16, 16, false, .GDT_UInt16)
    ∧ cellTypeOf .GDT_UInt32 = (.NCSCT_UINT32, 32, false, .GDT_UInt32)
    ∧ cellTypeOf .GDT_Int16 = (.NCSCT_INT16, 16, true, .GDT_Int16)
    ∧ cellTypeOf .GDT_Int32 = (.NCSCT_INT32, 32, true, .GDT_Int32)
    ∧ cellTypeOf .GDT_Float32 = (.NCSCT_IEEE4, 32, true, .GDT_Float32)
    ∧ cellTypeOf .GDT_Float64 = (.NCSCT_IEEE8, 64, true, .GDT_Float64)
    ∧ (∀ t : GDALDataType,
        t ∉ [GDALDataType.GDT_Byte, .GDT_UInt16, .GDT_UInt32, .GDT_Int16, .GDT_Int32,
              .GDT_Float32, .GDT_Float64] →
        cellTypeOf t = (.NCSCT_IEEE4, 32, true, .GDT_Float32))
    ∧ ∀ (env : Env) (c c1 : GDALECWCompressor) (f : String) (opts : List String)
        (x y n : Int) (t : GDALDataType) (w : Option String) (g : GeoTransform) (j : Bool),
        c.Initialize env f opts x y n t w g j = some (CPLErr.CE_None, c1) →
        c1.sFileInfo.eCellType = (cellTypeOf t).1
        ∧ c1.eWorkDT = (cellTypeOf t).2.2.2
        ∧ Event.SetFileInfo c1.sFileInfo (env.SetFileInfo c1.sFileInfo) ∈ c1.log
        ∧ (n ≤ 200 →
            c1.sFileInfo.pBands.length = n.toNat
            ∧ ∀ b ∈ c1.sFileInfo.pBands,
                b.nBits = (cellTypeOf t).2.1 ∧ b.bSigned = (cellTypeOf t).2.2.1) := by
  refine ⟨rfl, rfl, rfl, rfl, rfl, rfl, rfl, ?_, ?_⟩
  · intro t ht
    cases t <;> first | rfl | exact absurd ht (by simp)
  · intro env c c1 f opts x y n t w g j h
    obtain ⟨pd, evs, _, hinfo, hwork, hlog, _, hmem, _⟩ :=
      Initialize_fileInfo env c c1 f opts x y n t w g j h
    refine ⟨by rw [hinfo]; rfl, hwork, ?_, ?_⟩
    · rw [hlog]
      exact List.mem_append_right _ hmem
    · intro _
      rw [hinfo]
      exact bandInfos_spec n (cellTypeOf t).2.1 (cellTypeOf t).2.2.1

/-- Witness of C11: a two-band dataset of the complex type CInt16 is written
as IEEE4, 32 bits, signed, with the working type Float32. -/
theorem sample_type_mapping_witness :
    ∃ c1, GDALECWCompressor.new.Initialize Env.accepting "out.jp2" [] 2 2 2 .GDT_CInt16 none
        identityGeoTransform false = some (CPLErr.CE_None, c1)
      ∧ c1.sFileInfo.eCellType = .NCSCT_IEEE4
      ∧ c1.eWorkDT = .GDT_Float32
      ∧ c1.sFileInfo.pBands.length = 2
      ∧ ∀ b ∈ c1.sFileInfo.pBands, b.nBits = 32 ∧ b.bSigned = true := by
  obtain ⟨c1, h⟩ := exists_of_map_fst
    (GDALECWCompressor.new.Initialize Env.accepting "out.jp2" [] 2 2 2 .GDT_CInt16 none
      identityGeoTransform false) CPLErr.CE_None (by decide)
  have hw := sample_type_mapping.2.2.2.2.2.2.2.2 Env.accepting GDALECWCompressor.new c1
    "out.jp2" [] 2 2 2 .GDT_CInt16 none identityGeoTransform false h
  exact ⟨c1, h, hw.1, hw.2.1, (hw.2.2.2 (by decide)).1, (hw.2.2.2 (by decide)).2⟩

/-- No event before the subfile block is a `SetFileInfo` or an `Open`. -/
theorem configureEvents_noCodec (env : Env) (opts : List String) (y : Int) (g : GeoTransform)
    (j : Bool) : ∀ e ∈ configureEvents env opts y g j,
      e.isOpen = false ∧ ∀ info ok, e ≠ Event.SetFileInfo info ok := by
  intro e he
  unfold configureEvents at he
  rw [List.mem_append] at he
  rcases he with he | he
  · split at he
    · rw [List.mem_map] at he
      obtain ⟨p, _, hp⟩ := he
      rw [← hp]
      exact ⟨rfl, fun _ _ h => by simp at h⟩
    · exact absurd he (List.not_mem_nil _)
  · split at he
    · rw [List.mem_singleton] at he
      rw [he]
      exact ⟨rfl, fun _ _ h => by simp at h⟩
    · exact absurd he (List.not_mem_nil _)

/-- Every file description `Initialize` hands to `SetFileInfo`, whatever it
returns, is the one built from its arguments. -/
theorem Initialize_written (env : Env) (c c1 : GDALECWCompressor) (f : String)
    (opts : List String) (x y n : Int) (t : GDALDataType) (w : Option String)
    (g : GeoTransform) (j : Bool) (r : CPLErr)
    (h : c.Initialize env f opts x y n t w g j = some (r, c1)) :
    ∃ evs, c1.log = c.log ++ evs
      ∧ ∀ info ok, Event.SetFileInfo info ok ∈ evs →
          ∃ pd, projectionAndDatum env opts w = some pd
            ∧ info = fileInfo (targetCompression env opts) x y n t g pd.1 pd.2 := by
  unfold GDALECWCompressor.Initialize at h
  split at h
  · simp only [Option.some.injEq, Prod.mk.injEq] at h
    rw [← h.2]
    exact ⟨[_], rfl, fun info ok hm => by simp at hm⟩
  · split at h
    · simp only [Option.some.injEq, Prod.mk.injEq] at h
      rw [← h.2]
      exact ⟨[_], rfl, fun info ok hm => by simp at hm⟩
    · split at h
      · exact absurd h (by simp)
      · rename_i pd hpd
        simp only [Option.some.injEq] at h
        have h2 := congrArg Prod.snd h
        simp only at h2
        rw [← h2]
        obtain ⟨evs, he1, _, _, he4, _⟩ := openDestination_events env
          (c.configure env opts x y n t g j pd.1 pd.2) f
        rw [he1]
        refine ⟨configureEvents env opts y g j ++ evs, ?_, ?_⟩
        · simp [GDALECWCompressor.configure]
        · intro info ok hm
          rw [List.mem_append] at hm
          rcases hm with hm | hm
          · exact absurd rfl ((configureEvents_noCodec env opts y g j _ hm).2 info ok)
          · exact ⟨pd, hpd, he4 info ok hm⟩

/-- The result code of `Initialize` does not depend on the geotransform. -/
theorem Initialize_code_geotransform (env : Env) (c : GDALECWCompressor) (f : String)
    (opts : List String) (x y n : Int) (t : GDALDataType) (w : Option String)
    (g g2 : GeoTransform) (j : Bool) :
    (c.Initialize env f opts x y n t w g j).map Prod.fst
      = (c.Initialize env f opts x y n t w g2 j).map Prod.fst := by
  unfold GDALECWCompressor.Initialize
  by_cases hn : n = 0
  · rw [if_pos hn, if_pos hn]
  · rw [if_neg hn, if_neg hn]
    by_cases ht : (CSLFetchNameValue opts "TARGET").isSome
        ∧ (targetCompression env opts < 1 ∨ targetCompression env opts > 100)
    · rw [if_pos ht, if_pos ht]
    · rw [if_neg ht, if_neg ht]
      cases projectionAndDatum env opts w with
      | none => rfl
      | some pd =>
        simp only [Option.map_some', Option.some.injEq]
        exact openDestination_code env _ _ f

/-- C12. Rotation is not fatal.  For an input georeference in which a
rotation term is not zero, `Initialize` returns what it returns for the same
input with both rotation terms zero; when it succeeds it has issued the
warning and handed the codec a file description whose rotation is zero.  For
every input, whatever `Initialize` returns, every file description it hands
to `SetFileInfo` has rotation zero. -/
theorem rotation_not_fatal (env : Env) (c : GDALECWCompressor) (f : String)
    (opts : List String) (x y n : Int) (t : GDALDataType) (w : Option String)
    (g : GeoTransform) (j : Bool) (hrot : g.g2 ≠ 0 ∨ g.g4 ≠ 0) :
    (c.Initialize env f opts x y n t w g j).map Prod.fst
      = (c.Initialize env f opts x y n t w { g with g2 := 0, g4 := 0 } j).map Prod.fst
    ∧ (∀ c1, c.Initialize env f opts x y n t w g j = some (CPLErr.CE_None, c1) →
        c1.sFileInfo.fCWRotationDegrees = 0
        ∧ Event.SetFileInfo c1.sFileInfo (env.SetFileInfo c1.sFileInfo) ∈ c1.log
        ∧ Event.CPLError .CE_Warning .CPLE_NotSupported
            "Rotational coefficients ignored, georeferencing of" ∈ c1.log)
    ∧ (∀ (g2 : GeoTransform) (r : CPLErr) (c1 : GDALECWCompressor),
        c.Initialize env f opts x y n t w g2 j = some (r, c1) →
        ∃ evs, c1.log = c.log ++ evs
          ∧ ∀ info ok, Event.SetFileInfo info ok ∈ evs → info.fCWRotationDegrees = 0) := by
  refine ⟨Initialize_code_geotransform env c f opts x y n t w g _ j, ?_, ?_⟩
  · intro c1 h
    obtain ⟨pd, evs, _, hinfo, _, hlog, _, hmem, _⟩ :=
      Initialize_fileInfo env c c1 f opts x y n t w g j h
    refine ⟨by rw [hinfo]; exact fileInfo_rotation _ _ _ _ _ _ _ _, ?_, ?_⟩
    · rw [hlog]
      exact List.mem_append_right _ hmem
    · rw [hlog]
      exact List.mem_append_left _
        (List.mem_append_right _ ((configureEvents_warning env opts y g j).2 hrot))
  · intro g2 r c1 h
    obtain ⟨evs, hlog, hall⟩ := Initialize_written env c c1 f opts x y n t w g2 j r h
    refine ⟨evs, hlog, ?_⟩
    intro info ok hm
    obtain ⟨pd, _, hpd⟩ := hall info ok hm
    rw [hpd]
    exact fileInfo_rotation _ _ _ _ _ _ _ _

/-- Witness of C12 at a geotransform with `padfGeoTransform[2] = 1`:
`Initialize` succeeds, as it does without the rotation term, and writes the
rotation zero. -/
theorem rotation_not_fatal_witness :
    (rotatedGeoTransform.g2 ≠ 0 ∨ rotatedGeoTransform.g4 ≠ 0)
    ∧ (GDALECWCompressor.new.Initialize Env.accepting "out.jp2" [] 2 2 1 .GDT_Byte none
        rotatedGeoTransform false).map Prod.fst
      = (GDALECWCompressor.new.Initialize Env.accepting "out.jp2" [] 2 2 1 .GDT_Byte none
        { rotatedGeoTransform with g2 := 0, g4 := 0 } false).map Prod.fst
    ∧ ∃ c1, GDALECWCompressor.new.Initialize Env.accepting "out.jp2" [] 2 2 1 .GDT_Byte none
          rotatedGeoTransform false = some (CPLErr.CE_None, c1)
        ∧ c1.sFileInfo.fCWRotationDegrees = 0 := by
  have hrot : rotatedGeoTransform.g2 ≠ 0 ∨ rotatedGeoTransform.g4 ≠ 0 := Or.inl (by decide)
  obtain ⟨c1, h⟩ := exists_of_map_fst
    (GDALECWCompressor.new.Initialize Env.accepting "out.jp2" [] 2 2 1 .GDT_Byte none
      rotatedGeoTransform false) CPLErr.CE_None (by decide)
  have hw := rotation_not_fatal Env.accepting GDALECWCompressor.new "out.jp2" [] 2 2 1
    .GDT_Byte none rotatedGeoTransform false hrot
  exact ⟨hrot, hw.1, c1, h, (hw.2.1 c1 h).1⟩

/-- The origin and cell increments written to the file description: the
input's when both rotation terms are zero, the defaults otherwise. -/
theorem fileInfo_georeference (tc : ℚ) (x y n : Int) (t : GDALDataType) (g : GeoTransform)
    (p d : String) :
    (g.g2 = 0 ∧ g.g4 = 0 →
      (fileInfo tc x y n t g p d).fOriginX = g.g0
      ∧ (fileInfo tc x y n t g p d).fOriginY = g.g3
      ∧ (fileInfo tc x y n t g p d).fCellIncrementX = g.g1
      ∧ (fileInfo tc x y n t g p d).fCellIncrementY = g.g5)
    ∧ (g.g2 ≠ 0 ∨ g.g4 ≠ 0 →
      (fileInfo tc x y n t g p d).fOriginX = 0
      ∧ (fileInfo tc x y n t g p d).fOriginY = (y : ℚ)
      ∧ (fileInfo tc x y n t g p d).fCellIncrementX = 1
      ∧ (fileInfo tc x y n t g p d).fCellIncrementY = -1) := by
  constructor
  · intro h
    have hn : ¬ (g.g2 ≠ 0 ∨ g.g4 ≠ 0) := by
      rintro (h2 | h4)
      · exact h2 h.1
      · exact h4 h.2
    simp only [fileInfo, georeference, if_neg hn, and_self]
  · intro h
    simp only [fileInfo, georeference, if_pos h, and_self]

/-- C13, counterexample.  The input georeference has origin (10, 20), pixel
size (2, -2) and the rotation term `padfGeoTransform[2] = 1`; the raster has
2 lines.  `Initialize` succeeds and hands the codec one file description, with
origin (0, 2) and cell increments (1, -1): not the input's. -/
theorem rotated_georeference_not_written :
    (rotatedGeoTransform.g0, rotatedGeoTransform.g3, rotatedGeoTransform.g1,
        rotatedGeoTransform.g5) = (10, 20, 2, -2)
    ∧ (GDALECWCompressor.new.Initialize Env.accepting "out.jp2" [] 2 2 1 .GDT_Byte none
        rotatedGeoTransform false).map
      (fun r => (r.1, (fileInfos r.2.log).map fun i =>
        (i.fOriginX, i.fOriginY, i.fCellIncrementX, i.fCellIncrementY)))
      = some (CPLErr.CE_None, [(0, 2, 1, -1)]) := by
  decide

/-- C13 (as the code has it).  After a successful `Initialize` the file
description handed to the codec has the origin and the cell increments of the
input georeference when both rotation terms are zero; when a rotation term is
not zero it has the defaults instead: origin (0, number of lines) and cell
increments (1, -1). -/
theorem georeference_written (env : Env) (c c1 : GDALECWCompressor) (f : String)
    (opts : List String) (x y n : Int) (t : GDALDataType) (w : Option String)
    (g : GeoTransform) (j : Bool)
    (h : c.Initialize env f opts x y n t w g j = some (CPLErr.CE_None, c1)) :
    Event.SetFileInfo c1.sFileInfo (env.SetFileInfo c1.sFileInfo) ∈ c1.log
    ∧ (g.g2 = 0 ∧ g.g4 = 0 →
        c1.sFileInfo.fOriginX = g.g0 ∧ c1.sFileInfo.fOriginY = g.g3
        ∧ c1.sFileInfo.fCellIncrementX = g.g1 ∧ c1.sFileInfo.fCellIncrementY = g.g5)
    ∧ (g.g2 ≠ 0 ∨ g.g4 ≠ 0 →
        c1.sFileInfo.fOriginX = 0 ∧ c1.sFileInfo.fOriginY = (y : ℚ)
        ∧ c1.sFileInfo.fCellIncrementX = 1 ∧ c1.sFileInfo.fCellIncrementY = -1) := by
  obtain ⟨pd, evs, _, hinfo, _, hlog, _, hmem, _⟩ :=
    Initialize_fileInfo env c c1 f opts x y n t w g j h
  refine ⟨?_, ?_, ?_⟩
  · rw [hlog]
    exact List.mem_append_right _ hmem
  · rw [hinfo]
    exact (fileInfo_georeference _ x y n t g pd.1 pd.2).1
  · rw [hinfo]
    exact (fileInfo_georeference _ x y n t g pd.1 pd.2).2

/-- Witness of C13 at the georeference with origin (10, 20), pixel size
(2, -2) and no rotation: these four numbers reach the codec. -/
theorem georeference_written_witness :
    ∃ c1, GDALECWCompressor.new.Initialize Env.accepting "out.jp2" [] 2 2 1 .GDT_Byte none
        unrotatedGeoTransform false = some (CPLErr.CE_None, c1)
      ∧ Event.SetFileInfo c1.sFileInfo (Env.accepting.SetFileInfo c1.sFileInfo) ∈ c1.log
      ∧ c1.sFileInfo.fOriginX = 10 ∧ c1.sFileInfo.fOriginY = 20
      ∧ c1.sFileInfo.fCellIncrementX = 2 ∧ c1.sFileInfo.fCellIncrementY = -2 := by
  obtain ⟨c1, h⟩ := exists_of_map_fst
    (GDALECWCompressor.new.Initialize Env.accepting "out.jp2" [] 2 2 1 .GDT_Byte none
      unrotatedGeoTransform false) CPLErr.CE_None (by decide)
  have hw := georeference_written Env.accepting GDALECWCompressor.new c1 "out.jp2" [] 2 2 1
    .GDT_Byte none unrotatedGeoTransform false h
  exact ⟨c1, h, hw.1, hw.2.1 ⟨rfl, rfl⟩⟩

/-- The result code of `openDestination` depends on the file name and on the
answers of `VSIFOpenL` only. -/
theorem openDestination_code_env (env env2 : Env) (c c2 : GDALECWCompressor) (f : String)
    (hv : env2.VSIFOpenL = env.VSIFOpenL) :
    (c.openDestination env f).1 = (c2.openDestination env2 f).1 := by
  unfold GDALECWCompressor.openDestination
  by_cases hsub : EQUALN f "J2K_SUBFILE:" 12 = true
  · rw [if_pos hsub, if_pos hsub]
    cases hs : sscanfSubfile f with
    | none => rfl
    | some p =>
      obtain ⟨off, size⟩ := p
      cases hr : realFilename f with
      | none => rfl
      | some real =>
        simp only [hv]
        by_cases hopen : env.VSIFOpenL real = true
        · simp only [if_pos hopen]
          rw [(setFileInfoAndOpen_log env _ f).1, (setFileInfoAndOpen_log env2 _ f).1]
        · simp only [if_neg hopen]
  · rw [if_neg hsub, if_neg hsub]
    rw [(setFileInfoAndOpen_log env _ f).1, (setFileInfoAndOpen_log env2 _ f).1]

/-- The result code of `Initialize` does not depend on what the codec answers
to `SetFileInfo` and to `Open`. -/
theorem Initialize_code_codec (env : Env) (c : GDALECWCompressor) (f : String)
    (opts : List String) (x y n : Int) (t : GDALDataType) (w : Option String)
    (g : GeoTransform) (j : Bool) (sfi : NCSFileViewFileInfoEx → Bool) (op os : String → Bool) :
    (c.Initialize { env with SetFileInfo := sfi, Open := op, OpenStream := os }
        f opts x y n t w g j).map Prod.fst
      = (c.Initialize env f opts x y n t w g j).map Prod.fst := by
  have htc : targetCompression { env with SetFileInfo := sfi, Open := op, OpenStream := os } opts
      = targetCompression env opts := rfl
  have hpd : projectionAndDatum { env with SetFileInfo := sfi, Open := op, OpenStream := os }
      opts w = projectionAndDatum env opts w := rfl
  unfold GDALECWCompressor.Initialize
  rw [htc, hpd]
  by_cases hn : n = 0
  · rw [if_pos hn, if_pos hn]
  · rw [if_neg hn, if_neg hn]
    by_cases ht : (CSLFetchNameValue opts "TARGET").isSome
        ∧ (targetCompression env opts < 1 ∨ targetCompression env opts > 100)
    · rw [if_pos ht, if_pos ht]
    · rw [if_neg ht, if_neg ht]
      cases projectionAndDatum env opts w with
      | none => rfl
      | some pd =>
        simp only [Option.map_some', Option.some.injEq]
        exact openDestination_code_env _ _ _ _ f rfl

/-- C14, the code where the destination cannot be opened.  With a codec whose
`Open` reports an error, `Initialize` on the plain name `out.jp2` calls
`SetFileInfo` and `Open`, gets the error from `Open` and returns `CE_None`;
`Crystalize` on a dataset of that name then marks the dataset crystalized.
The same happens with the `Open` on the stream of a subfile window.  When the
host file of a subfile window cannot be opened, `Initialize` does return
`CE_Failure`, after a `CPLError`. -/
theorem open_failure_not_reported :
    (GDALECWCompressor.new.Initialize Env.unopenable "out.jp2" [] 2 2 1 .GDT_Byte none
        identityGeoTransform false).map
      (fun r => (r.1, r.2.log.map fun e => (e.name, e.ok)))
      = some (CPLErr.CE_None, [("SetFileInfo", true), ("Open", false)])
    ∧ ((ECWWriteDataset.new "out.jp2" 2 2 1 .GDT_Byte [] true).Crystalize Env.unopenable).map
        (fun r => (r.1, r.2.bCrystalized, r.2.oCompressor.log.map fun e => (e.name, e.ok)))
      = some (CPLErr.CE_None, true, [("SetFileInfo", true), ("Open", false)])
    ∧ (GDALECWCompressor.new.Initialize Env.unopenable "J2K_SUBFILE:0,100,host.jp2" [] 2 2 1
        .GDT_Byte none identityGeoTransform false).map
      (fun r => (r.1, r.2.log.map fun e => (e.name, e.ok)))
      = some (CPLErr.CE_None,
          [("VSIFOpenL", true), ("Access", true), ("SetFileInfo", true), ("OpenStream", false)])
    ∧ (GDALECWCompressor.new.Initialize Env.missingHost "J2K_SUBFILE:0,100,host.jp2" [] 2 2 1
        .GDT_Byte none identityGeoTransform false).map
      (fun r => (r.1, r.2.log.map fun e => (e.name, e.ok)))
      = some (CPLErr.CE_Failure, [("VSIFOpenL", false), ("CPLError", true)]) := by
  decide

/-- C15, counterexample.  With a codec whose `SetFileInfo` reports an error,
`Initialize` on the plain name `out.jp2` passes the option checks, calls
`SetFileInfo`, calls no `Open`, and returns `CE_None`. -/
theorem open_skipped_after_failed_SetFileInfo :
    (GDALECWCompressor.new.Initialize Env.rejecting "out.jp2" [] 2 2 1 .GDT_Byte none
        identityGeoTransform false).map
      (fun r => (r.1, r.2.log.map fun e => (e.name, e.ok, e.isOpen)))
      = some (CPLErr.CE_None, [("SetFileInfo", false, false)]) := by
  decide

/-- C15 (as the code has it).  Whenever `Initialize` returns `CE_None` it has
called `SetFileInfo`, and among the calls it made there is an `Open` of the
codec exactly when `SetFileInfo` succeeded: after a failure of `SetFileInfo`
no attempt is made to open the destination. -/
theorem open_only_after_SetFileInfo (env : Env) (c c1 : GDALECWCompressor) (f : String)
    (opts : List String) (x y n : Int) (t : GDALDataType) (w : Option String)
    (g : GeoTransform) (j : Bool)
    (h : c.Initialize env f opts x y n t w g j = some (CPLErr.CE_None, c1)) :
    ∃ evs, c1.log = c.log ++ evs
      ∧ Event.SetFileInfo c1.sFileInfo (env.SetFileInfo c1.sFileInfo) ∈ evs
      ∧ ((∃ e ∈ evs, e.isOpen = true) ↔ env.SetFileInfo c1.sFileInfo = true) := by
  obtain ⟨pd, evs, _, _, _, hlog, _, hmem, hopen⟩ :=
    Initialize_fileInfo env c c1 f opts x y n t w g j h
  refine ⟨configureEvents env opts y g j ++ evs, ?_, List.mem_append_right _ hmem, ?_⟩
  · rw [hlog, List.append_assoc]
  · refine Iff.trans ?_ hopen
    constructor
    · rintro ⟨e, he, ho⟩
      rw [List.mem_append] at he
      rcases he with he | he
      · rw [(configureEvents_noCodec env opts y g j e he).1] at ho
        exact absurd ho (by simp)
      · exact ⟨e, he, ho⟩
    · rintro ⟨e, he, ho⟩
      exact ⟨e, List.mem_append_right _ he, ho⟩

/-- Witness of C15 with a codec whose `SetFileInfo` reports an error:
`Initialize` has called `SetFileInfo` and has made no `Open`. -/
theorem open_only_after_SetFileInfo_witness :
    ∃ c1, GDALECWCompressor.new.Initialize Env.rejecting "out.jp2" [] 2 2 1 .GDT_Byte none
        identityGeoTransform false = some (CPLErr.CE_None, c1)
      ∧ ∃ evs, c1.log = GDALECWCompressor.new.log ++ evs
          ∧ Event.SetFileInfo c1.sFileInfo (Env.rejecting.SetFileInfo c1.sFileInfo) ∈ evs
          ∧ ¬ ∃ e ∈ evs, e.isOpen = true := by
  obtain ⟨c1, h⟩ := exists_of_map_fst
    (GDALECWCompressor.new.Initialize Env.rejecting "out.jp2" [] 2 2 1 .GDT_Byte none
      identityGeoTransform false) CPLErr.CE_None (by decide)
  obtain ⟨evs, hlog, hmem, hiff⟩ := open_only_after_SetFileInfo Env.rejecting
    GDALECWCompressor.new c1 "out.jp2" [] 2 2 1 .GDT_Byte none identityGeoTransform false h
  refine ⟨c1, h, evs, hlog, hmem, ?_⟩
  intro hex
  have := hiff.1 hex
  exact absurd this (by simp [Env.rejecting])

/-! ## Projection and datum resolver -/

/-- The value of `nEPSGCode` for an authority named EPSG (in any case) with
a positive code that fits an `int`. -/
theorem epsgCode_EPSG (code name : String) (hname : EQUAL name "EPSG" = true)
    (hpos : 0 < atoi code) (hint : atoi code < 2147483648) :
    epsgCode (some code) (some name) = (atoi code).toNat
    ∧ epsgCode (some code) (some name) ≠ 0 := by
  have h1 : epsgCode (some code) (some name) = toUINT32 (atoi code) := by
    simp [epsgCode, hname, hpos]
  have h2 : toUINT32 (atoi code) = (atoi code).toNat := by
    unfold toUINT32
    rw [Int.emod_eq_of_lt (by omega) (by omega)]
  rw [h1, h2]
  exact ⟨rfl, by omega⟩

/-- C16. Registry priority.  Take a coordinate system that is not local and
is projected or geographic, whose top-level system (`PROJCS` when it is
projected, `GEOGCS` otherwise) has the authority name EPSG and a positive
code (one that fits an `int`).  When the lookup of that code in the registry
succeeds and gives a projection and a datum, the resolver returns `TRUE` with
exactly that pair, whatever the static table and the heuristics would give. -/
theorem registry_priority (env : Env) (wkt p0 d0 : String) (srs : OGRSpatialReference)
    (code name proj datum : String)
    (hwkt : wkt.length ≠ 0) (hsrs : env.importFromWkt wkt = srs)
    (hlocal : srs.IsLocal = false)
    (htop : (srs.IsProjected = true ∧ srs.GetAuthorityCode "PROJCS" = some code
              ∧ srs.GetAuthorityName "PROJCS" = some name)
          ∨ (srs.IsProjected = false ∧ srs.IsGeographic = true
              ∧ srs.GetAuthorityCode "GEOGCS" = some code
              ∧ srs.GetAuthorityName "GEOGCS" = some name))
    (hname : EQUAL name "EPSG" = true)
    (hpos : 0 < atoi code) (hint : atoi code < 2147483648)
    (hreg : env.GetProjectionAndDatum (atoi code) = (true, some proj, some datum)) :
    ECWTranslateFromWKT env (some wkt) p0 d0 = some (true, proj, datum) := by
  have hauth : topAuthority srs = (some code, some name) := by
    unfold topAuthority
    rcases htop with ⟨hp, hc, hn⟩ | ⟨hp, hg, hc, hn⟩
    · simp [hp, hc, hn]
    · simp [hp, hg, hc, hn]
  have hcode := (epsgCode_EPSG code name hname hpos hint).2
  have hlook : registryLookup env (epsgCode (some code) (some name)) (some code)
      = some (proj, datum) := by
    unfold registryLookup
    rw [if_pos hcode]
    simp only [hreg]
  simp only [ECWTranslateFromWKT, if_neg hwkt, hsrs, hlocal, hauth, hlook, Bool.false_eq_true,
    if_false]

/-- Witness of C16 on EPSG:28355: the registry answers `MGA55` on `GDA94`,
and that is what the resolver returns, although the system is a UTM zone. -/
theorem registry_priority_witness :
    ECWTranslateFromWKT (Env.withSRS mga55 [] mgaRegistry) (some "PROJCS[GDA94 / MGA zone 55]")
      "RAW" "RAW" = some (true, "MGA55", "GDA94") :=
  registry_priority (Env.withSRS mga55 [] mgaRegistry) "PROJCS[GDA94 / MGA zone 55]" "RAW" "RAW"
    mga55 "28355" "EPSG" "MGA55" "GDA94" (by decide) rfl rfl
    (Or.inl ⟨rfl, rfl, rfl⟩) (by decide) (by decide) (by decide) (by decide)

/-- The static-table block leaves the datum as it is when no entry that
begins with `GEOGCS` is found under the name of the geographic system. -/
theorem tableDatum_unchanged (env : Env) (pszGEOGCS : Option String) (pszDatum : String)
    (htab : ∀ g m, pszGEOGCS = some g → CSLFetchNameValue env.ECWGetCSList g = some m →
      EQUALN m "GEOGCS" 6 = false) :
    tableDatum env pszGEOGCS pszDatum = pszDatum := by
  unfold tableDatum
  cases hg : pszGEOGCS with
  | none => rfl
  | some g =>
    cases hm : CSLFetchNameValue env.ECWGetCSList g with
    | none => simp only [hm]
    | some m => simp only [hm, htab g m hg hm, Bool.false_eq_true, if_false]

/-- The range of an `int`. -/
theorem storeInt_range (v : Int) : -2147483648 ≤ storeInt v ∧ storeInt v < 2147483648 := by
  unfold storeInt
  have h1 := Int.emod_nonneg
    (max (-9223372036854775808) (min v 9223372036854775807) + 2147483648)
    (by norm_num : (4294967296 : Int) ≠ 0)
  have h2 := Int.emod_lt_of_pos
    (max (-9223372036854775808) (min v 9223372036854775807) + 2147483648)
    (by norm_num : (0 : Int) < 4294967296)
  constructor <;> omega

/-- The result of `atoi` fits an `int`. -/
theorem atoi_lt (s : String) : atoi s < 2147483648 := by
  unfold atoi
  split
  · exact (storeInt_range _).2
  · norm_num

/-- The authority node the resolver reads for a geographic system that is not
projected is the one of `GEOGCS`. -/
theorem topAuthority_geographic (srs : OGRSpatialReference) (hproj : srs.IsProjected = false)
    (hgeo : srs.IsGeographic = true) :
    topAuthority srs = (srs.GetAuthorityCode "GEOGCS", srs.GetAuthorityName "GEOGCS") := by
  simp [topAuthority, hproj, hgeo]

/-- The registry step finds nothing when the registry has no complete answer
for the authority code. -/
theorem registryLookup_none (env : Env) (nEPSGCode : Nat) (code : Option String)
    (h : ∀ c, code = some c →
      ∀ p d, env.GetProjectionAndDatum (atoi c) ≠ (true, some p, some d)) :
    registryLookup env nEPSGCode code = none := by
  unfold registryLookup
  split
  · cases code with
    | none => rfl
    | some c =>
      simp only
      rcases hr : env.GetProjectionAndDatum (atoi c) with ⟨b, p, d⟩
      cases b with
      | false => rfl
      | true =>
        cases p with
        | none => rfl
        | some p =>
          cases d with
          | none => rfl
          | some d => exact absurd hr (h c rfl p d)
  · rfl

/-- The value of `nEPSGCode` is 0 when the authority is not named EPSG. -/
theorem epsgCode_other (code name : Option String)
    (h : ∀ n, name = some n → EQUAL n "EPSG" = false) : epsgCode code name = 0 := by
  unfold epsgCode
  cases name with
  | none => rfl
  | some n =>
    cases code with
    | none => rfl
    | some c => simp [h n rfl]

/-- The resolver on a geographic system for which the first test of the "well
known" chain holds, in terms of the variable `nEPSGCode` of the source. -/
theorem resolver_wgs84 (env : Env) (wkt p0 d0 : String) (srs : OGRSpatialReference)
    (hwkt : wkt.length ≠ 0) (hsrs : env.importFromWkt wkt = srs)
    (hlocal : srs.IsLocal = false) (hgeo : srs.IsGeographic = true)
    (hreg : registryLookup env (epsgCode (topAuthority srs).1 (topAuthority srs).2)
      (topAuthority srs).1 = none)
    (htab : ∀ g m, srs.GetAttrValue "GEOGCS" = some g →
      CSLFetchNameValue env.ECWGetCSList g = some m → EQUALN m "GEOGCS" 6 = false)
    (hwgs : epsgCode (topAuthority srs).1 (topAuthority srs).2 = 4326
      ∨ ∃ g, srs.GetAttrValue "GEOGCS" = some g
          ∧ ((strstr g "WGS" = true ∧ strstr g "84" = true)
            ∨ ∃ d, srs.GetAttrValue "DATUM" = some d
                ∧ strstr d "WGS" = true ∧ strstr d "84" = true)) :
    ECWTranslateFromWKT env (some wkt) p0 d0 = some (true, "GEODETIC", "WGS84") := by
  have htest : wellKnownTest (epsgCode (topAuthority srs).1 (topAuthority srs).2) 4326
      (srs.GetAttrValue "GEOGCS") (srs.GetAttrValue "DATUM") "WGS" "84" = some true := by
    unfold wellKnownTest
    rcases hwgs with h | ⟨g, hg, h⟩
    · rw [if_pos h]
    · split
      · rfl
      · rw [hg]
        rcases h with ⟨h1, h2⟩ | ⟨d, hd, h1, h2⟩
        · simp [strstrBoth, h1, h2]
        · rw [hd]
          cases hb : (strstr g "WGS" && strstr g "84") <;> simp [strstrBoth, hb, h1, h2]
  have hdatum : wellKnownDatum (epsgCode (topAuthority srs).1 (topAuthority srs).2)
      (srs.GetAttrValue "GEOGCS") (srs.GetAttrValue "DATUM") "RAW" = some "WGS84" := by
    unfold wellKnownDatum
    rw [htest]
  have htable := tableDatum_unchanged env (srs.GetAttrValue "GEOGCS") "RAW" htab
  have hblocks : datumBlocks env (epsgCode (topAuthority srs).1 (topAuthority srs).2)
      (srs.GetAttrValue "GEOGCS") (srs.GetAttrValue "DATUM") "RAW" = some "WGS84" := by
    unfold datumBlocks
    simp only [htable]
    rw [if_pos (by decide), hdatum]
  simp only [ECWTranslateFromWKT, if_neg hwkt, hsrs, hlocal, hreg, strcpy, hblocks, hgeo,
    Bool.false_eq_true, if_false, if_true]

/-- C17. WGS84 geographic.  Take a coordinate system that is not local and is
geographic (and so not projected), for which the registry has no complete
answer under the authority code of its `GEOGCS` node, and with no entry that
begins with `GEOGCS` in the static table under the name of its geographic
system.  If the authority of its `GEOGCS` node is named EPSG and its code
reads 4326, or the name of its geographic system contains both `WGS` and `84`,
or the name of its datum does, the resolver returns `TRUE` with the
projection `GEODETIC` and the datum `WGS84`. -/
theorem wgs84_geographic (env : Env) (wkt p0 d0 : String) (srs : OGRSpatialReference)
    (hwkt : wkt.length ≠ 0) (hsrs : env.importFromWkt wkt = srs)
    (hlocal : srs.IsLocal = false) (hproj : srs.IsProjected = false)
    (hgeo : srs.IsGeographic = true)
    (hreg : ∀ code, srs.GetAuthorityCode "GEOGCS" = some code →
      ∀ p d, env.GetProjectionAndDatum (atoi code) ≠ (true, some p, some d))
    (htab : ∀ g m, srs.GetAttrValue "GEOGCS" = some g →
      CSLFetchNameValue env.ECWGetCSList g = some m → EQUALN m "GEOGCS" 6 = false)
    (hwgs : (∃ code name, srs.GetAuthorityCode "GEOGCS" = some code
              ∧ srs.GetAuthorityName "GEOGCS" = some name
              ∧ EQUAL name "EPSG" = true ∧ atoi code = 4326)
      ∨ ∃ g, srs.GetAttrValue "GEOGCS" = some g
          ∧ ((strstr g "WGS" = true ∧ strstr g "84" = true)
            ∨ ∃ d, srs.GetAttrValue "DATUM" = some d
                ∧ strstr d "WGS" = true ∧ strstr d "84" = true)) :
    ECWTranslateFromWKT env (some wkt) p0 d0 = some (true, "GEODETIC", "WGS84") := by
  have htop := topAuthority_geographic srs hproj hgeo
  apply resolver_wgs84 env wkt p0 d0 srs hwkt hsrs hlocal hgeo
  · rw [htop]
    exact registryLookup_none env _ _ hreg
  · exact htab
  · rcases hwgs with ⟨code, name, hc, hn, hE, h4326⟩ | h
    · left
      rw [htop, hc, hn]
      have h := (epsgCode_EPSG code name hE (by rw [h4326]; norm_num) (atoi_lt code)).1
      rw [h, h4326]
      rfl
    · exact Or.inr h

/-- Witness of C17, on a geographic system named `WGS 84` without authority
node, and on the geographic system EPSG:4326 under the name `World`; the
static table and the registry are empty. -/
theorem wgs84_geographic_witness :
    ECWTranslateFromWKT (Env.withSRS wgs84Geographic [] emptyRegistry)
      (some "GEOGCS[WGS 84]") "RAW" "RAW" = some (true, "GEODETIC", "WGS84")
    ∧ ECWTranslateFromWKT (Env.withSRS worldGeographic [] emptyRegistry)
      (some "GEOGCS[World]") "RAW" "RAW" = some (true, "GEODETIC", "WGS84") :=
  ⟨wgs84_geographic (Env.withSRS wgs84Geographic [] emptyRegistry) "GEOGCS[WGS 84]" "RAW" "RAW"
    wgs84Geographic (by decide) rfl rfl rfl rfl
    (fun code _ p d h => absurd h (by simp [Env.withSRS, emptyRegistry]))
    (fun g m _ h => absurd h (by simp [Env.withSRS, CSLFetchNameValue]))
    (Or.inr ⟨"WGS 84", by decide, Or.inl ⟨by decide, by decide⟩⟩),
   wgs84_geographic (Env.withSRS worldGeographic [] emptyRegistry) "GEOGCS[World]" "RAW" "RAW"
    worldGeographic (by decide) rfl rfl rfl rfl
    (fun code _ p d h => absurd h (by simp [Env.withSRS, emptyRegistry]))
    (fun g m _ h => absurd h (by simp [Env.withSRS, CSLFetchNameValue]))
    (Or.inl ⟨"4326", "EPSG", by decide, by decide, by decide, by decide⟩)⟩

/-- The "well known" block returns when the names of the geographic system
and of the datum are both there. -/
theorem wellKnownDatum_names (nEPSGCode : Nat) (g d pszDatum : String) :
    ∃ r, wellKnownDatum nEPSGCode (some g) (some d) pszDatum = some r := by
  have htest : ∀ code a b, ∃ v,
      wellKnownTest nEPSGCode code (some g) (some d) a b = some v := by
    intro code a b
    unfold wellKnownTest strstrBoth
    split
    · exact ⟨true, rfl⟩
    · cases hb : (strstr g a && strstr g b)
      · exact ⟨strstr d a && strstr d b, by simp only [hb]⟩
      · exact ⟨true, by simp only [hb]⟩
  unfold wellKnownDatum
  obtain ⟨v1, h1⟩ := htest 4326 "WGS" "84"
  obtain ⟨v2, h2⟩ := htest 4322 "WGS" "72"
  obtain ⟨v3, h3⟩ := htest 4267 "NAD" "27"
  obtain ⟨v4, h4⟩ := htest 4269 "NAD" "83"
  rw [h1, h2, h3, h4]
  cases v1
  · cases v2
    · cases v3
      · cases v4
        · exact ⟨_, rfl⟩
        · exact ⟨_, rfl⟩
      · exact ⟨_, rfl⟩
    · exact ⟨_, rfl⟩
  · exact ⟨_, rfl⟩

/-- The conversion `%02d` of a number below 100: its two decimal digits. -/
theorem fmt02D_digits : ∀ z : Nat, z < 100 →
    (fmt02D z).data = [Char.ofNat (48 + z / 10), Char.ofNat (48 + z % 10)] := by
  decide

/-- The two datum blocks return when the names of the geographic system and
of the datum are both there. -/
theorem datumBlocks_names (env : Env) (nEPSGCode : Nat) (g d pszDatum : String) :
    ∃ r, datumBlocks env nEPSGCode (some g) (some d) pszDatum = some r := by
  unfold datumBlocks
  simp only
  split
  · exact wellKnownDatum_names nEPSGCode g d _
  · exact ⟨_, rfl⟩

/-- What the resolver returns for a system that is not local and not
geographic, with no registry hit and a positive UTM zone: the UTM code and
the datum of the datum blocks, when these return. -/
theorem ECWTranslateFromWKT_utm (env : Env) (wkt p0 d0 : String) (srs : OGRSpatialReference)
    (hwkt : wkt.length ≠ 0) (hsrs : env.importFromWkt wkt = srs)
    (hlocal : srs.IsLocal = false) (hgeo : srs.IsGeographic = false)
    (hreg : registryLookup env (epsgCode (topAuthority srs).1 (topAuthority srs).2)
      (topAuthority srs).1 = none)
    (hz : 0 < srs.GetUTMZone.1) :
    ECWTranslateFromWKT env (some wkt) p0 d0
      = (datumBlocks env (epsgCode (topAuthority srs).1 (topAuthority srs).2)
          (srs.GetAttrValue "GEOGCS") (srs.GetAttrValue "DATUM") "RAW").map fun pszDatum =>
          (true, (if srs.GetUTMZone.2 = true then "N" else "S") ++ "UTM"
            ++ fmt02D srs.GetUTMZone.1.toNat, pszDatum) := by
  have hz2 : srs.GetUTMZone.1 > 0 := hz
  simp only [ECWTranslateFromWKT, if_neg hwkt, hsrs, hlocal, hreg, strcpy, hgeo, hz2,
    Bool.false_eq_true, if_false, if_true]
  cases datumBlocks env (epsgCode (topAuthority srs).1 (topAuthority srs).2)
      (srs.GetAttrValue "GEOGCS") (srs.GetAttrValue "DATUM") "RAW" with
  | none => rfl
  | some pszDatum =>
    simp only [Option.map_some']
    cases srs.GetUTMZone.2
    · simp only [Bool.false_eq_true, if_false]
      rfl
    · simp only [if_true]
      rfl

/-- C18. UTM synthesis.  Take a coordinate system that is not local and is
projected (not geographic), with no registry hit, for which the UTM detection
reports a zone `z` with `1 ≤ z ≤ 60`.  When the names of its geographic system
and of its datum are there (the datum blocks, which come first, hand them to
`strstr`), the resolver returns `TRUE` with the projection made of the
hemisphere letter, `N` for north and `S` for south, then `UTM`, then `z` as
two decimal digits with a leading zero; whenever the resolver returns at all,
that is what it returns.  The projection has 6 characters. -/
theorem utm_synthesis (env : Env) (wkt p0 d0 : String) (srs : OGRSpatialReference)
    (hwkt : wkt.length ≠ 0) (hsrs : env.importFromWkt wkt = srs)
    (hlocal : srs.IsLocal = false) (hgeo : srs.IsGeographic = false)
    (hreg : registryLookup env (epsgCode (topAuthority srs).1 (topAuthority srs).2)
      (topAuthority srs).1 = none)
    (hz1 : 1 ≤ srs.GetUTMZone.1) (hz2 : srs.GetUTMZone.1 ≤ 60) :
    (∀ g d, srs.GetAttrValue "GEOGCS" = some g → srs.GetAttrValue "DATUM" = some d →
      ∃ datum, ECWTranslateFromWKT env (some wkt) p0 d0
        = some (true, (if srs.GetUTMZone.2 = true then "N" else "S") ++ "UTM"
            ++ fmt02D srs.GetUTMZone.1.toNat, datum))
    ∧ (∀ r, ECWTranslateFromWKT env (some wkt) p0 d0 = some r →
        r.1 = true
        ∧ r.2.1 = (if srs.GetUTMZone.2 = true then "N" else "S") ++ "UTM"
            ++ fmt02D srs.GetUTMZone.1.toNat)
    ∧ (fmt02D srs.GetUTMZone.1.toNat).data
        = [Char.ofNat (48 + srs.GetUTMZone.1.toNat / 10),
           Char.ofNat (48 + srs.GetUTMZone.1.toNat % 10)]
    ∧ ((if srs.GetUTMZone.2 = true then "N" else "S") ++ "UTM"
        ++ fmt02D srs.GetUTMZone.1.toNat).length = 6 := by
  have hres := ECWTranslateFromWKT_utm env wkt p0 d0 srs hwkt hsrs hlocal hgeo hreg (by omega)
  have hdig := fmt02D_digits srs.GetUTMZone.1.toNat (by omega)
  refine ⟨?_, ?_, hdig, ?_⟩
  · intro g d hg hd
    obtain ⟨datum, hdatum⟩ := datumBlocks_names env
      (epsgCode (topAuthority srs).1 (topAuthority srs).2) g d "RAW"
    rw [hres, hg, hd, hdatum]
    exact ⟨datum, rfl⟩
  · intro r hr
    rw [hres] at hr
    cases hb : datumBlocks env (epsgCode (topAuthority srs).1 (topAuthority srs).2)
        (srs.GetAttrValue "GEOGCS") (srs.GetAttrValue "DATUM") "RAW" with
    | none =>
      rw [hb] at hr
      exact absurd hr (by simp)
    | some pszDatum =>
      rw [hb] at hr
      simp only [Option.map_some', Option.some.injEq] at hr
      rw [← hr]
      exact ⟨rfl, rfl⟩
  · have hlen : (fmt02D srs.GetUTMZone.1.toNat).length = 2 := by
      show (fmt02D srs.GetUTMZone.1.toNat).data.length = 2
      rw [hdig]
      rfl
    rw [String.length_append, String.length_append, hlen]
    cases srs.GetUTMZone.2 <;> rfl

/-- Witness of C18 on UTM zone 33 north over `WGS 84`: the projection is
`NUTM33`. -/
theorem utm_synthesis_witness :
    (∃ datum, ECWTranslateFromWKT (Env.withSRS utm33North [] emptyRegistry)
        (some "PROJCS[UTM 33N]") "RAW" "RAW" = some (true, "NUTM33", datum))
    ∧ ("NUTM33" : String).length = 6 :=
  ⟨(utm_synthesis (Env.withSRS utm33North [] emptyRegistry) "PROJCS[UTM 33N]" "RAW"
      "RAW" utm33North (by decide) rfl rfl rfl (by decide) (by decide) (by decide)).1
      "WGS 84" "WGS_1984" (by decide) (by decide),
   (utm_synthesis (Env.withSRS utm33North [] emptyRegistry) "PROJCS[UTM 33N]" "RAW"
      "RAW" utm33North (by decide) rfl rfl rfl (by decide) (by decide) (by decide)).2.2.2⟩

/-- C19, the code on a projected system that is not UTM.  The system is named
`NZMG`, on the geographic system `NZGD49`.  With a static table whose only
entry is under `NZMG` and begins with `PROJCS`, the resolver returns `FALSE`
and the projection `RAW`: it has looked up `NZGD49`.  With a static table
whose only entry is under `NZGD49` and begins with `PROJCS`, and none under
`NZMG`, the resolver returns `TRUE` with the projection `NZMG`. -/
theorem projected_lookup_by_geographic_name :
    nzmg.GetAttrValue "PROJCS" = some "NZMG"
    ∧ nzmg.GetAttrValue "GEOGCS" = some "NZGD49"
    ∧ CSLFetchNameValue ["NZMG=PROJCS[NZMG,GEOGCS[NZGD49]]"] "NZMG"
        = some "PROJCS[NZMG,GEOGCS[NZGD49]]"
    ∧ EQUALN "PROJCS[NZMG,GEOGCS[NZGD49]]" "PROJCS" 6 = true
    ∧ ECWTranslateFromWKT (Env.withSRS nzmg ["NZMG=PROJCS[NZMG,GEOGCS[NZGD49]]"] emptyRegistry)
        (some "PROJCS[NZMG,GEOGCS[NZGD49]]") "RAW" "RAW" = some (false, "RAW", "RAW")
    ∧ CSLFetchNameValue ["NZGD49=PROJCS[NZMG,GEOGCS[NZGD49]]"] "NZMG" = none
    ∧ ECWTranslateFromWKT
        (Env.withSRS nzmg ["NZGD49=PROJCS[NZMG,GEOGCS[NZGD49]]"] emptyRegistry)
        (some "PROJCS[NZMG,GEOGCS[NZGD49]]") "RAW" "RAW" = some (true, "NZMG", "RAW") := by
  decide

/-- C20. Empty input.  When the text of the coordinate system is absent or
empty, the resolver returns `FALSE` and leaves `RAW` in both output buffers,
whatever they held before the call and whatever the parser, the registry and
the static table of the environment would answer. -/
theorem empty_wkt_is_raw (env : Env) (w : Option String) (p0 d0 : String)
    (h : w = none ∨ ∃ s, w = some s ∧ s.length = 0) :
    ECWTranslateFromWKT env w p0 d0 = some (false, "RAW", "RAW")
    ∧ ∀ (env2 : Env) (p1 d1 : String),
        ECWTranslateFromWKT env2 w p1 d1 = ECWTranslateFromWKT env w p0 d0 := by
  have hall : ∀ (e : Env) (p d : String),
      ECWTranslateFromWKT e w p d = some (false, "RAW", "RAW") := by
    intro e p d
    rcases h with h | ⟨s, h, hs⟩
    · rw [h]
      rfl
    · rw [h]
      simp only [ECWTranslateFromWKT, hs, if_true, strcpy]
  exact ⟨hall env p0 d0, fun env2 p1 d1 => by rw [hall env2 p1 d1, hall env p0 d0]⟩

/-- Witness of C20 on the empty text, with buffers that hold `GEODETIC` and
`NAD27` before the call and a parser that would answer a geographic system. -/
theorem empty_wkt_is_raw_witness :
    ECWTranslateFromWKT (Env.withSRS wgs84Geographic [] emptyRegistry) (some "")
      "GEODETIC" "NAD27" = some (false, "RAW", "RAW") :=
  (empty_wkt_is_raw (Env.withSRS wgs84Geographic [] emptyRegistry) (some "")
    "GEODETIC" "NAD27" (Or.inr ⟨"", rfl, rfl⟩)).1

/-- The datum blocks on a system that names no geographic system and has no
authority code: the first test of the "well known" chain hands the `NULL`
name to `strstr`, before the UTM test is reached. -/
theorem resolver_without_names :
    ECWTranslateFromWKT (Env.withSRS utm33Bare [] emptyRegistry) (some "PROJCS[UTM 33]")
      "RAW" "RAW" = none := by
  decide

/-! ## Projection and datum options -/

/-- A text shorter than the array is copied whole. -/
theorem strcpyArray_fits (size : Nat) (src : String) (h : src.length < size) :
    strcpyArray size src = some src := by
  simp [strcpyArray, h]

/-- A text that does not leave room for the terminator runs past the end of
the array. -/
theorem strcpyArray_overflow (size : Nat) (src : String) (h : size ≤ src.length) :
    strcpyArray size src = none := by
  simp [strcpyArray, not_lt.mpr h]

/-- The projection and datum strings after the option block of `Initialize`
when `DATUM` is supplied and the option values fit their arrays. -/
theorem optionProjectionAndDatum_datum (opts : List String) (vd : String)
    (hd : CSLFetchNameValue opts "DATUM" = some vd) (hlen : vd.length < 128)
    (hplen : ∀ vp, CSLFetchNameValue opts "PROJ" = some vp → vp.length < 128) :
    optionProjectionAndDatum opts
      = some (if EQUAL ((CSLFetchNameValue opts "PROJ").getD "RAW") "RAW" = true then "GEODETIC"
              else (CSLFetchNameValue opts "PROJ").getD "RAW", vd) := by
  unfold optionProjectionAndDatum
  cases hp : CSLFetchNameValue opts "PROJ" with
  | none =>
    have hR : strcpyArray 128 "RAW" = some "RAW" := by decide
    simp only [hR, hd, strcpyArray_fits 128 vd hlen, Option.getD_none]
  | some vp =>
    simp only [strcpyArray_fits 128 vp (hplen vp hp), hd, strcpyArray_fits 128 vd hlen,
      Option.getD_some]

/-- The projection and datum strings of `Initialize` when `DATUM` is supplied
and the option values fit their arrays. -/
theorem projectionAndDatum_datum (env : Env) (opts : List String) (w : Option String)
    (vd : String) (hd : CSLFetchNameValue opts "DATUM" = some vd) (hlen : vd.length < 128)
    (hplen : ∀ vp, CSLFetchNameValue opts "PROJ" = some vp → vp.length < 128) :
    projectionAndDatum env opts w
      = some (if EQUAL ((CSLFetchNameValue opts "PROJ").getD "RAW") "RAW" = true then "GEODETIC"
              else (CSLFetchNameValue opts "PROJ").getD "RAW", vd) := by
  have hG : EQUAL "GEODETIC" "RAW" = false := by decide
  unfold projectionAndDatum
  rw [optionProjectionAndDatum_datum opts vd hd hlen hplen]
  simp only
  cases hE : EQUAL ((CSLFetchNameValue opts "PROJ").getD "RAW") "RAW"
  · simp [hE]
  · simp [hG]

/-- An option value of 128 or more characters runs past the end of its array:
the projection block has no defined result. -/
theorem projectionAndDatum_overflow (env : Env) (opts : List String) (w : Option String) :
    (∀ vd, CSLFetchNameValue opts "DATUM" = some vd → 128 ≤ vd.length →
      projectionAndDatum env opts w = none)
    ∧ (∀ vp, CSLFetchNameValue opts "PROJ" = some vp → 128 ≤ vp.length →
      projectionAndDatum env opts w = none) := by
  constructor
  · intro vd hd hlen
    unfold projectionAndDatum optionProjectionAndDatum
    cases hp : CSLFetchNameValue opts "PROJ" with
    | none =>
      have hR : strcpyArray 128 "RAW" = some "RAW" := by decide
      simp only [hR, hd, strcpyArray_overflow 128 vd hlen]
    | some vp =>
      by_cases hl : vp.length < 128
      · simp only [strcpyArray_fits 128 vp hl, hd, strcpyArray_overflow 128 vd hlen]
      · simp only [strcpyArray_overflow 128 vp (not_lt.mp hl)]
  · intro vp hp hlen
    unfold projectionAndDatum optionProjectionAndDatum
    simp only [hp, strcpyArray_overflow 128 vp hlen]

/-- C21. Explicit DATUM override.  The option values are copied into arrays of
128 characters, so take values of fewer than 128 characters.  When the
options supply `DATUM`, the datum string of `Initialize` is exactly its value,
and the projection string is the value of `PROJ` when `PROJ` is supplied and
is not `RAW` (compared without regard to case), `GEODETIC` otherwise.  The
resolver is not consulted: the pair is the same for every coordinate system
text and every answer of the spatial-reference library, the registry and the
static table.  After a successful `Initialize` these are the strings of the
file description handed to `SetFileInfo`. -/
theorem datum_override (env : Env) (opts : List String) (w : Option String) (vd : String)
    (hd : CSLFetchNameValue opts "DATUM" = some vd) (hlen : vd.length < 128)
    (hplen : ∀ vp, CSLFetchNameValue opts "PROJ" = some vp → vp.length < 128) :
    ∃ proj, projectionAndDatum env opts w = some (proj, vd)
      ∧ (∀ vp, CSLFetchNameValue opts "PROJ" = some vp → EQUAL vp "RAW" = false → proj = vp)
      ∧ (∀ vp, CSLFetchNameValue opts "PROJ" = some vp → EQUAL vp "RAW" = true →
          proj = "GEODETIC")
      ∧ (CSLFetchNameValue opts "PROJ" = none → proj = "GEODETIC")
      ∧ (∀ (env2 : Env) (w2 : Option String), projectionAndDatum env2 opts w2 = some (proj, vd))
      ∧ ∀ (c c1 : GDALECWCompressor) (f : String) (x y n : Int) (t : GDALDataType)
          (g : GeoTransform) (j : Bool),
          c.Initialize env f opts x y n t w g j = some (CPLErr.CE_None, c1) →
          c1.sFileInfo.szDatum = vd ∧ c1.sFileInfo.szProjection = proj
          ∧ Event.SetFileInfo c1.sFileInfo (env.SetFileInfo c1.sFileInfo) ∈ c1.log := by
  refine ⟨_, projectionAndDatum_datum env opts w vd hd hlen hplen, ?_, ?_, ?_, ?_, ?_⟩
  · intro vp hp hE
    simp [hp, hE]
  · intro vp hp hE
    simp [hp, hE]
  · intro hp
    have hR : EQUAL "RAW" "RAW" = true := by decide
    simp [hp, hR]
  · intro env2 w2
    exact projectionAndDatum_datum env2 opts w2 vd hd hlen hplen
  · intro c c1 f x y n t g j h
    obtain ⟨pd, evs, hpd, hinfo, _, hlog, _, hmem, _⟩ :=
      Initialize_fileInfo env c c1 f opts x y n t w g j h
    rw [projectionAndDatum_datum env opts w vd hd hlen hplen] at hpd
    simp only [Option.some.injEq] at hpd
    refine ⟨?_, ?_, ?_⟩
    · rw [hinfo, ← hpd]
      rfl
    · rw [hinfo, ← hpd]
      rfl
    · rw [hlog]
      exact List.mem_append_right _ hmem

/-- Witness of C21 with the options `DATUM=NAD27` and `PROJ=raw` on a text
that the library reads as the geographic system `WGS 84`: the strings are
`GEODETIC` and `NAD27`. -/
theorem datum_override_witness :
    projectionAndDatum (Env.withSRS wgs84Geographic [] emptyRegistry) ["DATUM=NAD27", "PROJ=raw"]
      (some "GEOGCS[WGS 84]") = some ("GEODETIC", "NAD27") := by
  obtain ⟨proj, h1, _, h3, _⟩ := datum_override (Env.withSRS wgs84Geographic [] emptyRegistry)
    ["DATUM=NAD27", "PROJ=raw"] (some "GEOGCS[WGS 84]") "NAD27" (by decide) (by decide)
    (by decide)
  rw [h1, h3 "raw" (by decide) (by decide)]

/-- C22, counterexample.  With the option `PROJ=RAW`, a text that the library
reads as the geographic system `WGS 84`, and no `DATUM` option, `Initialize`
consults the resolver and hands the codec the projection `GEODETIC` (with the
datum `WGS84`), not the value of `PROJ`; with `PROJ=raw` and `DATUM=NAD27` it
hands the codec `GEODETIC` as well. -/
theorem raw_proj_is_resolved :
    CSLFetchNameValue ["PROJ=RAW"] "PROJ" = some "RAW"
    ∧ (GDALECWCompressor.new.Initialize (Env.withSRS wgs84Geographic [] emptyRegistry) "out.jp2"
        ["PROJ=RAW"] 2 2 1 .GDT_Byte (some "GEOGCS[WGS 84]") identityGeoTransform false).map
      (fun r => (r.1, (fileInfos r.2.log).map fun i => (i.szProjection, i.szDatum)))
      = some (CPLErr.CE_None, [("GEODETIC", "WGS84")])
    ∧ (GDALECWCompressor.new.Initialize (Env.withSRS wgs84Geographic [] emptyRegistry) "out.jp2"
        ["PROJ=raw", "DATUM=NAD27"] 2 2 1 .GDT_Byte (some "GEOGCS[WGS 84]") identityGeoTransform
        false).map
      (fun r => (r.1, (fileInfos r.2.log).map fun i => (i.szProjection, i.szDatum)))
      = some (CPLErr.CE_None, [("GEODETIC", "NAD27")]) := by
  decide

/-- C22 (as the code has it).  The option values are copied into arrays of
128 characters, so take values of fewer than 128 characters.  When the
options supply `PROJ` with a value other than `RAW` (compared without regard
to case), the projection string of `Initialize` is exactly that value and the
datum string is the value of `DATUM`, or `RAW` without that option; the
coordinate system text is not resolved: the pair is the same for every text
and every answer of the spatial-reference library, the registry and the
static table.  After a successful `Initialize` the projection of the file
description handed to `SetFileInfo` is the value of `PROJ`.  A value of `PROJ`
equal to `RAW` counts as no override: with `DATUM` the projection is
`GEODETIC`, without `DATUM` and with a text the pair is the one of the
resolver (when its two results fit the arrays), and without both the strings
are the value of `PROJ` and `RAW`. -/
theorem proj_override (env : Env) (opts : List String) (w : Option String) (vp : String)
    (hp : CSLFetchNameValue opts "PROJ" = some vp) (hlen : vp.length < 128)
    (hdlen : ∀ vd, CSLFetchNameValue opts "DATUM" = some vd → vd.length < 128) :
    (EQUAL vp "RAW" = false →
      projectionAndDatum env opts w = some (vp, (CSLFetchNameValue opts "DATUM").getD "RAW")
      ∧ (∀ (env2 : Env) (w2 : Option String),
          projectionAndDatum env2 opts w2 = projectionAndDatum env opts w)
      ∧ ∀ (c c1 : GDALECWCompressor) (f : String) (x y n : Int) (t : GDALDataType)
          (g : GeoTransform) (j : Bool),
          c.Initialize env f opts x y n t w g j = some (CPLErr.CE_None, c1) →
          c1.sFileInfo.szProjection = vp
          ∧ Event.SetFileInfo c1.sFileInfo (env.SetFileInfo c1.sFileInfo) ∈ c1.log)
    ∧ (EQUAL vp "RAW" = true →
      (∀ vd, CSLFetchNameValue opts "DATUM" = some vd →
        projectionAndDatum env opts w = some ("GEODETIC", vd))
      ∧ (CSLFetchNameValue opts "DATUM" = none → w = none →
        projectionAndDatum env opts w = some (vp, "RAW"))
      ∧ (∀ wkt r, CSLFetchNameValue opts "DATUM" = none → w = some wkt →
        ECWTranslateFromWKT env (some wkt) vp "RAW" = some r →
        r.2.1.length < 128 → r.2.2.length < 128 →
        projectionAndDatum env opts w = some (r.2.1, r.2.2))) := by
  have hopt : optionProjectionAndDatum opts
      = some (match CSLFetchNameValue opts "DATUM" with
              | some vd => (if EQUAL vp "RAW" = true then "GEODETIC" else vp, vd)
              | none => (vp, "RAW")) := by
    unfold optionProjectionAndDatum
    cases hd : CSLFetchNameValue opts "DATUM" with
    | none => simp only [hp, strcpyArray_fits 128 vp hlen]
    | some vd => simp only [hp, strcpyArray_fits 128 vp hlen, strcpyArray_fits 128 vd (hdlen vd hd)]
  constructor
  · intro hE
    have hall : ∀ (e : Env) (v : Option String),
        projectionAndDatum e opts v = some (vp, (CSLFetchNameValue opts "DATUM").getD "RAW") := by
      intro e v
      unfold projectionAndDatum
      rw [hopt]
      cases hd : CSLFetchNameValue opts "DATUM" <;> simp [hE]
    refine ⟨hall env w, fun env2 w2 => by rw [hall env2 w2, hall env w], ?_⟩
    intro c c1 f x y n t g j h
    obtain ⟨pd, evs, hpd, hinfo, _, hlog, _, hmem, _⟩ :=
      Initialize_fileInfo env c c1 f opts x y n t w g j h
    rw [hall env w] at hpd
    simp only [Option.some.injEq] at hpd
    refine ⟨?_, ?_⟩
    · rw [hinfo, ← hpd]
      rfl
    · rw [hlog]
      exact List.mem_append_right _ hmem
  · intro hE
    refine ⟨?_, ?_, ?_⟩
    · intro vd hd
      rw [projectionAndDatum_datum env opts w vd hd (hdlen vd hd)
        (fun vp2 hp2 => by rw [hp] at hp2; cases hp2; exact hlen)]
      simp [hp, hE]
    · intro hd hw
      unfold projectionAndDatum
      rw [hopt]
      simp [hd, hw]
    · intro wkt r hd hw hr h1 h2
      unfold projectionAndDatum
      rw [hopt]
      simp only [hd, hw, hE, Option.isSome_some, Bool.and_self, if_true, hr,
        strcpyArray_fits 128 _ h1, strcpyArray_fits 128 _ h2]

/-- Witness of C22 with the option `PROJ=NUTM11` on a text that the library
reads as the geographic system `WGS 84`: the strings are `NUTM11` and
`RAW`. -/
theorem proj_override_witness :
    projectionAndDatum (Env.withSRS wgs84Geographic [] emptyRegistry) ["PROJ=NUTM11"]
      (some "GEOGCS[WGS 84]") = some ("NUTM11", "RAW") :=
  ((proj_override (Env.withSRS wgs84Geographic [] emptyRegistry) ["PROJ=NUTM11"]
    (some "GEOGCS[WGS 84]") "NUTM11" (by decide) (by decide)
    (fun vd h => by
      have hnone : CSLFetchNameValue ["PROJ=NUTM11"] "DATUM" = none := by decide
      rw [hnone] at h
      exact absurd h (by simp))).1 (by decide)).1

/-! ## The copy-mode entry points -/

/-- The dataset `ECWCreateCopy` returns once `Initialize` has succeeded is
what `GDALOpen` gives on the destination: the result of `Write` plays no
part. -/
theorem compress_result (env : Env) (f : String) (c : GDALECWCompressor) :
    (ECWCreateCopy.compress env f c).map Prod.fst
      = (c.Write env).map fun _ => if env.GDALOpen f = true then some f else none := by
  unfold ECWCreateCopy.compress
  cases c.Write env with
  | none => rfl
  | some r => rfl

/-- `ECWCreateCopy` on a source with a first band, when the first progress
call does not cancel: `Initialize` on the values of the source, then the
compression when it succeeded. -/
theorem ECWCreateCopy_initialize (env : Env) (f : String) (src : GDALDataset) (strict : Bool)
    (opts : List String) (j : Bool) (eType : GDALDataType)
    (hb : src.papoBands.head? = some eType) (hp : env.pfnProgress (some 0) = true) :
    ECWCreateCopy env f src strict opts j
      = ((ECWCreateCopy.setup env src).Initialize env f opts src.nRasterXSize src.nRasterYSize
          (src.papoBands.length : Int) eType src.GetProjectionRef src.adfGeoTransform j).bind
        fun r => if r.1 ≠ CPLErr.CE_None then some (none, r.2.log)
          else ECWCreateCopy.compress env f r.2 := by
  unfold ECWCreateCopy
  simp only [hb, hp, Bool.not_true, Bool.false_eq_true, if_false]
  cases (ECWCreateCopy.setup env src).Initialize env f opts src.nRasterXSize src.nRasterYSize
      (src.papoBands.length : Int) eType src.GetProjectionRef src.adfGeoTransform j with
  | none => rfl
  | some r => rfl

/-- C23, the code when a read of the source fails.  The source has 2 x 2
pixels and one band of type Byte, and its `RasterIO` fails.  `WriteReadLine`
on line 0 returns `NCS_FILE_IO_ERROR` and the pull loop of the codec stops
with that error after this one read; `ECWCreateCopyJPEG2000` goes on with
`CloseDown` and the last progress call, opens the destination with `GDALOpen`
and returns the dataset it gets. -/
theorem read_failure_not_reported :
    (((ECWCreateCopy.setup Env.unreadable smallSource).Initialize Env.unreadable "out.jp2" [] 2 2
        1 .GDT_Byte none identityGeoTransform true).bind fun r =>
      (r.2.WriteReadLine Env.unreadable 0).map Prod.fst) = some CNCSError.NCS_FILE_IO_ERROR
    ∧ (((ECWCreateCopy.setup Env.unreadable smallSource).Initialize Env.unreadable "out.jp2" [] 2 2
        1 .GDT_Byte none identityGeoTransform true).bind fun r =>
      (r.2.Write Env.unreadable).map Prod.fst) = some CNCSError.NCS_FILE_IO_ERROR
    ∧ (ECWCreateCopyJPEG2000 Env.unreadable "out.jp2" smallSource true []).map
        (fun r => (r.1, r.2.map fun e => (e.name, e.ok)))
      = some (some "out.jp2",
          [("pfnProgress", true), ("SetFileInfo", true), ("Open", true), ("RasterIO", false),
           ("Close", true), ("pfnProgress", true), ("GDALOpen", true)]) := by
  decide

/-- C24. The sample-type whitelist is enforced exactly under strict
validation.  For a source with a first band of type `eType` and a destination
name that passes the extension check: with `bStrict` the ECW entry point
rejects every type but Byte, and the JPEG2000 entry point rejects every type
outside Byte, Int16, UInt16, Int32, UInt32, Float32 and Float64, each with
its own error report; a type of the list is not rejected.  Without `bStrict`
no type is rejected: the JPEG2000 entry point goes on to `ECWCreateCopy`, and
so does the ECW entry point unless the source is smaller than 128 x 128,
which it reports as such.  `ECWCreateCopy` then calls `Initialize` with that
type, unless the first progress call cancels. -/
theorem type_whitelist_when_strict (env : Env) (f : String) (src : GDALDataset)
    (opts : List String) (eType : GDALDataType) (hb : src.papoBands.head? = some eType) :
    (EQUAL (CPLGetExtension f) "ecw" = true →
      (eType ≠ .GDT_Byte →
        ECWCreateCopyECW env f src true opts
          = some (none, [Event.CPLError .CE_Failure .CPLE_NotSupported
              "ECW driver doesn't support data type %s. "]))
      ∧ (eType = .GDT_Byte → 128 ≤ src.nRasterXSize → 128 ≤ src.nRasterYSize →
        ECWCreateCopyECW env f src true opts = ECWCreateCopy env f src true opts false)
      ∧ ECWCreateCopyECW env f src false opts
          = if src.nRasterXSize < 128 ∨ src.nRasterYSize < 128 then
              some (none, [Event.CPLError .CE_Failure .CPLE_NotSupported
                "ECW driver requires image to be at least 128x128,"])
            else ECWCreateCopy env f src false opts false)
    ∧ (EQUAL (CPLGetExtension f) "ecw" = false →
      (eType ∉ [GDALDataType.GDT_Byte, .GDT_Int16, .GDT_UInt16, .GDT_Int32, .GDT_UInt32,
                .GDT_Float32, .GDT_Float64] →
        ECWCreateCopyJPEG2000 env f src true opts
          = some (none, [Event.CPLError .CE_Failure .CPLE_NotSupported
              "JP2ECW driver doesn't support data type %s. "]))
      ∧ (eType ∈ [GDALDataType.GDT_Byte, .GDT_Int16, .GDT_UInt16, .GDT_Int32, .GDT_UInt32,
                .GDT_Float32, .GDT_Float64] →
        ECWCreateCopyJPEG2000 env f src true opts = ECWCreateCopy env f src true opts true)
      ∧ ECWCreateCopyJPEG2000 env f src false opts = ECWCreateCopy env f src false opts true)
    ∧ (env.pfnProgress (some 0) = true → ∀ (strict j : Bool),
        ECWCreateCopy env f src strict opts j
          = ((ECWCreateCopy.setup env src).Initialize env f opts src.nRasterXSize
              src.nRasterYSize (src.papoBands.length : Int) eType src.GetProjectionRef
              src.adfGeoTransform j).bind
            fun r => if r.1 ≠ CPLErr.CE_None then some (none, r.2.log)
              else ECWCreateCopy.compress env f r.2) := by
  refine ⟨?_, ?_, ?_⟩
  · intro hext
    refine ⟨?_, ?_, ?_⟩
    · intro ht
      simp [ECWCreateCopyECW, hext, hb, ht]
    · intro ht hx hy
      have hsize : ¬ (src.nRasterXSize < 128 ∨ src.nRasterYSize < 128) := by omega
      simp [ECWCreateCopyECW, hext, hb, ht, hsize]
    · simp [ECWCreateCopyECW, hext, hb]
  · intro hext
    refine ⟨?_, ?_, ?_⟩
    · intro ht
      simp only [List.mem_cons, List.mem_singleton, List.not_mem_nil, or_false, not_or] at ht
      simp [ECWCreateCopyJPEG2000, hext, hb, ht]
    · intro ht
      simp only [List.mem_cons, List.mem_singleton, List.not_mem_nil, or_false] at ht
      unfold ECWCreateCopyJPEG2000
      simp only [hext, hb, Bool.false_eq_true, if_false]
      rw [if_neg]
      rintro ⟨h1, _, h2, h3, h4, h5, h6, h7, _⟩
      rcases ht with ht | ht | ht | ht | ht | ht | ht
      · exact h1 ht
      · exact h2 ht
      · exact h3 ht
      · exact h4 ht
      · exact h5 ht
      · exact h6 ht
      · exact h7 ht
    · simp [ECWCreateCopyJPEG2000, hext, hb]
  · intro hp strict j
    exact ECWCreateCopy_initialize env f src strict opts j eType hb hp

/-- Witness of C24 on a source of 256 x 256 pixels with bands of type UInt16:
the ECW entry point rejects it under strict validation and copies it
otherwise. -/
theorem type_whitelist_when_strict_witness :
    ECWCreateCopyECW Env.accepting "out.ecw" largeSource true []
      = some (none, [Event.CPLError .CE_Failure .CPLE_NotSupported
          "ECW driver doesn't support data type %s. "])
    ∧ ECWCreateCopyECW Env.accepting "out.ecw" largeSource false []
      = ECWCreateCopy Env.accepting "out.ecw" largeSource false [] false := by
  have hw := type_whitelist_when_strict Env.accepting "out.ecw" largeSource [] .GDT_UInt16 rfl
  have h1 := (hw.1 (by decide)).1 (by decide)
  have h2 := (hw.1 (by decide)).2.2
  rw [if_neg (by decide)] at h2
  exact ⟨h1, h2⟩

/-- C25. Destination naming convention.  The ECW entry point returns `NULL`
whenever the extension of the destination name is not `ecw` (compared without
regard to case), and the JPEG2000 entry point whenever it is; in both cases
the only call made is the error report: no progress callback, no
`Initialize`, and the source is not looked at, so the check comes before the
sample-type and size checks. -/
theorem extension_checked_first (env : Env) (f : String) (src : GDALDataset) (strict : Bool)
    (opts : List String) :
    (EQUAL (CPLGetExtension f) "ecw" = false →
      ECWCreateCopyECW env f src strict opts
        = some (none, [Event.CPLError .CE_Failure .CPLE_AppDefined
            "ECW driver does not support creating ECW files"]))
    ∧ (EQUAL (CPLGetExtension f) "ecw" = true →
      ECWCreateCopyJPEG2000 env f src strict opts
        = some (none, [Event.CPLError .CE_Failure .CPLE_AppDefined
            "JP2ECW driver does not support creating JPEG2000 files"])) := by
  constructor
  · intro hext
    simp [ECWCreateCopyECW, hext]
  · intro hext
    simp [ECWCreateCopyJPEG2000, hext]

/-- Witness of C25: the ECW entry point on `out.jp2` and the JPEG2000 entry
point on `out.ECW`, with a source that would pass every other check. -/
theorem extension_checked_first_witness :
    ECWCreateCopyECW Env.accepting "out.jp2" largeSource false []
      = some (none, [Event.CPLError .CE_Failure .CPLE_AppDefined
          "ECW driver does not support creating ECW files"])
    ∧ ECWCreateCopyJPEG2000 Env.accepting "dir/out.ECW" largeSource false []
      = some (none, [Event.CPLError .CE_Failure .CPLE_AppDefined
          "JP2ECW driver does not support creating JPEG2000 files"]) :=
  ⟨(extension_checked_first Env.accepting "out.jp2" largeSource false []).1 (by decide),
   (extension_checked_first Env.accepting "dir/out.ECW" largeSource false []).2 (by decide)⟩

/-- The JPEG2000 entry point goes on to `ECWCreateCopy` when the name passes
and the sample type is of the list or `bStrict` is not set. -/
theorem ECWCreateCopyJPEG2000_pass (env : Env) (f : String) (src : GDALDataset) (strict : Bool)
    (opts : List String) (eType : GDALDataType) (hb : src.papoBands.head? = some eType)
    (hext : EQUAL (CPLGetExtension f) "ecw" = false)
    (ht : eType ∈ [GDALDataType.GDT_Byte, .GDT_Int16, .GDT_UInt16, .GDT_Int32, .GDT_UInt32,
                .GDT_Float32, .GDT_Float64] ∨ strict = false) :
    ECWCreateCopyJPEG2000 env f src strict opts = ECWCreateCopy env f src strict opts true := by
  unfold ECWCreateCopyJPEG2000
  simp only [hext, hb, Bool.false_eq_true, if_false]
  rw [if_neg]
  rintro ⟨h1, _, h2, h3, h4, h5, h6, h7, hs⟩
  rcases ht with ht | ht
  · simp only [List.mem_cons, List.mem_singleton, List.not_mem_nil, or_false] at ht
    rcases ht with ht | ht | ht | ht | ht | ht | ht
    · exact h1 ht
    · exact h2 ht
    · exact h3 ht
    · exact h4 ht
    · exact h5 ht
    · exact h6 ht
    · exact h7 ht
  · rw [ht] at hs
    exact absurd hs (by simp)

/-- C26. Minimum size of the ECW family.  For a source with a first band, the
ECW entry point returns `NULL` after one error report whenever the source is
less than 128 pixels wide or high, with or without `bStrict`; when the name
and the sample type pass, that report is the one about the size.  A source of
at least 128 x 128 whose name and sample type pass goes on to
`ECWCreateCopy`.  The JPEG2000 entry point has no size check: a source whose
name and sample type pass goes on to `ECWCreateCopy` whatever its size. -/
theorem ecw_minimum_size (env : Env) (f : String) (src : GDALDataset) (strict : Bool)
    (opts : List String) (eType : GDALDataType) (hb : src.papoBands.head? = some eType) :
    (src.nRasterXSize < 128 ∨ src.nRasterYSize < 128 →
      (∃ err_no fmt, ECWCreateCopyECW env f src strict opts
        = some (none, [Event.CPLError .CE_Failure err_no fmt]))
      ∧ (EQUAL (CPLGetExtension f) "ecw" = true → (eType = .GDT_Byte ∨ strict = false) →
        ECWCreateCopyECW env f src strict opts
          = some (none, [Event.CPLError .CE_Failure .CPLE_NotSupported
              "ECW driver requires image to be at least 128x128,"])))
    ∧ (128 ≤ src.nRasterXSize → 128 ≤ src.nRasterYSize →
      EQUAL (CPLGetExtension f) "ecw" = true → (eType = .GDT_Byte ∨ strict = false) →
      ECWCreateCopyECW env f src strict opts = ECWCreateCopy env f src strict opts false)
    ∧ (EQUAL (CPLGetExtension f) "ecw" = false →
      (eType ∈ [GDALDataType.GDT_Byte, .GDT_Int16, .GDT_UInt16, .GDT_Int32, .GDT_UInt32,
                .GDT_Float32, .GDT_Float64] ∨ strict = false) →
      ECWCreateCopyJPEG2000 env f src strict opts = ECWCreateCopy env f src strict opts true) := by
  have hpass : (eType = .GDT_Byte ∨ strict = false) → ¬ (eType ≠ .GDT_Byte ∧ strict = true) := by
    rintro (h | h) ⟨h1, h2⟩
    · exact h1 h
    · rw [h] at h2
      exact absurd h2 (by simp)
  refine ⟨?_, ?_, ?_⟩
  · intro hsize
    have hsmall : ECWCreateCopyECW env f src strict opts
          = some (none, [Event.CPLError .CE_Failure .CPLE_NotSupported
              "ECW driver requires image to be at least 128x128,"])
        ∨ ECWCreateCopyECW env f src strict opts
          = some (none, [Event.CPLError .CE_Failure .CPLE_NotSupported
              "ECW driver doesn't support data type %s. "])
        ∨ ECWCreateCopyECW env f src strict opts
          = some (none, [Event.CPLError .CE_Failure .CPLE_AppDefined
              "ECW driver does not support creating ECW files"]) := by
      unfold ECWCreateCopyECW
      cases hext : EQUAL (CPLGetExtension f) "ecw"
      · exact Or.inr (Or.inr (by simp))
      · simp only [Bool.not_true, Bool.false_eq_true, if_false, hb]
        by_cases ht : eType ≠ .GDT_Byte ∧ strict = true
        · exact Or.inr (Or.inl (by rw [if_pos ht]))
        · exact Or.inl (by rw [if_neg ht, if_pos hsize])
    refine ⟨?_, ?_⟩
    · rcases hsmall with h | h | h
      · exact ⟨_, _, h⟩
      · exact ⟨_, _, h⟩
      · exact ⟨_, _, h⟩
    · intro hext ht
      unfold ECWCreateCopyECW
      simp only [hext, Bool.not_true, Bool.false_eq_true, if_false, hb]
      rw [if_neg (hpass ht), if_pos hsize]
  · intro hx hy hext ht
    have hsize : ¬ (src.nRasterXSize < 128 ∨ src.nRasterYSize < 128) := by omega
    unfold ECWCreateCopyECW
    simp only [hext, Bool.not_true, Bool.false_eq_true, if_false, hb]
    rw [if_neg (hpass ht), if_neg hsize]
  · intro hext ht
    exact ECWCreateCopyJPEG2000_pass env f src strict opts eType hb hext ht

/-- Witness of C26: the ECW entry point rejects a source of 2 x 2 pixels for
its size, and the JPEG2000 entry point copies it. -/
theorem ecw_minimum_size_witness :
    ECWCreateCopyECW Env.accepting "out.ecw" smallSource true []
      = some (none, [Event.CPLError .CE_Failure .CPLE_NotSupported
          "ECW driver requires image to be at least 128x128,"])
    ∧ ECWCreateCopyJPEG2000 Env.accepting "out.jp2" smallSource true []
      = ECWCreateCopy Env.accepting "out.jp2" smallSource true [] true :=
  ⟨((ecw_minimum_size Env.accepting "out.ecw" smallSource true [] .GDT_Byte rfl).1
      (Or.inl (by decide))).2 (by decide) (Or.inl rfl),
   (ecw_minimum_size Env.accepting "out.jp2" smallSource true [] .GDT_Byte rfl).2.2
      (by decide) (Or.inl (by decide))⟩

/-! ## Cancellation and closing -/

/-- C27. Cancellation latch.  `WriteCancel` returns false on a new
compressor and changes no member.  After `WriteStatus`, `WriteCancel` returns
true exactly when the progress callback answered false on that call, which is
the last call the log records; this holds in every state, so after any
sequence of `WriteStatus` calls the flag is the negated answer of the most
recent one.  With the callback of the caller installed that answer is the one
of the environment; the callback the constructor installs answers true. -/
theorem cancellation_latch :
    GDALECWCompressor.new.WriteCancel.1 = false
    ∧ (∀ c : GDALECWCompressor, c.WriteCancel.2 = c)
    ∧ (∀ (env : Env) (c : GDALECWCompressor) (n : Nat),
        ((c.WriteStatus env n).WriteCancel.1 = true
          ↔ c.callProgress env (c.dfComplete n) = false)
        ∧ (c.WriteStatus env n).log
            = c.log ++ [Event.pfnProgress (c.dfComplete n) (c.callProgress env (c.dfComplete n))]
        ∧ (c.pfnProgress = .caller →
            c.callProgress env (c.dfComplete n) = env.pfnProgress (c.dfComplete n))
        ∧ (c.pfnProgress = .GDALDummyProgress → c.callProgress env (c.dfComplete n) = true))
    ∧ (∀ (calls : List (Env × Nat)) (c : GDALECWCompressor) (env : Env) (n : Nat),
        (((calls.foldl (fun s p => s.WriteStatus p.1 p.2) c).WriteStatus env n).WriteCancel.1
            = true
          ↔ ∃ dfComplete,
              ((calls.foldl (fun s p => s.WriteStatus p.1 p.2) c).WriteStatus env n).log.getLast?
                = some (Event.pfnProgress dfComplete false))) := by
  have hstep : ∀ (env : Env) (c : GDALECWCompressor) (n : Nat),
      ((c.WriteStatus env n).WriteCancel.1 = true
          ↔ c.callProgress env (c.dfComplete n) = false)
        ∧ (c.WriteStatus env n).log
            = c.log ++ [Event.pfnProgress (c.dfComplete n)
                (c.callProgress env (c.dfComplete n))] := by
    intro env c n
    refine ⟨?_, rfl⟩
    show (!(c.callProgress env (c.dfComplete n))) = true ↔ _
    cases c.callProgress env (c.dfComplete n) <;> simp
  refine ⟨rfl, fun _ => rfl, ?_, ?_⟩
  · intro env c n
    refine ⟨(hstep env c n).1, (hstep env c n).2, ?_, ?_⟩
    · intro h
      simp only [GDALECWCompressor.callProgress, h]
    · intro h
      simp only [GDALECWCompressor.callProgress, h]
  · intro calls c env n
    have hlast : ∀ (l : List Event) (e : Event), (l ++ [e]).getLast? = some e := by
      intro l e
      simp
    rw [(hstep env _ n).1, (hstep env _ n).2, hlast]
    constructor
    · intro h
      exact ⟨_, by rw [h]⟩
    · rintro ⟨df, h⟩
      simp only [Option.some.injEq, Event.pfnProgress.injEq] at h
      exact h.2

/-- C28, counterexample.  After `Initialize` on a subfile window of the host
file `host.jp2` the compressor holds the file handle; it still holds it after
`CloseDown`, and two calls of `CloseDown` close the codec twice and the host
file twice. -/
theorem CloseDown_twice_closes_twice :
    (GDALECWCompressor.new.Initialize Env.accepting "J2K_SUBFILE:0,100,host.jp2" [] 2 2 1
        .GDT_Byte none identityGeoTransform true).map
      (fun r => (r.2.fpVSIL, r.2.CloseDown.2.fpVSIL,
        (r.2.CloseDown.2.CloseDown.2.log.drop r.2.log.length).map Event.name))
      = some (some "host.jp2", some "host.jp2",
          ["Close", "VSIFCloseL", "Close", "VSIFCloseL"]) := by
  decide

/-- C28 (as the code has it).  `CloseDown` returns `CE_None`, closes the codec
session and, when the compressor holds a file handle, closes that file; it
changes no member, so the compressor goes on holding the handle and a second
`CloseDown` makes the same calls again.  When the compressor holds no file
handle, `CloseDown` closes no file, however often it is called. -/
theorem CloseDown_repeats (c : GDALECWCompressor) :
    c.CloseDown.1 = CPLErr.CE_None
    ∧ c.CloseDown.2
        = { c with log := c.log ++ Event.Close :: c.fpVSIL.toList.map Event.VSIFCloseL }
    ∧ c.CloseDown.2.fpVSIL = c.fpVSIL
    ∧ c.CloseDown.2.CloseDown.2.log
        = c.log ++ (Event.Close :: c.fpVSIL.toList.map Event.VSIFCloseL)
            ++ (Event.Close :: c.fpVSIL.toList.map Event.VSIFCloseL)
    ∧ (∀ fp, c.fpVSIL = some fp →
        (c.CloseDown.2.CloseDown.2.log.drop c.log.length).count (Event.VSIFCloseL fp) = 2)
    ∧ (c.fpVSIL = none →
        c.CloseDown.2.CloseDown.2.log = c.log ++ [Event.Close, Event.Close]) := by
  have h1 : c.CloseDown.2
      = { c with log := c.log ++ Event.Close :: c.fpVSIL.toList.map Event.VSIFCloseL } := by
    unfold GDALECWCompressor.CloseDown GDALECWCompressor.emit
    cases hfp : c.fpVSIL <;> simp
  have h2 : c.CloseDown.2.CloseDown.2.log
      = c.log ++ (Event.Close :: c.fpVSIL.toList.map Event.VSIFCloseL)
          ++ (Event.Close :: c.fpVSIL.toList.map Event.VSIFCloseL) := by
    have h3 : ∀ d : GDALECWCompressor, d.CloseDown.2.log
        = d.log ++ Event.Close :: d.fpVSIL.toList.map Event.VSIFCloseL := by
      intro d
      unfold GDALECWCompressor.CloseDown GDALECWCompressor.emit
      cases hfp : d.fpVSIL <;> simp
    rw [h3, h1]
  refine ⟨?_, h1, by rw [h1], h2, ?_, ?_⟩
  · cases hfp : c.fpVSIL <;> simp [GDALECWCompressor.CloseDown, GDALECWCompressor.emit, hfp]
  · intro fp hfp
    rw [h2, hfp, List.append_assoc, List.drop_left]
    simp [List.count_cons]
  · intro hfp
    rw [h2, hfp]
    simp

/-- Witness of C28 on a new compressor, which holds no file handle: two calls
of `CloseDown` close the codec twice and no file. -/
theorem CloseDown_repeats_witness :
    GDALECWCompressor.new.CloseDown.2.CloseDown.2.log = [Event.Close, Event.Close] :=
  (CloseDown_repeats GDALECWCompressor.new).2.2.2.2.2 rfl

/-! ## Geographic systems -/

/-- What the resolver returns for a system that is not local and is
geographic, with no registry hit: `GEODETIC` and the datum of the datum
blocks, when these return. -/
theorem ECWTranslateFromWKT_geographic (env : Env) (wkt p0 d0 : String)
    (srs : OGRSpatialReference)
    (hwkt : wkt.length ≠ 0) (hsrs : env.importFromWkt wkt = srs)
    (hlocal : srs.IsLocal = false) (hgeo : srs.IsGeographic = true)
    (hreg : registryLookup env (epsgCode (topAuthority srs).1 (topAuthority srs).2)
      (topAuthority srs).1 = none) :
    ECWTranslateFromWKT env (some wkt) p0 d0
      = (datumBlocks env (epsgCode (topAuthority srs).1 (topAuthority srs).2)
          (srs.GetAttrValue "GEOGCS") (srs.GetAttrValue "DATUM") "RAW").map fun pszDatum =>
          (true, "GEODETIC", pszDatum) := by
  simp only [ECWTranslateFromWKT, if_neg hwkt, hsrs, hlocal, hreg, strcpy, hgeo,
    Bool.false_eq_true, if_false, if_true]
  cases datumBlocks env (epsgCode (topAuthority srs).1 (topAuthority srs).2)
      (srs.GetAttrValue "GEOGCS") (srs.GetAttrValue "DATUM") "RAW" with
  | none => rfl
  | some pszDatum => rfl

/-- The "well known" chain leaves the datum as it is when no code and no
name matches. -/
theorem wellKnownDatum_unchanged (nEPSGCode : Nat) (g d pszDatum : String)
    (hcode : nEPSGCode ∉ [4326, 4322, 4267, 4269, 4277, 4278, 4201, 4202, 4203, 4209, 4210,
      4275, 4284])
    (hname : ∀ p ∈ [("WGS", "84"), ("WGS", "72"), ("NAD", "27"), ("NAD", "83")],
      (strstr g p.1 && strstr g p.2) = false ∧ (strstr d p.1 && strstr d p.2) = false) :
    wellKnownDatum nEPSGCode (some g) (some d) pszDatum = some pszDatum := by
  simp only [List.mem_cons, List.mem_singleton, List.not_mem_nil, or_false, not_or] at hcode
  obtain ⟨c1, c2, c3, c4, c5, c6, c7, c8, c9, c10, c11, c12, c13⟩ := hcode
  have h1 := hname ("WGS", "84") (by simp)
  have h2 := hname ("WGS", "72") (by simp)
  have h3 := hname ("NAD", "27") (by simp)
  have h4 := hname ("NAD", "83") (by simp)
  simp only at h1 h2 h3 h4
  simp only [wellKnownDatum, wellKnownTest, strstrBoth, if_neg c1, if_neg c2, if_neg c3,
    if_neg c4, h1.1, h1.2, h2.1, h2.2, h3.1, h3.2, h4.1, h4.2, codeDatum, if_neg c5, if_neg c6,
    if_neg c7, if_neg c8, if_neg c9, if_neg c10, if_neg c11, if_neg c12, if_neg c13]

/-- C29. Geographic systems.  Take a coordinate system that is not local and
is geographic, with no registry hit.  When the names of its geographic system
and of its datum are there, the resolver returns `TRUE` with the projection
`GEODETIC`, whatever datum the datum blocks give; whenever the resolver
returns at all, it returns `TRUE` and `GEODETIC`.  When the static table has
no entry that begins with `GEOGCS` under the name of the geographic system,
the authority code is none of those of the "well known" chain, and neither
name contains one of its pairs of words, the datum returned is `RAW`. -/
theorem geographic_is_geodetic (env : Env) (wkt p0 d0 : String) (srs : OGRSpatialReference)
    (hwkt : wkt.length ≠ 0) (hsrs : env.importFromWkt wkt = srs)
    (hlocal : srs.IsLocal = false) (hgeo : srs.IsGeographic = true)
    (hreg : registryLookup env (epsgCode (topAuthority srs).1 (topAuthority srs).2)
      (topAuthority srs).1 = none) :
    (∀ g d, srs.GetAttrValue "GEOGCS" = some g → srs.GetAttrValue "DATUM" = some d →
      ∃ datum, ECWTranslateFromWKT env (some wkt) p0 d0 = some (true, "GEODETIC", datum))
    ∧ (∀ r, ECWTranslateFromWKT env (some wkt) p0 d0 = some r →
        r.1 = true ∧ r.2.1 = "GEODETIC")
    ∧ (∀ g d, srs.GetAttrValue "GEOGCS" = some g → srs.GetAttrValue "DATUM" = some d →
        (∀ m, CSLFetchNameValue env.ECWGetCSList g = some m → EQUALN m "GEOGCS" 6 = false) →
        epsgCode (topAuthority srs).1 (topAuthority srs).2
          ∉ [4326, 4322, 4267, 4269, 4277, 4278, 4201, 4202, 4203, 4209, 4210, 4275, 4284] →
        (∀ p ∈ [("WGS", "84"), ("WGS", "72"), ("NAD", "27"), ("NAD", "83")],
          (strstr g p.1 && strstr g p.2) = false ∧ (strstr d p.1 && strstr d p.2) = false) →
        ECWTranslateFromWKT env (some wkt) p0 d0 = some (true, "GEODETIC", "RAW")) := by
  have hres := ECWTranslateFromWKT_geographic env wkt p0 d0 srs hwkt hsrs hlocal hgeo hreg
  refine ⟨?_, ?_, ?_⟩
  · intro g d hg hd
    obtain ⟨datum, hdatum⟩ := datumBlocks_names env
      (epsgCode (topAuthority srs).1 (topAuthority srs).2) g d "RAW"
    rw [hres, hg, hd, hdatum]
    exact ⟨datum, rfl⟩
  · intro r hr
    rw [hres] at hr
    cases hb : datumBlocks env (epsgCode (topAuthority srs).1 (topAuthority srs).2)
        (srs.GetAttrValue "GEOGCS") (srs.GetAttrValue "DATUM") "RAW" with
    | none =>
      rw [hb] at hr
      exact absurd hr (by simp)
    | some pszDatum =>
      rw [hb] at hr
      simp only [Option.map_some', Option.some.injEq] at hr
      rw [← hr]
      exact ⟨rfl, rfl⟩
  · intro g d hg hd htab hcode hname
    have htable : tableDatum env (some g) "RAW" = "RAW" :=
      tableDatum_unchanged env (some g) "RAW" (fun g2 m hg2 hm => by
        simp only [Option.some.injEq] at hg2
        rw [← hg2] at hm
        exact htab m hm)
    rw [hres, hg, hd]
    unfold datumBlocks
    simp only [htable]
    rw [if_pos (by decide), wellKnownDatum_unchanged _ g d "RAW" hcode hname]
    rfl

/-- Witness of C29 on the geographic system `GDA94` (EPSG:4283), with an
empty registry and an empty static table: `GEODETIC` with the datum `RAW`. -/
theorem geographic_is_geodetic_witness :
    ECWTranslateFromWKT (Env.withSRS gda94Geographic [] emptyRegistry) (some "GEOGCS[GDA94]")
      "RAW" "RAW" = some (true, "GEODETIC", "RAW") :=
  (geographic_is_geodetic (Env.withSRS gda94Geographic [] emptyRegistry) "GEOGCS[GDA94]" "RAW"
    "RAW" gda94Geographic (by decide) rfl rfl rfl (by decide)).2.2
    "GDA94" "Geocentric_Datum_of_Australia_1994" (by decide) (by decide)
    (fun m h => absurd h (by simp [Env.withSRS, CSLFetchNameValue])) (by decide) (by decide)

/-! ## Subfile destinations -/

/-- A decimal digit is no white space, no sign and no comma. -/
theorem isDigit_plain (c : Char) (h : c.isDigit = true) :
    isspace c = false ∧ c ≠ '-' ∧ c ≠ '+' ∧ c ≠ ',' := by
  have hv : 48 ≤ c.toNat ∧ c.toNat ≤ 57 := by
    simp only [Char.isDigit, Bool.and_eq_true, decide_eq_true_eq] at h
    exact ⟨h.1, h.2⟩
  refine ⟨?_, ?_, ?_, ?_⟩
  · unfold isspace
    have h1 : c ≠ ' ' := by rintro rfl; revert h; decide
    have h2 : c ≠ '\t' := by rintro rfl; revert h; decide
    have h3 : c ≠ '\n' := by rintro rfl; revert h; decide
    have h4 : c ≠ '\r' := by rintro rfl; revert h; decide
    have h5 : c.toNat ≠ 11 := by omega
    have h6 : c.toNat ≠ 12 := by omega
    simp [h1, h2, h3, h4, h5, h6]
  · rintro rfl; revert h; decide
  · rintro rfl; revert h; decide
  · rintro rfl; revert h; decide

/-- A run of digits followed by a character that is no digit: `scanDigits`
reads the run and stops at that character. -/
theorem scanDigits_run (ds : List Char) (hds : ∀ c ∈ ds, c.isDigit = true) (c0 : Char)
    (hc0 : c0.isDigit = false) (rest : List Char) (acc : Nat) :
    scanDigits acc (ds ++ c0 :: rest) = ((scanDigits acc ds).1, c0 :: rest) := by
  induction ds generalizing acc with
  | nil => simp [scanDigits, hc0]
  | cons d ds ih =>
    have hd := hds d (List.mem_cons_self _ _)
    simp only [List.cons_append, scanDigits, hd, if_true]
    exact ih (fun c hc => hds c (List.mem_cons_of_mem _ hc)) _

/-- The conversion `%d` on a non-empty run of digits followed by a comma. -/
theorem scanInt_run (ds : List Char) (hne : ds ≠ []) (hds : ∀ c ∈ ds, c.isDigit = true)
    (rest : List Char) :
    scanInt (ds ++ ',' :: rest) = some (((scanDigits 0 ds).1 : Int), ',' :: rest) := by
  cases ds with
  | nil => exact absurd rfl hne
  | cons d ds =>
    have hd := hds d (List.mem_cons_self _ _)
    obtain ⟨hs, hm, hp, _⟩ := isDigit_plain d hd
    have hrun := scanDigits_run (d :: ds) hds ',' (by decide) rest 0
    have hsign : scanSign (d :: (ds ++ ',' :: rest)) = (false, d :: (ds ++ ',' :: rest)) := by
      unfold scanSign
      split
      · rename_i heq
        simp only [List.cons.injEq] at heq
        exact absurd heq.1 hm
      · rename_i heq
        simp only [List.cons.injEq] at heq
        exact absurd heq.1 hp
      · rfl
    simp only [List.cons_append] at hrun
    simp only [scanInt, List.cons_append, List.dropWhile_cons, hs, Bool.false_eq_true, if_false,
      hsign, hd, if_true, hrun]

/-- The first comma of a text: what `strstr(s, ",")` finds. -/
theorem strstrChars_comma (pre rest : List Char) (hpre : ∀ c ∈ pre, c ≠ ',') :
    strstrChars [','] (pre ++ ',' :: rest) = some (',' :: rest) := by
  induction pre with
  | nil => simp [strstrChars, List.isPrefixOf]
  | cons p pre ih =>
    have hp := hpre p (List.mem_cons_self _ _)
    have hne : (',' == p) = false := by
      simp only [beq_eq_false_iff_ne, ne_eq]
      exact fun h => hp h.symm
    simp only [List.cons_append, strstrChars, List.isPrefixOf, hne, Bool.false_and,
      Bool.false_eq_true, if_false]
    exact ih (fun c hc => hpre c (List.mem_cons_of_mem _ hc))

/-- The calls of `setFileInfoAndOpen` on a compressor that holds a file
handle: `SetFileInfo`, then the `Open` on the stream when it succeeded. -/
theorem setFileInfoAndOpen_stream (env : Env) (c : GDALECWCompressor) (f fp : String)
    (hfp : c.fpVSIL = some fp) :
    (c.setFileInfoAndOpen env f).1 = CPLErr.CE_None
    ∧ (c.setFileInfoAndOpen env f).2.log
      = c.log ++ Event.SetFileInfo c.sFileInfo (env.SetFileInfo c.sFileInfo)
          :: (if env.SetFileInfo c.sFileInfo = true then
                [Event.OpenStream fp (env.OpenStream fp)] else [])
    ∧ (c.setFileInfoAndOpen env f).2.fpVSIL = c.fpVSIL
    ∧ (c.setFileInfoAndOpen env f).2.m_OStream = c.m_OStream
    ∧ (c.setFileInfoAndOpen env f).2.sFileInfo = c.sFileInfo := by
  unfold GDALECWCompressor.setFileInfoAndOpen
  cases hok : env.SetFileInfo c.sFileInfo
  · simp [GDALECWCompressor.emit]
  · simp [GDALECWCompressor.emit, hfp]

/-- A number that fits an `int` is stored as it is. -/
theorem storeInt_fits (v : Int) (h1 : -2147483648 ≤ v) (h2 : v < 2147483648) :
    storeInt v = v := by
  unfold storeInt
  rw [min_eq_left (by omega), max_eq_right (by omega)]
  omega

/-- A name made of the prefix `J2K_SUBFILE:`, a run of digits, a comma, a run
of digits, a comma and a host name: what `sscanf` and the two `strstr` calls
of `Initialize` read from it. -/
theorem subfile_name_parsed (f : String) (d1 d2 host : List Char)
    (h1ne : d1 ≠ []) (h1 : ∀ c ∈ d1, c.isDigit = true)
    (h2ne : d2 ≠ []) (h2 : ∀ c ∈ d2, c.isDigit = true)
    (hf : f.data = "J2K_SUBFILE:".data ++ (d1 ++ ',' :: (d2 ++ ',' :: host))) :
    EQUALN f "J2K_SUBFILE:" 12 = true
    ∧ sscanfSubfile f
        = some (storeInt ((scanDigits 0 d1).1 : Int), storeInt ((scanDigits 0 d2).1 : Int))
    ∧ realFilename f = some ⟨host⟩ := by
  have hP : "J2K_SUBFILE:".data
      = ['J', '2', 'K', '_', 'S', 'U', 'B', 'F', 'I', 'L', 'E', ':'] := rfl
  refine ⟨?_, ?_, ?_⟩
  · unfold EQUALN
    rw [hf, hP]
    simp
  · unfold sscanfSubfile
    rw [hf]
    have hpre : ("J2K_SUBFILE:".data).isPrefixOf
        ("J2K_SUBFILE:".data ++ (d1 ++ ',' :: (d2 ++ ',' :: host))) = true := by
      rw [hP]
      simp [List.isPrefixOf]
    have hdrop : ("J2K_SUBFILE:".data ++ (d1 ++ ',' :: (d2 ++ ',' :: host))).drop 12
        = d1 ++ ',' :: (d2 ++ ',' :: host) := by
      rw [hP]
      simp
    rw [if_pos hpre, hdrop, scanInt_run d1 h1ne h1]
    simp only
    rw [scanInt_run d2 h2ne h2]
  · unfold realFilename
    have hpre : ∀ c ∈ "J2K_SUBFILE:".data ++ d1, c ≠ ',' := by
      intro c hc
      rcases List.mem_append.1 hc with h | h
      · have hall : ∀ c ∈ "J2K_SUBFILE:".data, c ≠ ',' := by decide
        exact hall c h
      · exact (isDigit_plain c (h1 c h)).2.2.2
    have hfirst := strstrChars_comma ("J2K_SUBFILE:".data ++ d1) (d2 ++ ',' :: host) hpre
    have hsecond := strstrChars_comma d2 host (fun c hc => (isDigit_plain c (h2 c hc)).2.2.2)
    rw [hf, ← List.append_assoc, hfirst]
    simp only
    rw [hsecond]

/-- The parse of `sscanf` needs the prefix in exactly its spelling. -/
theorem sscanfSubfile_prefix (f : String) (r : Int × Int) (h : sscanfSubfile f = some r) :
    ("J2K_SUBFILE:".data).isPrefixOf f.data = true := by
  unfold sscanfSubfile at h
  by_cases hp : ("J2K_SUBFILE:".data).isPrefixOf f.data = true
  · exact hp
  · rw [if_neg hp] at h
    exact absurd h (by simp)

/-- C30, counterexample.  The name `j2k_subfile:0,100,host.jp2` begins with
the subfile prefix when compared without regard to case, and the prefix is
followed by two integers separated by a comma, a second comma and a host
name; `Initialize` reports a parse error and returns `CE_Failure` without
opening a file.  With the prefix in upper case it opens `host.jp2` with the
window (0, 100). -/
theorem lowercase_subfile_prefix_rejected :
    EQUALN "j2k_subfile:0,100,host.jp2" "J2K_SUBFILE:" 12 = true
    ∧ (GDALECWCompressor.new.Initialize Env.accepting "j2k_subfile:0,100,host.jp2" [] 2 2 1
        .GDT_Byte none identityGeoTransform true).map
      (fun r => (r.1, r.2.log.map fun e => (e.name, e.ok)))
      = some (CPLErr.CE_Failure, [("CPLError", true)])
    ∧ (GDALECWCompressor.new.Initialize Env.accepting "J2K_SUBFILE:0,100,host.jp2" [] 2 2 1
        .GDT_Byte none identityGeoTransform true).map
      (fun r => (r.1, r.2.log.map fun e => (e.name, e.ok)))
      = some (CPLErr.CE_None,
          [("VSIFOpenL", true), ("Access", true), ("SetFileInfo", true), ("OpenStream", true)])
    ∧ (GDALECWCompressor.new.Initialize Env.accepting "J2K_SUBFILE:0,100,host.jp2" [] 2 2 1
        .GDT_Byte none identityGeoTransform true).map (fun r => r.2.m_OStream)
      = some (some ("host.jp2", 0, 100)) := by
  decide

/-- C30 (as the code has it).  Take a destination name that begins with
`J2K_SUBFILE:` when compared without regard to case, and arguments that pass
the checks before the subfile block.  When `sscanf` does not read two integers
from the name, or the name has no second comma, `Initialize` reports the parse
error and returns `CE_Failure`, having opened no file.  Otherwise it opens the
text after the second comma as host file; when that succeeds the window of
the output stream is (offset, length) on that file and `Initialize` goes on
with `SetFileInfo`, and when it fails `Initialize` reports it and returns
`CE_Failure`.  `sscanf` reads two integers only from a name that begins with
the prefix in exactly this spelling; from a name made of the prefix, a run of
digits, a comma, a run of digits, a comma and a host name it reads the values
of the two runs when each is below `2^31` and so fits the `int` it is stored
in, and the text after the second comma is the host name.  A run with a
larger value is not stored as it is: from `99999999999` the `int` holds
1215752191. -/
theorem subfile_destination (env : Env) (c : GDALECWCompressor) (f : String)
    (opts : List String) (x y n : Int) (t : GDALDataType) (w : Option String)
    (g : GeoTransform) (j : Bool) (pd : String × String)
    (hsub : EQUALN f "J2K_SUBFILE:" 12 = true) (hn : n ≠ 0)
    (ht : ¬ ((CSLFetchNameValue opts "TARGET").isSome
          ∧ (targetCompression env opts < 1 ∨ targetCompression env opts > 100)))
    (hpd : projectionAndDatum env opts w = some pd) :
    ((sscanfSubfile f = none ∨ realFilename f = none) →
      ∃ c1, c.Initialize env f opts x y n t w g j = some (CPLErr.CE_Failure, c1)
        ∧ c1.fpVSIL = none
        ∧ c1.log = c.log ++ configureEvents env opts y g j
            ++ [Event.CPLError .CE_Failure .CPLE_OpenFailed
                  "Failed to parse J2K_SUBFILE specification."])
    ∧ (∀ off size real, sscanfSubfile f = some (off, size) → realFilename f = some real →
        (env.VSIFOpenL real = true →
          ∃ c1, c.Initialize env f opts x y n t w g j = some (CPLErr.CE_None, c1)
            ∧ c1.fpVSIL = some real
            ∧ c1.m_OStream = some (real, off, size)
            ∧ c1.log = c.log ++ configureEvents env opts y g j
                ++ [Event.VSIFOpenL real true, Event.Access real off size,
                    Event.SetFileInfo c1.sFileInfo (env.SetFileInfo c1.sFileInfo)]
                ++ (if env.SetFileInfo c1.sFileInfo = true then
                      [Event.OpenStream real (env.OpenStream real)] else []))
        ∧ (env.VSIFOpenL real = false →
          ∃ c1, c.Initialize env f opts x y n t w g j = some (CPLErr.CE_Failure, c1)
            ∧ c1.log = c.log ++ configureEvents env opts y g j
                ++ [Event.VSIFOpenL real false,
                    Event.CPLError .CE_Failure .CPLE_OpenFailed "Failed to open %s."]))
    ∧ (sscanfSubfile f ≠ none → ("J2K_SUBFILE:".data).isPrefixOf f.data = true)
    ∧ (∀ d1 d2 host : List Char, d1 ≠ [] → (∀ c ∈ d1, c.isDigit = true) →
        d2 ≠ [] → (∀ c ∈ d2, c.isDigit = true) →
        f.data = "J2K_SUBFILE:".data ++ (d1 ++ ',' :: (d2 ++ ',' :: host)) →
        (scanDigits 0 d1).1 < 2147483648 → (scanDigits 0 d2).1 < 2147483648 →
        sscanfSubfile f = some (((scanDigits 0 d1).1 : Int), ((scanDigits 0 d2).1 : Int))
        ∧ realFilename f = some ⟨host⟩)
    ∧ sscanfSubfile "J2K_SUBFILE:99999999999,100,host.jp2" = some (1215752191, 100) := by
  have hinit : c.Initialize env f opts x y n t w g j
      = some ((c.configure env opts x y n t g j pd.1 pd.2).openDestination env f) := by
    unfold GDALECWCompressor.Initialize
    rw [if_neg hn, if_neg ht, hpd]
  refine ⟨?_, ?_, ?_, ?_, by decide⟩
  · intro hbad
    rw [hinit]
    unfold GDALECWCompressor.openDestination
    rw [if_pos hsub]
    cases hs : sscanfSubfile f with
    | none =>
      exact ⟨_, rfl, rfl, by simp [GDALECWCompressor.emit, GDALECWCompressor.configure]⟩
    | some p =>
      obtain ⟨off, size⟩ := p
      rcases hbad with hbad | hbad
      · rw [hs] at hbad
        exact absurd hbad (by simp)
      · simp only [hbad]
        exact ⟨_, rfl, rfl, by simp [GDALECWCompressor.emit, GDALECWCompressor.configure]⟩
  · intro off size real hs hr
    constructor
    · intro hopen
      rw [hinit]
      unfold GDALECWCompressor.openDestination
      rw [if_pos hsub]
      simp only [hs, hr, hopen, if_true]
      obtain ⟨h1, h2, h3, h4, h5⟩ := setFileInfoAndOpen_stream env
        (GDALECWCompressor.emit { (GDALECWCompressor.emit
          { c.configure env opts x y n t g j pd.1 pd.2 with fpVSIL := none }
          (Event.VSIFOpenL real true)) with
          fpVSIL := some real, m_OStream := some (real, off, size) }
          (Event.Access real off size)) f real rfl
      refine ⟨_, congrArg some (Prod.ext h1 rfl), h3, h4, ?_⟩
      rw [h2, h5]
      simp [GDALECWCompressor.emit, GDALECWCompressor.configure]
    · intro hopen
      rw [hinit]
      unfold GDALECWCompressor.openDestination
      rw [if_pos hsub]
      simp only [hs, hr, hopen, Bool.false_eq_true, if_false]
      exact ⟨_, rfl, by simp [GDALECWCompressor.emit, GDALECWCompressor.configure]⟩
  · intro hs
    cases hr : sscanfSubfile f with
    | none => exact absurd hr hs
    | some r => exact sscanfSubfile_prefix f r hr
  · intro d1 d2 host h1ne h1 h2ne h2 hf hb1 hb2
    obtain ⟨_, hs, hr⟩ := subfile_name_parsed f d1 d2 host h1ne h1 h2ne h2 hf
    rw [storeInt_fits _ (by omega) (by omega), storeInt_fits _ (by omega) (by omega)] at hs
    exact ⟨hs, hr⟩

/-- Witness of C30 on the name `J2K_SUBFILE:0,100,host.jp2`: the host file
opened is `host.jp2` and the window is (0, 100). -/
theorem subfile_destination_witness :
    ∃ c1, GDALECWCompressor.new.Initialize Env.accepting "J2K_SUBFILE:0,100,host.jp2" [] 2 2 1
        .GDT_Byte none identityGeoTransform true = some (CPLErr.CE_None, c1)
      ∧ c1.fpVSIL = some "host.jp2" ∧ c1.m_OStream = some ("host.jp2", 0, 100) := by
  have hw := subfile_destination Env.accepting GDALECWCompressor.new "J2K_SUBFILE:0,100,host.jp2"
    [] 2 2 1 .GDT_Byte none identityGeoTransform true ("RAW", "RAW") (by decide) (by decide)
    (by decide) (by decide)
  obtain ⟨c1, h1, h2, h3, _⟩ := (hw.2.1 0 100 "host.jp2" (by decide) (by decide)).1 (by decide)
  exact ⟨c1, h1, h2, h3⟩

/-! ## Datum heuristics -/

/-- The model of `strstr` finds a needle exactly when it occurs in the text,
character for character. -/
theorem strstrChars_isSome (needle hay : List Char) :
    (strstrChars needle hay).isSome = true ↔ needle <:+: hay := by
  induction hay with
  | nil =>
    unfold strstrChars
    rw [List.infix_nil]
    cases needle <;> simp
  | cons c cs ih =>
    unfold strstrChars
    rw [List.infix_cons_iff, ← ih, ← List.isPrefixOf_iff_prefix]
    by_cases hp : needle.isPrefixOf (c :: cs) = true
    · simp [hp]
    · simp [hp]

theorem strstr_containsText (s sub : String) : strstr s sub = containsText s sub := by
  unfold strstr containsText
  have h := strstrChars_isSome sub.data s.data
  cases hs : (strstrChars sub.data s.data).isSome
  · rw [hs] at h
    symm
    rw [decide_eq_false_iff_not]
    intro hi
    exact absurd (h.2 hi) (by simp)
  · rw [hs] at h
    symm
    rw [decide_eq_true_iff]
    exact h.1 rfl

/-- One test of the "well known" chain when both names are there. -/
theorem wellKnownTest_names (nEPSGCode code : Nat) (g d a b : String) :
    wellKnownTest nEPSGCode code (some g) (some d) a b
      = some (decide (nEPSGCode = code)
          || ((containsText g a && containsText g b)
              || (containsText d a && containsText d b))) := by
  unfold wellKnownTest strstrBoth
  simp only [strstr_containsText]
  by_cases hc : nEPSGCode = code
  · simp [hc]
  · rw [if_neg hc]
    cases hg : (containsText g a && containsText g b) <;> simp [hc]

/-- The "well known" chain of the source gives the datum of the first rule
that matches. -/
theorem wellKnownDatum_firstMatch (nEPSGCode : Nat) (g d pszDatum : String) :
    wellKnownDatum nEPSGCode (some g) (some d) pszDatum
      = some (firstMatch nEPSGCode g d pszDatum) := by
  unfold wellKnownDatum firstMatch heuristicRules
  simp only [wellKnownTest_names, List.find?_cons, ruleMatches]
  cases h1 : (decide (nEPSGCode = 4326)
      || ((containsText g "WGS" && containsText g "84")
          || (containsText d "WGS" && containsText d "84")))
  · cases h2 : (decide (nEPSGCode = 4322)
        || ((containsText g "WGS" && containsText g "72")
            || (containsText d "WGS" && containsText d "72")))
    · cases h3 : (decide (nEPSGCode = 4267)
          || ((containsText g "NAD" && containsText g "27")
              || (containsText d "NAD" && containsText d "27")))
      · cases h4 : (decide (nEPSGCode = 4269)
            || ((containsText g "NAD" && containsText g "83")
                || (containsText d "NAD" && containsText d "83")))
        · simp only [codeDatum, Bool.or_false, List.find?_nil]
          by_cases c5 : nEPSGCode = 4277
          · simp [c5]
          by_cases c6 : nEPSGCode = 4278
          · simp [c6]
          by_cases c7 : nEPSGCode = 4201
          · simp [c7]
          by_cases c8 : nEPSGCode = 4202
          · simp [c8]
          by_cases c9 : nEPSGCode = 4203
          · simp [c9]
          by_cases c10 : nEPSGCode = 4209
          · simp [c10]
          by_cases c11 : nEPSGCode = 4210
          · simp [c11]
          by_cases c12 : nEPSGCode = 4275
          · simp [c12]
          by_cases c13 : nEPSGCode = 4284
          · simp [c13]
          simp [c5, c6, c7, c8, c9, c10, c11, c12, c13]
        · rfl
      · rfl
    · rfl
  · rfl

/-- C31. Datum heuristics.  For a system that names its geographic system `g`
and its datum `d`: when the datum after the static-table step no longer
compares equal to `RAW` (the source compares without regard to case), the
heuristics are not applied and that datum stays; when it does, the datum is
the one of the first rule that matches, in the order WGS84, WGS72DOD, NAD27,
NAD83, then the nine exact codes, and it stays as it is when no rule matches.
The datum after the static-table step is `g` when the entry found under `g`
begins with `GEOGCS`, and `RAW` otherwise.  The containment test of the
source, `strstr`, holds exactly when the word occurs in the name character
for character, and both words of a rule have to occur in the same name.  So
a name that contains `WGS` and `84` gives `WGS84` whatever else it contains,
and the lower-case name `wgs84` matches nothing; each of the nine exact codes
gives its datum when no name matches.  The code the rules compare with is the
one of the authority node: for a geographic system whose `GEOGCS` node has the
authority EPSG with a positive code, without a complete registry answer for
that code and without `GEOGCS` entry in the static table, the resolver
returns `GEODETIC` with the datum of the first rule that matches that code or
the names; for one whose authority is not named EPSG, the datum of the first
rule that matches the names. -/
theorem datum_heuristics (env : Env) (nEPSGCode : Nat) (g d : String) :
    (EQUAL (tableDatum env (some g) "RAW") "RAW" = false →
      datumBlocks env nEPSGCode (some g) (some d) "RAW"
        = some (tableDatum env (some g) "RAW"))
    ∧ (EQUAL (tableDatum env (some g) "RAW") "RAW" = true →
      datumBlocks env nEPSGCode (some g) (some d) "RAW"
        = some (firstMatch nEPSGCode g d (tableDatum env (some g) "RAW")))
    ∧ (∀ m, CSLFetchNameValue env.ECWGetCSList g = some m → EQUALN m "GEOGCS" 6 = true →
        tableDatum env (some g) "RAW" = g)
    ∧ ((∀ m, CSLFetchNameValue env.ECWGetCSList g = some m → EQUALN m "GEOGCS" 6 = false) →
        tableDatum env (some g) "RAW" = "RAW")
    ∧ (∀ s sub : String, strstr s sub = true ↔ sub.data <:+: s.data)
    ∧ (∀ pszDatum, containsText g "WGS" = true → containsText g "84" = true →
        firstMatch nEPSGCode g d pszDatum = "WGS84")
    ∧ firstMatch 0 "WGS 84, formerly WGS 72" "unnamed" "RAW" = "WGS84"
    ∧ firstMatch 0 "wgs84" "wgs84" "RAW" = "RAW"
    ∧ firstMatch 0 "WGS" "D_1984" "RAW" = "RAW"
    ∧ firstMatch 4322 "NAD27" "unnamed" "RAW" = "WGS72DOD"
    ∧ (∀ r ∈ [(4326, "WGS84"), (4322, "WGS72DOD"), (4267, "NAD27"), (4269, "NAD83"),
          (4277, "OSGB36"), (4278, "OSGB78"), (4201, "ADINDAN"), (4202, "AGD66"),
          (4203, "AGD84"), (4209, "ARC1950"), (4210, "ARC1960"), (4275, "NTF"),
          (4284, "PULKOVO")], firstMatch r.1 "World" "unnamed" "RAW" = r.2)
    ∧ (∀ (wkt p0 d0 code name : String) (srs : OGRSpatialReference),
        wkt.length ≠ 0 → env.importFromWkt wkt = srs → srs.IsLocal = false →
        srs.IsProjected = false → srs.IsGeographic = true →
        srs.GetAuthorityCode "GEOGCS" = some code → srs.GetAuthorityName "GEOGCS" = some name →
        EQUAL name "EPSG" = true → 0 < atoi code →
        (∀ p d, env.GetProjectionAndDatum (atoi code) ≠ (true, some p, some d)) →
        srs.GetAttrValue "GEOGCS" = some g → srs.GetAttrValue "DATUM" = some d →
        (∀ m, CSLFetchNameValue env.ECWGetCSList g = some m → EQUALN m "GEOGCS" 6 = false) →
        ECWTranslateFromWKT env (some wkt) p0 d0
          = some (true, "GEODETIC", firstMatch (atoi code).toNat g d "RAW"))
    ∧ (∀ (wkt p0 d0 : String) (srs : OGRSpatialReference),
        wkt.length ≠ 0 → env.importFromWkt wkt = srs → srs.IsLocal = false →
        srs.IsProjected = false → srs.IsGeographic = true →
        (∀ name, srs.GetAuthorityName "GEOGCS" = some name → EQUAL name "EPSG" = false) →
        srs.GetAttrValue "GEOGCS" = some g → srs.GetAttrValue "DATUM" = some d →
        (∀ m, CSLFetchNameValue env.ECWGetCSList g = some m → EQUALN m "GEOGCS" 6 = false) →
        ECWTranslateFromWKT env (some wkt) p0 d0
          = some (true, "GEODETIC", firstMatch 0 g d "RAW")) := by
  have hraw : (∀ m, CSLFetchNameValue env.ECWGetCSList g = some m →
      EQUALN m "GEOGCS" 6 = false) → tableDatum env (some g) "RAW" = "RAW" := by
    intro htab
    exact tableDatum_unchanged env (some g) "RAW" (fun g2 m hg2 hm => by
      simp only [Option.some.injEq] at hg2
      rw [← hg2] at hm
      exact htab m hm)
  have hres : ∀ (wkt p0 d0 : String) (srs : OGRSpatialReference) (k : Nat),
      wkt.length ≠ 0 → env.importFromWkt wkt = srs → srs.IsLocal = false →
      srs.IsGeographic = true →
      registryLookup env (epsgCode (topAuthority srs).1 (topAuthority srs).2)
        (topAuthority srs).1 = none →
      srs.GetAttrValue "GEOGCS" = some g → srs.GetAttrValue "DATUM" = some d →
      (∀ m, CSLFetchNameValue env.ECWGetCSList g = some m → EQUALN m "GEOGCS" 6 = false) →
      epsgCode (topAuthority srs).1 (topAuthority srs).2 = k →
      ECWTranslateFromWKT env (some wkt) p0 d0
        = some (true, "GEODETIC", firstMatch k g d "RAW") := by
    intro wkt p0 d0 srs k hwkt hsrs hlocal hgeo hreg hg hd htab hcode
    rw [ECWTranslateFromWKT_geographic env wkt p0 d0 srs hwkt hsrs hlocal hgeo hreg, hg, hd,
      hcode]
    unfold datumBlocks
    simp only [hraw htab]
    rw [if_pos (by decide), wellKnownDatum_firstMatch]
    rfl
  refine ⟨?_, ?_, ?_, hraw, ?_, ?_, by decide, by decide, by decide, by decide, by decide,
    ?_, ?_⟩
  · intro hE
    unfold datumBlocks
    simp only [hE, Bool.false_eq_true, if_false]
  · intro hE
    unfold datumBlocks
    simp only [hE, if_true]
    exact wellKnownDatum_firstMatch nEPSGCode g d _
  · intro m hm hgeo
    unfold tableDatum
    simp only [hm, hgeo, if_true, strcpy]
  · intro s sub
    unfold strstr
    exact strstrChars_isSome sub.data s.data
  · intro pszDatum h1 h2
    unfold firstMatch heuristicRules
    simp [List.find?_cons, ruleMatches, h1, h2]
  · intro wkt p0 d0 code name srs hwkt hsrs hlocal hproj hgeo hc hn hE hpos hreg hg hd htab
    have htop := topAuthority_geographic srs hproj hgeo
    apply hres wkt p0 d0 srs _ hwkt hsrs hlocal hgeo _ hg hd htab
    · rw [htop, hc, hn]
      exact (epsgCode_EPSG code name hE hpos (atoi_lt code)).1
    · rw [htop, hc]
      exact registryLookup_none env _ _ (fun c hcc p d => by
        simp only [Option.some.injEq] at hcc
        rw [← hcc]
        exact hreg p d)
  · intro wkt p0 d0 srs hwkt hsrs hlocal hproj hgeo hname hg hd htab
    have htop := topAuthority_geographic srs hproj hgeo
    have hzero : epsgCode (topAuthority srs).1 (topAuthority srs).2 = 0 := by
      rw [htop]
      exact epsgCode_other _ _ hname
    apply hres wkt p0 d0 srs 0 hwkt hsrs hlocal hgeo _ hg hd htab hzero
    rw [hzero]
    unfold registryLookup
    rw [if_neg (by simp)]

/-- Witness of C31, with an empty static table and an empty registry: on the
geographic system EPSG:4277 named `OSGB 1936` the code rule gives `OSGB36`,
and on a geographic system named `WGS 84` without authority node the first
name rule gives `WGS84`. -/
theorem datum_heuristics_witness :
    ECWTranslateFromWKT (Env.withSRS osgb36Geographic [] emptyRegistry)
      (some "GEOGCS[OSGB 1936]") "RAW" "RAW" = some (true, "GEODETIC", "OSGB36")
    ∧ ECWTranslateFromWKT (Env.withSRS wgs84Geographic [] emptyRegistry)
      (some "GEOGCS[WGS 84]") "RAW" "RAW" = some (true, "GEODETIC", "WGS84") := by
  have h1 := (datum_heuristics (Env.withSRS osgb36Geographic [] emptyRegistry) 0 "OSGB 1936"
    "OSGB_1936").2.2.2.2.2.2.2.2.2.2.2.1 "GEOGCS[OSGB 1936]" "RAW" "RAW" "4277" "EPSG"
    osgb36Geographic (by decide) rfl rfl rfl rfl (by decide) (by decide) (by decide) (by decide)
    (fun p d h => absurd h (by simp [Env.withSRS, emptyRegistry])) (by decide) (by decide)
    (fun m h => absurd h (by simp [Env.withSRS, CSLFetchNameValue]))
  have h2 := (datum_heuristics (Env.withSRS wgs84Geographic [] emptyRegistry) 0 "WGS 84"
    "WGS_1984").2.2.2.2.2.2.2.2.2.2.2.2 "GEOGCS[WGS 84]" "RAW" "RAW" wgs84Geographic (by decide)
    rfl rfl rfl rfl (fun name h => absurd h (by simp [wgs84Geographic])) (by decide) (by decide)
    (fun m h => absurd h (by simp [Env.withSRS, CSLFetchNameValue]))
  rw [h1, h2]
  exact ⟨by decide, by decide⟩

/-! ## The compression rate at the ends of the accepted range -/

/-- For a target from 1 up to, but not including, 100 the divisor of the
compression rate is not zero and the rate is an integer of at least 1. -/
theorem compressionRate_defined (t : ℚ) (h1 : 1 ≤ t) (h2 : t < 100) :
    100 - t ≠ 0 ∧ ∃ r, compressionRate t = some r ∧ 1 ≤ r := by
  have hpos : (0 : ℚ) < 100 - t := by linarith
  have hd : (100 : ℚ) - t ≠ 0 := ne_of_gt hpos
  have hq : (1 : ℚ) ≤ 100 / (100 - t) := by
    rw [le_div_iff₀ hpos]
    linarith
  refine ⟨hd, ?_⟩
  unfold compressionRate
  rw [if_neg hd]
  simp only [gt_iff_lt, not_lt.mpr hq, if_false]
  have hnum : 0 ≤ (100 / (100 - t)).num := by
    rw [Rat.num_nonneg]
    linarith
  refine ⟨_, rfl, ?_⟩
  rw [Int.tdiv_eq_ediv hnum (by positivity), ← Rat.floor_def, Int.le_floor]
  exact_mod_cast hq

/-- At the target 100 the divisor is zero and the rate has no value. -/
theorem compressionRate_100 : (100 : ℚ) - 100 = 0 ∧ compressionRate 100 = none := by
  refine ⟨by norm_num, ?_⟩
  unfold compressionRate
  rw [if_pos (by norm_num)]

/-- C32, the code at the target 100.  `Initialize` with the option
`TARGET=100` passes the range check, since 100 is neither below 1 nor above
100; the divisor `100 - fTargetCompression` is then zero and the compression
rate written to the file description has no defined value, while
`Initialize` goes on and returns `CE_None`.  For every target from 1 up to,
but not including, 100 the divisor is not zero and the rate is an integer of
at least 1. -/
theorem target_100_divides_by_zero :
    CSLFetchNameValue ["TARGET=100"] "TARGET" = some "100"
    ∧ targetCompression Env.accepting ["TARGET=100"] = 100
    ∧ (100 : ℚ) - targetCompression Env.accepting ["TARGET=100"] = 0
    ∧ (GDALECWCompressor.new.Initialize Env.accepting "out.ecw" ["TARGET=100"] 2 2 1 .GDT_Byte
        none identityGeoTransform false).map (fun r => (r.1, r.2.sFileInfo.nCompressionRate))
      = some (CPLErr.CE_None, none)
    ∧ (∀ t : ℚ, 1 ≤ t → t < 100 → 100 - t ≠ 0 ∧ ∃ r, compressionRate t = some r ∧ 1 ≤ r) := by
  have htc : targetCompression Env.accepting ["TARGET=100"] = 100 := by decide
  refine ⟨by decide, htc, by rw [htc]; norm_num, ?_, compressionRate_defined⟩
  obtain ⟨c1, h⟩ := exists_of_map_fst
    (GDALECWCompressor.new.Initialize Env.accepting "out.ecw" ["TARGET=100"] 2 2 1 .GDT_Byte
      none identityGeoTransform false) CPLErr.CE_None (by decide)
  obtain ⟨pd, evs, _, hinfo, _⟩ := Initialize_fileInfo Env.accepting GDALECWCompressor.new c1
    "out.ecw" ["TARGET=100"] 2 2 1 .GDT_Byte none identityGeoTransform false h
  have hrate : c1.sFileInfo.nCompressionRate = none := by
    rw [hinfo]
    show (compressionRate (targetCompression Env.accepting ["TARGET=100"])).map (· % 65536)
      = none
    rw [htc, compressionRate_100.2]
    rfl
  rw [h]
  simp only [Option.map_some', hrate]

/-! ## Sample width of the buffer and of the codec -/

/-- C33, the code on a complex sample type.  A dataset of 2 x 2 pixels with
one band of type CFloat32 sizes its scanline buffer with 8 bytes per sample,
the size of the declared type; `Initialize` configures the codec with the
cell type IEEE4 and 32 bits per sample.  In a session that writes both lines,
each scanline handed to the codec with the cell type IEEE4 has one band
segment of 16 bytes, where 2 samples of that cell type take 8.  The two
sample widths agree exactly for Byte, UInt16, Int16, UInt32, Int32, Float32,
Float64 and CInt16. -/
theorem complex_sample_width_mismatch :
    GDALGetDataTypeSize .GDT_CFloat32 / 8 = 8
    ∧ (cellTypeOf .GDT_CFloat32).1 = .NCSCT_IEEE4
    ∧ (cellTypeOf .GDT_CFloat32).2.1 / 8 = 4
    ∧ ((complexDataset.writeAll
          (sessionCalls (fun _ _ => Env.accepting) (fun k _ => List.replicate 16 (k + 1))
            (fun _ => [1]) 2)).bind
        fun s => (s.destructor Env.accepting).map fun s2 =>
          (pushedCells s2.oCompressor.log,
            (fileInfos s2.oCompressor.log).map fun i =>
              (i.eCellType, i.pBands.map fun b => b.nBits)))
      = some ([(.NCSCT_IEEE4, [16]), (.NCSCT_IEEE4, [16])], [(.NCSCT_IEEE4, [32])])
    ∧ (∀ t : GDALDataType,
        GDALGetDataTypeSize t / 8 = (cellTypeOf t).2.1 / 8
          ↔ t ∈ [GDALDataType.GDT_Byte, .GDT_UInt16, .GDT_Int16, .GDT_UInt32, .GDT_Int32,
                  .GDT_Float32, .GDT_Float64, .GDT_CInt16]) := by
  refine ⟨by decide, by decide, by decide, by decide, ?_⟩
  intro t
  cases t <;> decide

end ECW
